import Mathlib

/-!
# Physics layer and forward renderer of the engine

A shallow embedding of `source/common/components/bullet-collider.cpp`,
`source/common/systems/physics-system.cpp`,
`source/common/systems/forward-renderer.cpp` and
`source/common/mesh/mesh-utils.cpp`.

Conventions of the embedding

* `float` scalars are exact rationals (`ℚ`); `glm::vec3`, `glm::vec4`,
  `glm::quat`, `glm::mat4` are records of rationals, `glm::mat4` by columns.
* A nullable pointer is an `Option`; a pointer to a heap object that the code
  later mutates or compares (collider components, rigid bodies, motion
  states) is an address (`Nat`) into a store. A component holds a copy of
  its owner, which is what a statement about one collider needs; where
  several colliders are synchronised in one call, the owner is the pointer
  `getOwner()` into a store of entities (`Scene`), shared by the components
  of one entity.
* Functions of the Bullet and glm libraries and of the entity class, none of
  which is part of these sources, are taken as the parameter `External`.
* `GLuint` arithmetic is arithmetic modulo `2 ^ 32`; arithmetic on `int` is
  exact, its overflow being undefined in C++.
* A destructor is the list of the `delete`s it performs, in order.
* `render` returns the OpenGL calls it makes, in order; dereferencing a null
  mesh or material, which is undefined in C++, gives no result (`none`).
-/

namespace our

/-! ## Vectors and matrices -/

/-- The record `glm::vec3` (also used for `btVector3`). -/
structure Vec3 where
  x : ℚ
  y : ℚ
  z : ℚ
deriving DecidableEq

/-- The record `glm::vec2`. -/
structure Vec2 where
  x : ℚ
  y : ℚ
deriving DecidableEq

/-- The record `glm::vec4`. -/
structure Vec4 where
  x : ℚ
  y : ℚ
  z : ℚ
  w : ℚ
deriving DecidableEq

/-- The record `glm::quat` (also used for `btQuaternion`), components x, y, z, w. -/
structure Quat where
  x : ℚ
  y : ℚ
  z : ℚ
  w : ℚ
deriving DecidableEq

/-- The matrix `glm::mat4`, stored by columns: `m[3]` is `c3`. -/
structure Mat4 where
  c0 : Vec4
  c1 : Vec4
  c2 : Vec4
  c3 : Vec4
deriving DecidableEq

/-- Component-wise sum `a + b` of `glm::vec3`. -/
def Vec3.add (a b : Vec3) : Vec3 := ⟨a.x + b.x, a.y + b.y, a.z + b.z⟩

/-- Component-wise difference `a - b` of `glm::vec3`. -/
def Vec3.sub (a b : Vec3) : Vec3 := ⟨a.x - b.x, a.y - b.y, a.z - b.z⟩

/-- The conversion `glm::vec4(v, w)`. -/
def Vec4.ofVec3 (v : Vec3) (w : ℚ) : Vec4 := ⟨v.x, v.y, v.z, w⟩

/-- The conversion `glm::vec3(v)` of a `glm::vec4`: its x, y, z part. -/
def Vec4.xyz (v : Vec4) : Vec3 := ⟨v.x, v.y, v.z⟩

/-- The product `m * v` of a `glm::mat4` and a `glm::vec4`. -/
def Mat4.mulVec (m : Mat4) (v : Vec4) : Vec4 :=
  ⟨m.c0.x * v.x + m.c1.x * v.y + m.c2.x * v.z + m.c3.x * v.w,
   m.c0.y * v.x + m.c1.y * v.y + m.c2.y * v.z + m.c3.y * v.w,
   m.c0.z * v.x + m.c1.z * v.y + m.c2.z * v.z + m.c3.z * v.w,
   m.c0.w * v.x + m.c1.w * v.y + m.c2.w * v.z + m.c3.w * v.w⟩

/-- The identity matrix `glm::mat4(1.0f)`. -/
def Mat4.identity : Mat4 :=
  ⟨⟨1, 0, 0, 0⟩, ⟨0, 1, 0, 0⟩, ⟨0, 0, 1, 0⟩, ⟨0, 0, 0, 1⟩⟩

/-! ## Meshes (`mesh.hpp`) -/

/-- The four bytes of `our::Color`. -/
structure Color where
  r : Nat
  g : Nat
  b : Nat
  a : Nat
deriving DecidableEq

/-- The record `our::Vertex`: `{position, color, tex_coord, normal}`. -/
structure Vertex where
  position : Vec3
  color : Color
  tex_coord : Vec2
  normal : Vec3
deriving DecidableEq

/-- The record `Mesh::Submesh`; `offset` and `count` are `GLuint`. -/
structure Submesh where
  offset : Nat
  count : Nat
  materialName : String
deriving DecidableEq

/-- The class `our::Mesh`, as far as collision and drawing use it: the CPU-side
`vertices`, `elements` and `submeshes`, and `ebo`, the content of the GPU element
buffer that `glGetBufferSubData` reads back (a list of 32-bit indices); the
name `VAO` of its vertex array and `elementCount`, which the constructor sets
to `elements.size()`. -/
structure Mesh where
  vertices : List Vertex
  elements : List Nat
  submeshes : List Submesh
  ebo : List Nat
  VAO : Nat := 0
  elementCount : Nat := elements.length
deriving DecidableEq

/-! ## Entities -/

/-- The record `Transform` of an entity: position, rotation (Euler angles), scale. -/
structure Transform where
  position : Vec3
  rotation : Vec3
  scale : Vec3
deriving DecidableEq

/-- The enumeration `CameraType`. -/
inductive CameraType where
  | ORTHOGRAPHIC
  | PERSPECTIVE
deriving DecidableEq

/-- The class `CameraComponent`: the fields that `deserialize` fills. -/
structure CameraComponent where
  cameraType : CameraType
  near : ℚ
  far : ℚ
  fovY : ℚ
  orthoHeight : ℚ
deriving DecidableEq

/-- The class `Material` and its subclasses, as far as `render` reads them:
the shader (the name of its program; shader pointers are taken to be valid)
and the `transparent` flag. `setup()` is virtual and appears as one call. -/
structure Material where
  shader : Nat
  transparent : Bool
deriving DecidableEq

/-- The class `MeshRendererComponent`: the two pointers that `deserialize`
fills, each `none` for `nullptr`. -/
structure MeshRendererComponent where
  mesh : Option Mesh
  material : Option Material
deriving DecidableEq

/-- The class `Entity`, as far as physics and rendering use it: its name, its
parent (an address, `none` for a root), its local transform, and the results
of `getComponent<CameraComponent>()` and `getComponent<MeshRendererComponent>()`
(`none` for `nullptr`). An entity is the owner of its components. -/
structure Entity where
  name : String
  parent : Option Nat
  localTransform : Transform
  camera : Option CameraComponent := none
  meshRenderer : Option MeshRendererComponent := none
deriving DecidableEq

/-! ## Collision shapes -/

/-- The enumeration `CollisionShape` of `bullet-collider.hpp`. -/
inductive CollisionShape where
  | BOX
  | SPHERE
  | CAPSULE
  | CYLINDER
  | MESH
  | CONVEX_HULL
deriving DecidableEq

/-- A triangle handed to `btTriangleMesh::addTriangle`. -/
structure Triangle where
  v0 : Vec3
  v1 : Vec3
  v2 : Vec3
deriving DecidableEq

/-- The Bullet shapes that `createShape` constructs, each with the arguments
of its constructor call. -/
inductive Shape where
  | box (halfExtents : Vec3)
  | sphere (radius : ℚ)
  | capsule (radius height : ℚ)
  | cylinder (halfExtents : Vec3)
  | bvhTriangleMesh (triangles : List Triangle)
  | convexHull (points : List Vec3)
deriving DecidableEq

/-- The rigid transform `btTransform`: origin and rotation. -/
structure btTransform where
  origin : Vec3
  rotation : Quat
deriving DecidableEq

/-- The transform after `setIdentity()`: origin `(0,0,0)`, rotation `(0,0,0,1)`. -/
def btTransform.identity : btTransform := ⟨⟨0, 0, 0⟩, ⟨0, 0, 0, 1⟩⟩

/-- The configuration and the three Bullet pointers of
`BulletColliderComponent`. `owner` is the result of `getOwner()`,
`rigidBody` and `motionState` are addresses into the stores of `Heap`. -/
structure BulletColliderComponent where
  owner : Option Entity
  collisionShape : Option Shape
  rigidBody : Option Nat
  motionState : Option Nat
  shapeType : CollisionShape
  size : Vec3
  mass : ℚ
  friction : ℚ
  restitution : ℚ
  isTrigger : Bool
  centerOffset : Vec3
  mesh : Option Mesh

/-- The state of a component right after its constructor, attached to `owner`. -/
def BulletColliderComponent.new (owner : Option Entity) : BulletColliderComponent :=
  { owner := owner, collisionShape := none, rigidBody := none, motionState := none,
    shapeType := CollisionShape.BOX, size := ⟨1, 1, 1⟩, mass := 0, friction := 1 / 2,
    restitution := 0, isTrigger := false, centerOffset := ⟨0, 0, 0⟩, mesh := none }

/-- One read `v[i]` of a `std::vector<unsigned int>`. A read past the end is
undefined in C++; here it yields 0. In `createShape` this only happens in the
submesh loop when `i + 2` wraps around `2 ^ 32`. -/
def vecRead (v : List Nat) (i : Nat) : Nat := v.getD i 0

/-- The vertex `mesh->vertices[idx].position` pushed through `transform`:
the x, y, z of `transform * glm::vec4(position, 1.0f)`. Only called with
`idx < vertices.size()`. -/
def bakeVertex (transform : Mat4) (vertices : List Vertex) (idx : Nat) : Vec3 :=
  match vertices.get? idx with
  | some v => (transform.mulVec (Vec4.ofVec3 v.position 1)).xyz
  | none => (transform.mulVec (Vec4.ofVec3 ⟨0, 0, 0⟩ 1)).xyz

/-- The body of both triangle loops: the bounds test on the three indices
and the `addTriangle` call; the result is the list of triangles added (none or one). -/
def addTriangleIfValid (transform : Mat4) (vertices : List Vertex)
    (idx0 idx1 idx2 : Nat) : List Triangle :=
  if idx0 < vertices.length ∧ idx1 < vertices.length ∧ idx2 < vertices.length then
    [⟨bakeVertex transform vertices idx0, bakeVertex transform vertices idx1,
      bakeVertex transform vertices idx2⟩]
  else []

/-- The loop `for (size_t i = 0; i + 2 < elements.size(); i += 3)` of the
direct-elements path, started at `i`; the result lists the triangles added,
in order. The first argument bounds the number of iterations. -/
def elementsLoop (transform : Mat4) (vertices : List Vertex) (elements : List Nat) :
    Nat → Nat → List Triangle
  | 0, _ => []
  | fuel + 1, i =>
    if i + 2 < elements.length then
      addTriangleIfValid transform vertices
          (vecRead elements i) (vecRead elements (i + 1)) (vecRead elements (i + 2))
        ++ elementsLoop transform vertices elements fuel (i + 3)
    else []

/-- The triangles of the direct-elements path. Each iteration advances `i` by
three, so `elements.size()` iterations are never exhausted. -/
def elementsTriangles (transform : Mat4) (vertices : List Vertex) (elements : List Nat) :
    List Triangle :=
  elementsLoop transform vertices elements elements.length 0

/-- The loop `for (GLuint i = ...; i < offset + count - 2; i += 3)` of the
submesh path, started at `i`, with `bound` the value of `offset + count - 2`;
`i + 2`, `i + 1` and `i += 3` are `GLuint` operations. The result lists the
triangles added, in order. The first argument bounds the number of iterations. -/
def submeshLoop (transform : Mat4) (vertices : List Vertex) (indices : List Nat)
    (bound : Nat) : Nat → Nat → List Triangle
  | 0, _ => []
  | fuel + 1, i =>
    if i < bound then
      (if (i + 2) % 2 ^ 32 < indices.length then
        addTriangleIfValid transform vertices
          (vecRead indices i) (vecRead indices ((i + 1) % 2 ^ 32))
          (vecRead indices ((i + 2) % 2 ^ 32))
       else [])
        ++ submeshLoop transform vertices indices bound fuel ((i + 3) % 2 ^ 32)
    else []

/-- The number of further iterations after which the counter of the submesh
loop, stepping by 3 modulo `2 ^ 32` from `i`, has the value `2 ^ 32 - 1`: a
pass up to the end of the range, and one more pass for each unit of `i % 3`,
since each wrap-around lowers the residue modulo 3 by one. No loop bound
exceeds `2 ^ 32 - 1`, so the loop has stopped by then. -/
def submeshSteps (i : Nat) : Nat := ((i % 3) * 2 ^ 32 + (2 ^ 32 - 1 - i)) / 3

/-- The triangles one submesh contributes: the loop from `submesh.offset`
with bound `submesh.offset + submesh.count - 2` in `GLuint` arithmetic. The
counter runs through at most `2 ^ 32` values before the loop stops
(`submeshLoop_fuel`). -/
def submeshTriangles (transform : Mat4) (vertices : List Vertex) (indices : List Nat)
    (submesh : Submesh) : List Triangle :=
  submeshLoop transform vertices indices
    ((submesh.offset % 2 ^ 32 + submesh.count % 2 ^ 32 + (2 ^ 32 - 2)) % 2 ^ 32)
    (2 ^ 32) (submesh.offset % 2 ^ 32)

/-- The triangles added to `triMesh` in the MESH case for a mesh with
vertices: from `elements` if it is not empty, otherwise from the element
buffer over all submeshes in order, otherwise none. `triangleCount` is the
length of this list. -/
def meshTriangles (transform : Mat4) (mesh : Mesh) : List Triangle :=
  if mesh.elements ≠ [] then
    elementsTriangles transform mesh.vertices mesh.elements
  else if mesh.submeshes ≠ [] then
    (mesh.submeshes.map (submeshTriangles transform mesh.vertices mesh.ebo)).flatten
  else []

/-- The method `BulletColliderComponent::createShape`. It is private and
called only from `initialize`, after the null test on the owner, so the
owner's world matrix `transform` (`getOwner()->getLocalToWorldMatrix()`) is an
argument. The result is the returned pointer: `none` is `nullptr`. -/
def createShape (c : BulletColliderComponent) (transform : Mat4) : Option Shape :=
  match c.shapeType with
  | CollisionShape.BOX =>
    some (Shape.box ⟨c.size.x * (1 / 2), c.size.y * (1 / 2), c.size.z * (1 / 2)⟩)
  | CollisionShape.SPHERE => some (Shape.sphere c.size.x)
  | CollisionShape.CAPSULE => some (Shape.capsule c.size.x c.size.y)
  | CollisionShape.CYLINDER =>
    some (Shape.cylinder ⟨c.size.x, c.size.y * (1 / 2), c.size.z⟩)
  | CollisionShape.MESH =>
    match c.mesh with
    | some mesh =>
      if mesh.vertices ≠ [] then
        if 0 < (meshTriangles transform mesh).length then
          some (Shape.bvhTriangleMesh (meshTriangles transform mesh))
        else some (Shape.box ⟨10, 10, 10⟩)
      else some (Shape.box ⟨10, 10, 10⟩)
    | none => some (Shape.box ⟨10, 10, 10⟩)
  | CollisionShape.CONVEX_HULL =>
    match c.mesh with
    | some _ => some (Shape.convexHull [])
    | none => some (Shape.box ⟨1 / 2, 1 / 2, 1 / 2⟩)

/-! ## Library and engine functions outside these sources -/

/-- The arguments of `btRigidBody::btRigidBodyConstructionInfo` as `initialize`
fills them: the four constructor arguments, then `m_friction`, `m_restitution`. -/
structure btRigidBodyConstructionInfo where
  m_mass : ℚ
  m_motionState : Option Nat
  m_collisionShape : Shape
  m_localInertia : Vec3
  m_friction : ℚ
  m_restitution : ℚ

/-- The state of a `btRigidBody` that the physics layer reads or writes.
`motionState` is an address into `Heap.motionStates`, `userPointer` the
address of a collider component. -/
structure btRigidBody where
  mass : ℚ
  motionState : Option Nat
  collisionShape : Shape
  localInertia : Vec3
  friction : ℚ
  restitution : ℚ
  angularFactor : Vec3
  linearFactor : Vec3
  gravity : Vec3
  activationState : Nat
  collisionFlags : Nat
  userPointer : Option Nat
  worldTransform : btTransform
  linearVelocity : Vec3

/-- The arguments of one call `stepSimulation(timeStep, maxSubSteps, fixedTimeStep)`. -/
structure StepCall where
  timeStep : ℚ
  maxSubSteps : Nat
  fixedTimeStep : ℚ
deriving DecidableEq

/-- The fields of `btCollisionWorld::ClosestRayResultCallback` that `raycast`
reads after `rayTest`: the result of `hasHit()`, the hit point and normal, and
the object hit (an address into `Heap.rigidBodies`, `none` for a null pointer). -/
structure ClosestRayResultCallback where
  hasHit : Bool
  m_hitPointWorld : Vec3
  m_hitNormalWorld : Vec3
  m_collisionObject : Option Nat
deriving DecidableEq

/-- The class `btDiscreteDynamicsWorld`, as far as the physics layer observes
it: the bodies in the world (addresses into `Heap.rigidBodies`, in insertion
order) and the world gravity. `stepCalls` records, in order, the calls of
`stepSimulation` made on this world. -/
structure btDiscreteDynamicsWorld where
  collisionObjects : List Nat
  gravity : Vec3
  stepCalls : List StepCall := []

/-- What the sources use but do not define: the entity's world matrix, glm's
`quat_cast`, and of Bullet the inertia of a shape, the state of a freshly
constructed body in the fields its construction info does not give, the two
body fields that `addRigidBody` may rewrite (Bullet gives a non-static body
the world's gravity and puts a static one to sleep), and two constants; what
one `stepSimulation` call does to the bodies and motion states, the
activation state that `activate()` leaves a body in, and the result of
`rayTest`; glm's `normalize`, `lookAt`, `perspective` and `ortho`. -/
structure External where
  getLocalToWorldMatrix : Entity → Mat4
  quat_cast : Mat4 → Quat
  calculateLocalInertia : Shape → ℚ → Vec3
  freshBody : btRigidBodyConstructionInfo → btRigidBody
  gravityOnAdd : btDiscreteDynamicsWorld → btRigidBody → Vec3
  activationStateOnAdd : btDiscreteDynamicsWorld → btRigidBody → Nat
  CF_NO_CONTACT_RESPONSE : Nat
  DISABLE_DEACTIVATION : Nat
  simulate : btDiscreteDynamicsWorld → List btRigidBody → List btTransform → StepCall →
    List btRigidBody × List btTransform
  activationStateOnActivate : btRigidBody → Nat
  rayTest : btDiscreteDynamicsWorld → List btRigidBody → Vec3 → Vec3 →
    ClosestRayResultCallback
  normalize : Vec3 → Vec3
  lookAt : Vec3 → Vec3 → Vec3 → Mat4
  perspective : ℚ → ℚ → ℚ → ℚ → Mat4
  ortho : ℚ → ℚ → ℚ → ℚ → ℚ → ℚ → Mat4

/-- The constructor call `new btRigidBody(rbInfo)`: mass, motion state, shape,
inertia, friction and restitution are those of `rbInfo`, every other field is
the library's initial value. -/
def btRigidBody.new (ext : External) (rbInfo : btRigidBodyConstructionInfo) : btRigidBody :=
  { ext.freshBody rbInfo with
    mass := rbInfo.m_mass
    motionState := rbInfo.m_motionState
    collisionShape := rbInfo.m_collisionShape
    localInertia := rbInfo.m_localInertia
    friction := rbInfo.m_friction
    restitution := rbInfo.m_restitution }

/-- The call `world->addRigidBody(body)` for the body at address `p`: the
body joins the world's objects; the library may rewrite its gravity and
activation state and keeps its other fields. -/
def btDiscreteDynamicsWorld.addRigidBody (ext : External) (world : btDiscreteDynamicsWorld)
    (p : Nat) (body : btRigidBody) : btDiscreteDynamicsWorld × btRigidBody :=
  ({ world with collisionObjects := world.collisionObjects ++ [p] },
   { body with
     gravity := ext.gravityOnAdd world body
     activationState := ext.activationStateOnAdd world body })

/-- The call `world->removeRigidBody(body)` for the body at address `p`: the
body leaves the world's objects (nothing happens if it is not among them). -/
def btDiscreteDynamicsWorld.removeRigidBody (world : btDiscreteDynamicsWorld) (p : Nat) :
    btDiscreteDynamicsWorld :=
  { world with collisionObjects := world.collisionObjects.erase p }

/-! ## `BulletColliderComponent::initialize` -/

/-- The objects reached through pointers: the collider components by address,
and the rigid bodies and motion states allocated so far; `new` appends, so the
address of a new object is the current length of its store. -/
structure Heap where
  components : Nat → BulletColliderComponent
  rigidBodies : List btRigidBody
  motionStates : List btTransform

/-- The value of `startTransform` when the motion state is created
(lines 210-227 of `bullet-collider.cpp`). -/
def startTransform (ext : External) (c : BulletColliderComponent) (owner : Entity) :
    btTransform :=
  if c.shapeType = CollisionShape.MESH ∧ c.mass = 0 then
    { origin := ⟨0, 0, 0⟩, rotation := ⟨0, 0, 0, 1⟩ }
  else
    { origin := (ext.getLocalToWorldMatrix owner).c3.xyz.add c.centerOffset
      rotation := ext.quat_cast (ext.getLocalToWorldMatrix owner) }

/-- The value of `localInertia` handed to the construction info (lines 232-235). -/
def localInertia (ext : External) (c : BulletColliderComponent) (shape : Shape) : Vec3 :=
  if 0 < c.mass ∧ c.isTrigger = false then ext.calculateLocalInertia shape c.mass
  else ⟨0, 0, 0⟩

/-- The construction info `rbInfo` (lines 238-240). -/
def constructionInfo (ext : External) (c : BulletColliderComponent) (shape : Shape)
    (motionState : Nat) : btRigidBodyConstructionInfo :=
  { m_mass := c.mass
    m_motionState := some motionState
    m_collisionShape := shape
    m_localInertia := localInertia ext c shape
    m_friction := c.friction
    m_restitution := c.restitution }

/-- The block `if (mass > 0.0f && !isTrigger)` of lines 245-251. -/
def characterConfiguration (ext : External) (c : BulletColliderComponent)
    (body : btRigidBody) : btRigidBody :=
  if 0 < c.mass ∧ c.isTrigger = false then
    { body with
      angularFactor := ⟨0, 0, 0⟩
      gravity := ⟨0, 0, 0⟩
      activationState := ext.DISABLE_DEACTIVATION
      linearFactor := ⟨1, 1, 1⟩
      friction := 1 }
  else body

/-- The block `if (isTrigger)` of lines 254-257. -/
def triggerConfiguration (ext : External) (c : BulletColliderComponent)
    (body : btRigidBody) : btRigidBody :=
  if c.isTrigger = true then
    { body with collisionFlags := body.collisionFlags ||| ext.CF_NO_CONTACT_RESPONSE }
  else body

/-- The body as `initialize` has configured it when it reaches `// Add to world`
(lines 238-257): constructed from `rbInfo`, then the two conditional blocks. -/
def configuredBody (ext : External) (c : BulletColliderComponent) (shape : Shape)
    (motionState : Nat) : btRigidBody :=
  triggerConfiguration ext c
    (characterConfiguration ext c
      (btRigidBody.new ext (constructionInfo ext c shape motionState)))

/-- The block `if (world) { world->addRigidBody(rigidBody); }` (lines 260-262)
for the body `body` at address `p`: the world and the body afterwards. -/
def addToWorld (ext : External) (world : Option btDiscreteDynamicsWorld) (p : Nat)
    (body : btRigidBody) : Option btDiscreteDynamicsWorld × btRigidBody :=
  match world with
  | some w => (some (w.addRigidBody ext p body).1, (w.addRigidBody ext p body).2)
  | none => (none, body)

/-- The method `BulletColliderComponent::initialize(world)` on the component
at address `this`; `world` is the pointed-to world (`none` for `nullptr`) and
is returned with the body added. (`initialize` is a reserved word of Lean.) -/
def initializeCollider (ext : External) (h : Heap) (this : Nat)
    (world : Option btDiscreteDynamicsWorld) : Heap × Option btDiscreteDynamicsWorld :=
  let c := h.components this
  match c.owner with
  | none => (h, world)
  | some owner =>
    match createShape c (ext.getLocalToWorldMatrix owner) with
    | none =>
      ({ h with components := Function.update h.components this
                  { c with collisionShape := none } }, world)
    | some shape =>
      let motionState := h.motionStates.length
      let rigidBody := h.rigidBodies.length
      let body := configuredBody ext c shape motionState
      let added := addToWorld ext world rigidBody body
      ({ components := Function.update h.components this
           { c with collisionShape := some shape
                    motionState := some motionState
                    rigidBody := some rigidBody }
         rigidBodies := h.rigidBodies ++ [{ added.2 with userPointer := some this }]
         motionStates := h.motionStates ++ [startTransform ext c owner] },
       added.1)

/-! ## `PhysicsSystem` -/

/-- The members of `PhysicsSystem` that its methods read or write: the world
(`none` until `initialize`), the gravity and the tracked colliders (addresses
of components). -/
structure PhysicsSystem where
  dynamicsWorld : Option btDiscreteDynamicsWorld
  gravity : Vec3
  colliders : List Nat

/-- The constructor `PhysicsSystem::PhysicsSystem()`. -/
def PhysicsSystem.new : PhysicsSystem :=
  { dynamicsWorld := none, gravity := ⟨0, -981 / 100, 0⟩, colliders := [] }

/-- The method `PhysicsSystem::setGravity`. -/
def PhysicsSystem.setGravity (sys : PhysicsSystem) (gravityVec : Vec3) : PhysicsSystem :=
  { sys with
    gravity := gravityVec
    dynamicsWorld := sys.dynamicsWorld.map fun w => { w with gravity := gravityVec } }

/-- The method `PhysicsSystem::initialize(gravityVec)`: a new, empty world,
then `setGravity`. The gravity of the new world before `setGravity` is
immaterial. -/
def PhysicsSystem.initializeSystem (sys : PhysicsSystem) (gravityVec : Vec3) : PhysicsSystem :=
  PhysicsSystem.setGravity
    { sys with dynamicsWorld := some { collisionObjects := [], gravity := gravityVec } }
    gravityVec

/-- The method `PhysicsSystem::registerCollider(collider)`; `collider` is the
pointer argument, `none` for `nullptr`. -/
def PhysicsSystem.registerCollider (ext : External) (h : Heap) (sys : PhysicsSystem)
    (collider : Option Nat) : Heap × PhysicsSystem :=
  match collider, sys.dynamicsWorld with
  | some c, some w =>
    ((initializeCollider ext h c (some w)).1,
     { sys with
       dynamicsWorld := (initializeCollider ext h c (some w)).2
       colliders := sys.colliders ++ [c] })
  | _, _ => (h, sys)

/-- The method `PhysicsSystem::removeCollider(collider)`; `collider` is the
pointer argument, `none` for `nullptr`. It writes to no component. -/
def PhysicsSystem.removeCollider (h : Heap) (sys : PhysicsSystem)
    (collider : Option Nat) : PhysicsSystem :=
  match collider, sys.dynamicsWorld with
  | some c, some w =>
    { sys with
      dynamicsWorld :=
        some (match (h.components c).rigidBody with
              | some p => w.removeRigidBody p
              | none => w)
      colliders := sys.colliders.erase c }
  | _, _ => sys

/-! ## Stepping, synchronisation, ray casting -/

/-- The call `world->stepSimulation(timeStep, maxSubSteps, fixedTimeStep)`:
the library moves bodies and motion states; the call is recorded in
`stepCalls`. It neither adds nor removes objects and writes to no component. -/
def btDiscreteDynamicsWorld.stepSimulation (ext : External) (h : Heap)
    (world : btDiscreteDynamicsWorld) (timeStep : ℚ) (maxSubSteps : Nat)
    (fixedTimeStep : ℚ) : Heap × btDiscreteDynamicsWorld :=
  ({ h with
     rigidBodies := (ext.simulate world h.rigidBodies h.motionStates
       ⟨timeStep, maxSubSteps, fixedTimeStep⟩).1
     motionStates := (ext.simulate world h.rigidBodies h.motionStates
       ⟨timeStep, maxSubSteps, fixedTimeStep⟩).2 },
   { world with stepCalls := world.stepCalls ++ [⟨timeStep, maxSubSteps, fixedTimeStep⟩] })

/-- The transform that `rigidBody->getMotionState()->getWorldTransform(trans)`
reads for the body at address `p`. Going through a dangling or null pointer
is undefined in C++; here it reads the identity transform. -/
def bodyMotionState (h : Heap) (p : Nat) : btTransform :=
  match h.rigidBodies.get? p with
  | some body =>
    match body.motionState with
    | some m => (h.motionStates.get? m).getD btTransform.identity
    | none => btTransform.identity
  | none => btTransform.identity

/-- The method `BulletColliderComponent::syncToEntity` on the component at
address `this`. The owner is held by the component, so the write to
`getOwner()->localTransform.position` is a write to the component's owner. -/
def syncToEntity (h : Heap) (this : Nat) : Heap :=
  match (h.components this).rigidBody, (h.components this).owner with
  | some p, some owner =>
    if (h.components this).mass = 0 then h
    else
      { h with
        components := Function.update h.components this
          { h.components this with
            owner := some
              { owner with
                localTransform :=
                  { owner.localTransform with
                    position := (bodyMotionState h p).origin.sub
                      (h.components this).centerOffset } } } }
  | _, _ => h

/-- One write `body->f(...)` to the body at address `p`; nothing is written
through a dangling pointer. -/
def Heap.modifyBody (h : Heap) (p : Nat) (f : btRigidBody → btRigidBody) : Heap :=
  match h.rigidBodies.get? p with
  | some body => { h with rigidBodies := h.rigidBodies.set p (f body) }
  | none => h

/-- The call `m->setWorldTransform(trans)` on the motion state pointer `m`
(`none` for a null pointer, through which nothing is written). -/
def Heap.setMotionState (h : Heap) (m : Option Nat) (trans : btTransform) : Heap :=
  match m with
  | some a => { h with motionStates := h.motionStates.set a trans }
  | none => h

/-- The transform `trans` that `syncFromEntity` builds from the owner (lines 287-293). -/
def entityTransform (ext : External) (c : BulletColliderComponent) (owner : Entity) :
    btTransform :=
  { origin := (ext.getLocalToWorldMatrix owner).c3.xyz.add c.centerOffset
    rotation := ext.quat_cast (ext.getLocalToWorldMatrix owner) }

/-- The method `BulletColliderComponent::syncFromEntity` on the component at
address `this`. For `mass > 0`: `setWorldTransform`, the same on the body's
motion state, `setLinearVelocity(0, 0, 0)`, `activate()`. Otherwise:
`setWorldTransform` and, if the component's `motionState` is not null, the
same on it. -/
def syncFromEntity (ext : External) (h : Heap) (this : Nat) : Heap :=
  match (h.components this).rigidBody, (h.components this).owner with
  | some p, some owner =>
    if 0 < (h.components this).mass then
      (((h.modifyBody p fun b =>
            { b with worldTransform := entityTransform ext (h.components this) owner }
          ).setMotionState ((h.rigidBodies.get? p).bind fun b => b.motionState)
            (entityTransform ext (h.components this) owner)
        ).modifyBody p fun b => { b with linearVelocity := ⟨0, 0, 0⟩ }
      ).modifyBody p fun b => { b with activationState := ext.activationStateOnActivate b }
    else
      (h.modifyBody p fun b =>
          { b with worldTransform := entityTransform ext (h.components this) owner }
        ).setMotionState (h.components this).motionState
          (entityTransform ext (h.components this) owner)
  | _, _ => h

/-- The method `PhysicsSystem::syncFromEntities`; the tracked pointers are
never null. -/
def PhysicsSystem.syncFromEntities (ext : External) (h : Heap) (sys : PhysicsSystem) : Heap :=
  sys.colliders.foldl (fun heap c => syncFromEntity ext heap c) h

/-- The loop of `update` over the tracked colliders (lines 99-103). -/
def syncLoop (h : Heap) (colliders : List Nat) : Heap :=
  colliders.foldl
    (fun heap c => if 0 < (heap.components c).mass then syncToEntity heap c else heap) h

/-- The method `PhysicsSystem::update(deltaTime)`. -/
def PhysicsSystem.update (ext : External) (h : Heap) (sys : PhysicsSystem) (deltaTime : ℚ) :
    Heap × PhysicsSystem :=
  match sys.dynamicsWorld with
  | none => (h, sys)
  | some w =>
    (syncLoop (w.stepSimulation ext h deltaTime 10 (1 / 60)).1 sys.colliders,
     { sys with dynamicsWorld := some (w.stepSimulation ext h deltaTime 10 (1 / 60)).2 })

/-- Consecutive calls `update(dt)`, one for each element of `deltaTimes`. -/
def updates (ext : External) (h : Heap) (sys : PhysicsSystem) (deltaTimes : List ℚ) :
    Heap × PhysicsSystem :=
  deltaTimes.foldl (fun st dt => PhysicsSystem.update ext st.1 st.2 dt) (h, sys)

/-- The tag `obj->getUserPointer()` of the body at address `p`, as a collider
address (`none` for a null tag; a dangling `p` reads as null). -/
def bodyTag (h : Heap) (p : Nat) : Option Nat :=
  (h.rigidBodies.get? p).bind fun body => body.userPointer

/-- The method `PhysicsSystem::raycast`. The reference parameters `hitPoint`
and `hitNormal` and the pointee of `hitCollider` are passed in and returned;
`hitCollider = none` is a null out-parameter. The result is the returned
flag and the three outputs. -/
def PhysicsSystem.raycast (ext : External) (h : Heap) (sys : PhysicsSystem)
    (start finish hitPoint hitNormal : Vec3) (hitCollider : Option (Option Nat)) :
    Bool × Vec3 × Vec3 × Option (Option Nat) :=
  match sys.dynamicsWorld with
  | none => (false, hitPoint, hitNormal, hitCollider)
  | some w =>
    if (ext.rayTest w h.rigidBodies start finish).hasHit = true then
      (true, (ext.rayTest w h.rigidBodies start finish).m_hitPointWorld,
       (ext.rayTest w h.rigidBodies start finish).m_hitNormalWorld,
       match hitCollider with
       | some old =>
         match (ext.rayTest w h.rigidBodies start finish).m_collisionObject with
         | some obj => some (bodyTag h obj)
         | none => some old
       | none => none)
    else (false, hitPoint, hitNormal, hitCollider)

/-- The value that `syncToEntity` leaves in a component `c`, given the bodies
and motion states of `h`: the same component with the owner's position
replaced, or `c` itself when a guard of `syncToEntity` stops it. -/
def syncedComponent (h : Heap) (c : BulletColliderComponent) : BulletColliderComponent :=
  match c.rigidBody, c.owner with
  | some p, some owner =>
    if c.mass = 0 then c
    else
      { c with
        owner := some
          { owner with
            localTransform :=
              { owner.localTransform with
                position := (bodyMotionState h p).origin.sub c.centerOffset } } }
  | _, _ => c

/-! ## Synchronisation through the owner pointer -/

/-- The heap together with the entities that the pointers `getOwner()` reach:
`entities` is the store of the entities by address and `getOwner c` is the
address that `getOwner()` returns for the component at address `c` (`none`
for `nullptr`). All components of one entity have the same pointer, so a
write through it is seen by each of them. The copy of the owner that a
component of `heap` holds is not read by the functions on a `Scene`. -/
structure Scene where
  heap : Heap
  entities : Nat → Entity
  getOwner : Nat → Option Nat

/-- The method `BulletColliderComponent::syncToEntity` (lines 268-282) on the
component at address `this`, with the write
`getOwner()->localTransform.position = position` made to the entity store. -/
def Scene.syncToEntity (s : Scene) (this : Nat) : Scene :=
  match (s.heap.components this).rigidBody, s.getOwner this with
  | some p, some e =>
    if (s.heap.components this).mass = 0 then s
    else
      { s with
        entities := Function.update s.entities e
          { s.entities e with
            localTransform :=
              { (s.entities e).localTransform with
                position := (bodyMotionState s.heap p).origin.sub
                  (s.heap.components this).centerOffset } } }
  | _, _ => s

/-- The body of the loop of `update` (lines 100-102) for one tracked collider. -/
def Scene.syncStep (s : Scene) (c : Nat) : Scene :=
  if 0 < (s.heap.components c).mass then s.syncToEntity c else s

/-- The loop of `update` over the tracked colliders (lines 99-103). -/
def Scene.syncLoop (s : Scene) (colliders : List Nat) : Scene :=
  colliders.foldl Scene.syncStep s

/-- The method `PhysicsSystem::update(deltaTime)` (lines 91-104): the step of
the world, which moves bodies and motion states, then the loop. -/
def Scene.update (ext : External) (s : Scene) (sys : PhysicsSystem) (deltaTime : ℚ) :
    Scene × PhysicsSystem :=
  match sys.dynamicsWorld with
  | none => (s, sys)
  | some w =>
    (Scene.syncLoop { s with heap := (w.stepSimulation ext s.heap deltaTime 10 (1 / 60)).1 }
       sys.colliders,
     { sys with dynamicsWorld := some (w.stepSimulation ext s.heap deltaTime 10 (1 / 60)).2 })

/-- Consecutive calls `update(dt)`, one for each element of `deltaTimes`. -/
def Scene.updates (ext : External) (s : Scene) (sys : PhysicsSystem) (deltaTimes : List ℚ) :
    Scene × PhysicsSystem :=
  deltaTimes.foldl (fun st dt => Scene.update ext st.1 st.2 dt) (s, sys)

/-! ## The forward renderer (`forward-renderer.cpp`) -/

/-- The dot product `glm::dot(a, b)`. -/
def Vec3.dot (a b : Vec3) : ℚ := a.x * b.x + a.y * b.y + a.z * b.z

/-- The product `v * s` of a `glm::vec4` and a scalar. -/
def Vec4.scale (v : Vec4) (s : ℚ) : Vec4 := ⟨v.x * s, v.y * s, v.z * s, v.w * s⟩

/-- The sum of two `glm::vec4`. -/
def Vec4.add (a b : Vec4) : Vec4 := ⟨a.x + b.x, a.y + b.y, a.z + b.z, a.w + b.w⟩

/-- The product `a * b` of two `glm::mat4`: column `i` is `a * b[i]`. -/
def Mat4.mul (a b : Mat4) : Mat4 :=
  ⟨a.mulVec b.c0, a.mulVec b.c1, a.mulVec b.c2, a.mulVec b.c3⟩

/-- The function `glm::translate(m, v)`: the last column becomes
`m[0] * v.x + m[1] * v.y + m[2] * v.z + m[3]`. -/
def Mat4.translate (m : Mat4) (v : Vec3) : Mat4 :=
  { m with c3 := (((m.c0.scale v.x).add (m.c1.scale v.y)).add (m.c2.scale v.z)).add m.c3 }

/-- The function `glm::scale(m, v)`: the first three columns are scaled. -/
def Mat4.scaleBy (m : Mat4) (v : Vec3) : Mat4 :=
  ⟨m.c0.scale v.x, m.c1.scale v.y, m.c2.scale v.z, m.c3⟩

/-- The record `glm::ivec2`. -/
structure IVec2 where
  x : Int
  y : Int
deriving DecidableEq

/-- The record `RenderCommand`; `mesh` and `material` are pointers, `none` for `nullptr`. -/
structure RenderCommand where
  localToWorld : Mat4
  center : Vec3
  mesh : Option Mesh
  material : Option Material
deriving DecidableEq

/-- The members of `ForwardRenderer` that `render` reads or writes. -/
structure ForwardRenderer where
  windowSize : IVec2
  opaqueCommands : List RenderCommand
  transparentCommands : List RenderCommand
  skySphere : Option Mesh
  skyMaterial : Option Material
  postprocessFrameBuffer : Nat
  postProcessVertexArray : Nat
  postprocessMaterial : Option Material

/-- A pointer to a camera component: the component and the entity that
`getOwner()` returns for it. -/
structure CameraRef where
  component : CameraComponent
  owner : Entity
deriving DecidableEq

/-- The OpenGL calls, and the calls on materials and shaders that issue
OpenGL calls, which `render` makes. -/
inductive GLCall where
  | viewport (x y width height : Int)
  | clearColor (r g b a : ℚ)
  | clearDepth (depth : ℚ)
  | colorMask (r g b a : Bool)
  | depthMask (flag : Bool)
  | bindFramebuffer (framebuffer : Nat)
  | clearColorAndDepth
  | enableBlend
  | blendFuncSrcAlpha
  | disableBlend
  | materialSetup (material : Material)
  | shaderUse (shader : Nat)
  | shaderSetTransform (shader : Nat) (transform : Mat4)
  | bindVertexArray (vao : Nat)
  | drawElements (count : Nat) (byteOffset : Nat)
  | drawArrays (first count : Nat)
deriving DecidableEq

/-- Whether a call is a draw call (`glDrawElements` or `glDrawArrays`). -/
def GLCall.isDraw : GLCall → Bool
  | GLCall.drawElements _ _ => true
  | GLCall.drawArrays _ _ => true
  | _ => false

/-- The method `Mesh::draw()` of `mesh.hpp`. -/
def Mesh.draw (mesh : Mesh) : List GLCall :=
  [GLCall.bindVertexArray mesh.VAO, GLCall.drawElements mesh.elementCount 0,
   GLCall.bindVertexArray 0]

/-- The method `CameraComponent::getViewMatrix()`. -/
def getViewMatrix (ext : External) (camera : CameraRef) : Mat4 :=
  ext.lookAt ((ext.getLocalToWorldMatrix camera.owner).mulVec ⟨0, 0, 0, 1⟩).xyz
    ((ext.getLocalToWorldMatrix camera.owner).mulVec ⟨0, 0, -1, 1⟩).xyz
    (ext.normalize ((ext.getLocalToWorldMatrix camera.owner).mulVec ⟨0, 1, 0, 0⟩).xyz)

/-- The method `CameraComponent::getProjectionMatrix(viewportSize)`. -/
def getProjectionMatrix (ext : External) (camera : CameraRef) (viewportSize : IVec2) : Mat4 :=
  let aspect : ℚ := if viewportSize.y ≠ 0 then (viewportSize.x : ℚ) / (viewportSize.y : ℚ) else 1
  match camera.component.cameraType with
  | CameraType.ORTHOGRAPHIC =>
    ext.ortho (-(camera.component.orthoHeight * (1 / 2) * aspect))
      (camera.component.orthoHeight * (1 / 2) * aspect)
      (-(camera.component.orthoHeight * (1 / 2))) (camera.component.orthoHeight * (1 / 2))
      camera.component.near camera.component.far
  | CameraType.PERSPECTIVE =>
    ext.perspective camera.component.fovY aspect camera.component.near camera.component.far

/-- The state of the first loop of `render`: the local `camera` and the renderer,
whose two command lists the loop fills. -/
structure ExtractState where
  camera : Option CameraRef
  renderer : ForwardRenderer

/-- The command that the loop builds for an entity with the mesh renderer
`meshRenderer` (lines 139-143). -/
def buildCommand (ext : External) (entity : Entity) (meshRenderer : MeshRendererComponent) :
    RenderCommand :=
  { localToWorld := ext.getLocalToWorldMatrix entity
    center := ((ext.getLocalToWorldMatrix entity).mulVec ⟨0, 0, 0, 1⟩).xyz
    mesh := meshRenderer.mesh
    material := meshRenderer.material }

/-- One iteration of the first loop of `render` (lines 133-151). The result is
`none` when the iteration reads `command.material->transparent` through a
null pointer, which is undefined in C++. -/
def extractStep (ext : External) (st : ExtractState) (entity : Entity) : Option ExtractState :=
  let camera : Option CameraRef :=
    match st.camera with
    | some c => some c
    | none => entity.camera.map fun c => { component := c, owner := entity }
  match entity.meshRenderer with
  | none => some { st with camera := camera }
  | some meshRenderer =>
    match meshRenderer.material with
    | none => none
    | some material =>
      if material.transparent = true then
        some { camera := camera
               renderer := { st.renderer with
                 transparentCommands :=
                   st.renderer.transparentCommands ++ [buildCommand ext entity meshRenderer] } }
      else
        some { camera := camera
               renderer := { st.renderer with
                 opaqueCommands :=
                   st.renderer.opaqueCommands ++ [buildCommand ext entity meshRenderer] } }

/-- The first loop of `render` over the entities, in iteration order. -/
def extractLoop (ext : External) : ExtractState → List Entity → Option ExtractState
  | st, [] => some st
  | st, entity :: rest =>
    match extractStep ext st entity with
    | none => none
    | some st2 => extractLoop ext st2 rest

/-- Step 1 of `render` (lines 128-151): the camera is null, both command lists
are cleared, then the loop runs. -/
def extract (ext : External) (renderer : ForwardRenderer) (entities : List Entity) :
    Option ExtractState :=
  extractLoop ext
    { camera := none
      renderer := { renderer with opaqueCommands := [], transparentCommands := [] } }
    entities

/-- One insertion of the sorting model: `x` goes before the first element
that `comp` puts after it. -/
def sortInsert {α : Type} (comp : α → α → Bool) (x : α) : List α → List α
  | [] => [x]
  | y :: ys => if comp x y = true then x :: y :: ys else y :: sortInsert comp x ys

/-- The call `std::sort(first, last, comp)`. The library leaves the order of
equivalent elements open; this is the result of an insertion sort with the
same comparator, one of the permitted results. -/
def stdSort {α : Type} (comp : α → α → Bool) : List α → List α
  | [] => []
  | x :: xs => sortInsert comp x (stdSort comp xs)

/-- The comparator of the sort (lines 164-168): `da > db`. -/
def fartherFirst (cameraForward : Vec3) (a b : RenderCommand) : Bool :=
  decide (cameraForward.dot b.center < cameraForward.dot a.center)

/-- The vector `cameraForward` (lines 157-160). -/
def cameraForward (ext : External) (camera : CameraRef) : Vec3 :=
  ext.normalize ((ext.getLocalToWorldMatrix camera.owner).mulVec ⟨0, 0, -1, 0⟩).xyz

/-- The calls for one submesh in the multi-material branch (lines 208-229):
the material found under the name of the submesh, else the material of the
command; nothing if both are null. -/
def drawSubmesh (assets : String → Option Material) (VP : Mat4) (cmd : RenderCommand)
    (sub : Submesh) : List GLCall :=
  match (match assets sub.materialName with
         | some m => some m
         | none => cmd.material) with
  | none => []
  | some matToUse =>
    [GLCall.materialSetup matToUse, GLCall.shaderUse matToUse.shader,
     GLCall.shaderSetTransform matToUse.shader (VP.mul cmd.localToWorld),
     GLCall.drawElements sub.count (sub.offset * 4)]

/-- The body of the loops over the opaque and the transparent commands
(lines 193-244 and 284-330, which are the same). The result is `none` when
the material or the mesh of the command is null, since both are dereferenced. -/
def drawCommand (assets : String → Option Material) (VP : Mat4) (cmd : RenderCommand) :
    Option (List GLCall) :=
  match cmd.material, cmd.mesh with
  | some material, some mesh =>
    if mesh.submeshes ≠ [] then
      some ([GLCall.materialSetup material, GLCall.shaderUse material.shader,
             GLCall.shaderSetTransform material.shader (VP.mul cmd.localToWorld),
             GLCall.bindVertexArray mesh.VAO]
            ++ (mesh.submeshes.map (drawSubmesh assets VP cmd)).flatten
            ++ [GLCall.bindVertexArray 0])
    else
      some ([GLCall.materialSetup material, GLCall.shaderUse material.shader,
             GLCall.shaderSetTransform material.shader (VP.mul cmd.localToWorld),
             GLCall.materialSetup material, GLCall.shaderUse material.shader,
             GLCall.shaderSetTransform material.shader (VP.mul cmd.localToWorld)]
            ++ mesh.draw)
  | _, _ => none

/-- A loop `for (const auto& cmd : commands)` over `drawCommand`. -/
def drawCommands (assets : String → Option Material) (VP : Mat4) :
    List RenderCommand → Option (List GLCall)
  | [] => some []
  | cmd :: rest =>
    match drawCommand assets VP cmd, drawCommands assets VP rest with
    | some calls, some more => some (calls ++ more)
    | _, _ => none

/-- The matrix `transform` of the sky pass (lines 253-269). -/
def skyTransform (VP cameraWorld : Mat4) : Mat4 :=
  let transform :=
    VP.mul ((Mat4.identity.translate (cameraWorld.mulVec ⟨0, 0, 0, 1⟩).xyz).scaleBy
      ⟨100, 100, 100⟩)
  ⟨{ transform.c0 with z := transform.c0.w }, { transform.c1 with z := transform.c1.w },
   { transform.c2 with z := transform.c2.w }, { transform.c3 with z := transform.c3.w }⟩

/-- Step 4 of `render` (lines 177-190). -/
def setupCalls (renderer : ForwardRenderer) : List GLCall :=
  [GLCall.viewport 0 0 renderer.windowSize.x renderer.windowSize.y,
   GLCall.clearColor 0 0 0 1, GLCall.clearDepth 1,
   GLCall.colorMask true true true true, GLCall.depthMask true]
  ++ (match renderer.postprocessMaterial with
      | some _ => [GLCall.bindFramebuffer renderer.postprocessFrameBuffer]
      | none => [])
  ++ [GLCall.clearColorAndDepth]

/-- Step 6 of `render` (lines 247-277). The result is `none` when there is a
sky material but no sky sphere, since the sphere is dereferenced. -/
def skyCalls (renderer : ForwardRenderer) (VP cameraWorld : Mat4) : Option (List GLCall) :=
  match renderer.skyMaterial with
  | none => some []
  | some skyMaterial =>
    match renderer.skySphere with
    | none => none
    | some skySphere =>
      some ([GLCall.materialSetup skyMaterial, GLCall.shaderUse skyMaterial.shader,
             GLCall.shaderSetTransform skyMaterial.shader (skyTransform VP cameraWorld)]
            ++ skySphere.draw)

/-- Step 8 of `render` (lines 337-347). -/
def postprocessCalls (renderer : ForwardRenderer) : List GLCall :=
  match renderer.postprocessMaterial with
  | some material =>
    [GLCall.bindFramebuffer 0, GLCall.materialSetup material, GLCall.shaderUse material.shader,
     GLCall.bindVertexArray renderer.postProcessVertexArray, GLCall.drawArrays 0 3,
     GLCall.bindVertexArray 0]
  | none => []

/-- Steps 2 to 8 of `render` for the camera found: the renderer with the
transparent commands sorted, and the calls made. -/
def renderWithCamera (ext : External) (assets : String → Option Material)
    (renderer : ForwardRenderer) (camera : CameraRef) :
    Option (ForwardRenderer × List GLCall) :=
  let sorted := stdSort (fartherFirst (cameraForward ext camera)) renderer.transparentCommands
  let VP := (getProjectionMatrix ext camera renderer.windowSize).mul (getViewMatrix ext camera)
  match drawCommands assets VP renderer.opaqueCommands,
        skyCalls renderer VP (ext.getLocalToWorldMatrix camera.owner),
        drawCommands assets VP sorted with
  | some opaquePass, some skyPass, some transparentPass =>
    some ({ renderer with transparentCommands := sorted },
          setupCalls renderer ++ opaquePass ++ skyPass
            ++ [GLCall.enableBlend, GLCall.blendFuncSrcAlpha, GLCall.depthMask false]
            ++ transparentPass ++ [GLCall.depthMask true, GLCall.disableBlend]
            ++ postprocessCalls renderer)
  | _, _, _ => none

/-- The method `ForwardRenderer::render(world)`, with `entities` the result of
`world->getEntities()` in iteration order and `assets` the materials that
`AssetLoader<Material>::get` finds. The result is the renderer afterwards and
the calls made, in order; `none` when a null pointer is dereferenced. -/
def render (ext : External) (assets : String → Option Material) (renderer : ForwardRenderer)
    (entities : List Entity) : Option (ForwardRenderer × List GLCall) :=
  match extract ext renderer entities with
  | none => none
  | some st =>
    match st.camera with
    | none => some (st.renderer, [])
    | some camera => renderWithCamera ext assets st.renderer camera

/-! ## Applying a rigid transform -/

/-- The product `t * v` of a `btTransform` and a vector
(`btTransform::operator*`): the rotation matrix that `btMatrix3x3::setRotation`
builds from the quaternion (`s = 2 / length2`), applied to `v`, plus the origin. -/
def btTransform.apply (t : btTransform) (v : Vec3) : Vec3 :=
  let s : ℚ := 2 / (t.rotation.x * t.rotation.x + t.rotation.y * t.rotation.y
    + t.rotation.z * t.rotation.z + t.rotation.w * t.rotation.w)
  let xs := t.rotation.x * s
  let ys := t.rotation.y * s
  let zs := t.rotation.z * s
  let wx := t.rotation.w * xs
  let wy := t.rotation.w * ys
  let wz := t.rotation.w * zs
  let xx := t.rotation.x * xs
  let xy := t.rotation.x * ys
  let xz := t.rotation.x * zs
  let yy := t.rotation.y * ys
  let yz := t.rotation.y * zs
  let zz := t.rotation.z * zs
  ⟨(1 - (yy + zz)) * v.x + (xy - wz) * v.y + (xz + wy) * v.z + t.origin.x,
   (xy + wz) * v.x + (1 - (xx + zz)) * v.y + (yz - wx) * v.z + t.origin.y,
   (xz - wy) * v.x + (yz + wx) * v.y + (1 - (xx + yy)) * v.z + t.origin.z⟩

/-! ## Destruction (`~BulletColliderComponent`, `~PhysicsSystem`) -/

/-- One `delete` of a member of a collider's triad: a body or a motion state
by its address, or the shape of the component at an address. -/
inductive Release where
  | body (p : Nat)
  | motionState (m : Nat)
  | shape (collider : Nat)
deriving DecidableEq

/-- The pointer `body->getMotionState()` of the body at address `p`. -/
def getMotionState (h : Heap) (p : Nat) : Option Nat :=
  (h.rigidBodies.get? p).bind fun b => b.motionState

/-- The destructor `~BulletColliderComponent` (lines 17-28 of
`bullet-collider.cpp`) of the component at address `this`: the deletes it
performs, in order. -/
def destroyCollider (h : Heap) (this : Nat) : List Release :=
  (match (h.components this).rigidBody with
   | some p =>
     (match getMotionState h p with
      | some m => [Release.motionState m]
      | none => [])
       ++ [Release.body p]
   | none => [])
    ++ (match (h.components this).collisionShape with
        | some _ => [Release.shape this]
        | none => [])

/-- The loop of `~PhysicsSystem` (lines 17-25 of `physics-system.cpp`) with
`i + 1` the number of indices still to visit: the object at index `i` has its
motion state deleted, leaves the world and is deleted, then the loop goes on
at `i - 1`. The result lists the deletes, in order. -/
def destroyLoop (h : Heap) : Nat → btDiscreteDynamicsWorld → List Release
  | 0, _ => []
  | i + 1, world =>
    match world.collisionObjects.get? i with
    | some obj =>
      (match getMotionState h obj with
       | some m => [Release.motionState m]
       | none => [])
        ++ [Release.body obj] ++ destroyLoop h i (world.removeRigidBody obj)
    | none => []

/-- The destructor `~PhysicsSystem` (lines 13-33): the deletes of bodies and
motion states it performs, in order. The world, the solver, the broadphase,
the dispatcher and the configuration, deleted afterwards, belong to no triad. -/
def destroySystem (h : Heap) (sys : PhysicsSystem) : List Release :=
  match sys.dynamicsWorld with
  | some world => destroyLoop h world.collisionObjects.length world
  | none => []

/-! ## The sphere of `mesh-utils.cpp` -/

/-- The functions `glm::cos`, `glm::sin` and the constant `glm::pi<float>()`,
which are outside these sources. -/
structure Trigonometry where
  cos : ℚ → ℚ
  sin : ℚ → ℚ
  pi : ℚ

/-- The conversion of an `int` to `GLuint` when it is pushed onto a
`std::vector<GLuint>`: the value modulo `2 ^ 32`. -/
def toGLuint (x : Int) : Nat := (x % 2 ^ 32).toNat

/-- The values of the counter of a loop `for (int k = first; k <= last; k++)`,
in order. Arithmetic on `int` is exact here: an overflow is undefined in C++. -/
def intRange (first last : Int) : List Int :=
  (List.range (last + 1 - first).toNat).map fun (k : Nat) => first + (k : Int)

/-- The vertex pushed for the counters `lat` and `lng` (lines 167-176). -/
def sphereVertex (trig : Trigonometry) (segments : IVec2) (lat lng : Int) : Vertex :=
  let v : ℚ := (lat : ℚ) / (segments.y : ℚ)
  let pitch : ℚ := v * trig.pi - trig.pi / 2
  let u : ℚ := (lng : ℚ) / (segments.x : ℚ)
  let yaw : ℚ := u * (2 * trig.pi)
  { position := ⟨trig.cos pitch * trig.cos yaw, trig.sin pitch, trig.cos pitch * trig.sin yaw⟩
    color := ⟨255, 255, 255, 255⟩
    tex_coord := ⟨u, v⟩
    normal := ⟨trig.cos pitch * trig.cos yaw, trig.sin pitch, trig.cos pitch * trig.sin yaw⟩ }

/-- The first pair of loops of `sphere` (lines 166-178): the vertices pushed,
in order. -/
def sphereVertices (trig : Trigonometry) (segments : IVec2) : List Vertex :=
  ((intRange 0 segments.y).map fun lat =>
    (intRange 0 segments.x).map fun lng => sphereVertex trig segments lat lng).flatten

/-- The six `int` values pushed for the counters `lat` and `lng`
(lines 181-190), before their conversion to `GLuint`. -/
def sphereQuad (segments : IVec2) (lat lng : Int) : List Int :=
  let start := lat * (segments.x + 1)
  let prev_lng := lng - 1
  [lng + start, lng + start - segments.x - 1, prev_lng + start - segments.x - 1,
   prev_lng + start - segments.x - 1, prev_lng + start, lng + start]

/-- The second pair of loops of `sphere` (lines 180-191): the values pushed
onto `elements`, in order, before their conversion to `GLuint`. -/
def sphereElements (segments : IVec2) : List Int :=
  ((intRange 1 segments.y).map fun lat =>
    ((intRange 1 segments.x).map fun lng => sphereQuad segments lat lng).flatten).flatten

/-- The function `mesh_utils::sphere(segments)`: the mesh that
`new our::Mesh(vertices, elements)` constructs; the constructor uploads
`elements` to the element buffer. -/
def sphere (trig : Trigonometry) (segments : IVec2) : Mesh :=
  { vertices := sphereVertices trig segments
    elements := (sphereElements segments).map toGLuint
    submeshes := []
    ebo := (sphereElements segments).map toGLuint }

/-! ## Loading an OBJ model (`loadOBJ` of `mesh-utils.cpp`) -/

/-- The record `tinyobj::index_t`. -/
structure index_t where
  vertex_index : Int
  normal_index : Int
  texcoord_index : Int
deriving DecidableEq

/-- The record `tinyobj::mesh_t`, as far as `loadOBJ` reads it. -/
structure mesh_t where
  indices : List index_t
  num_face_vertices : List Nat
  material_ids : List Int

/-- The record `tinyobj::shape_t`, as far as `loadOBJ` reads it. -/
structure shape_t where
  mesh : mesh_t

/-- The record `tinyobj::material_t`, as far as `loadOBJ` reads it. -/
structure material_t where
  name : String

/-- The record `tinyobj::attrib_t`, as far as `loadOBJ` reads it. -/
structure attrib_t where
  vertices : List ℚ
  normals : List ℚ
  texcoords : List ℚ
  colors : List ℚ

/-- What a call of `tinyobj::LoadObj` that returns `true` leaves in `attrib`,
`shapes` and `materials`. -/
structure ObjData where
  attrib : attrib_t
  shapes : List shape_t
  materials : List material_t

/-- One read `v[i]` of a `std::vector<float>` with an `int` index. A read
outside the vector is undefined in C++; here it yields 0. -/
def floatRead (v : List ℚ) (i : Int) : ℚ := v.getD i.toNat 0

/-- The conversion `(unsigned char)(x)` of a float: the integer part, as a
byte. -/
def toUnsignedChar (x : ℚ) : Nat := (Rat.floor x).toNat % 256

/-- The vertex that the loop body builds for one `index_t` (lines 59-101). -/
def makeVertex (attrib : attrib_t) (idx : index_t) : Vertex :=
  { position := ⟨floatRead attrib.vertices (3 * idx.vertex_index + 0),
                 floatRead attrib.vertices (3 * idx.vertex_index + 1),
                 floatRead attrib.vertices (3 * idx.vertex_index + 2)⟩
    normal :=
      if 0 ≤ idx.normal_index then
        ⟨floatRead attrib.normals (3 * idx.normal_index + 0),
         floatRead attrib.normals (3 * idx.normal_index + 1),
         floatRead attrib.normals (3 * idx.normal_index + 2)⟩
      else ⟨0, 0, 0⟩
    tex_coord :=
      if 0 ≤ idx.texcoord_index then
        ⟨floatRead attrib.texcoords (2 * idx.texcoord_index + 0),
         floatRead attrib.texcoords (2 * idx.texcoord_index + 1)⟩
      else ⟨0, 0⟩
    color :=
      if attrib.colors ≠ [] then
        ⟨toUnsignedChar (floatRead attrib.colors (3 * idx.vertex_index + 0) * 255),
         toUnsignedChar (floatRead attrib.colors (3 * idx.vertex_index + 1) * 255),
         toUnsignedChar (floatRead attrib.colors (3 * idx.vertex_index + 2) * 255), 255⟩
      else ⟨255, 255, 255, 255⟩ }

/-- The lookup `m.find(k)` in a `std::unordered_map`, held as a list of
entries with distinct keys. -/
def mapFind {κ ν : Type} [DecidableEq κ] (k : κ) : List (κ × ν) → Option ν
  | [] => none
  | e :: rest => if e.1 = k then some e.2 else mapFind k rest

/-- The assignment `m[k] = v` in a `std::unordered_map`. -/
def mapSet {κ ν : Type} [DecidableEq κ] (k : κ) (v : ν) : List (κ × ν) → List (κ × ν)
  | [] => [(k, v)]
  | e :: rest => if e.1 = k then (k, v) :: rest else e :: mapSet k v rest

/-- The statement `perMaterialIndices[mat_id].push_back(x)`: the list of
`mat_id`, created empty if absent, gets `x` at its end. -/
def pushIndex (mat_id : Int) (x : Nat) : List (Int × List Nat) → List (Int × List Nat)
  | [] => [(mat_id, [x])]
  | e :: rest =>
    if e.1 = mat_id then (e.1, e.2 ++ [x]) :: rest else e :: pushIndex mat_id x rest

/-- The locals `vertices`, `vertex_map`, `perMaterialIndices` and
`materialNames` of `loadOBJ`. -/
structure LoadState where
  vertices : List Vertex
  vertex_map : List (Vertex × Nat)
  perMaterialIndices : List (Int × List Nat)
  materialNames : List (Int × String)

/-- The part of the innermost loop body after `idx` is read (lines 57-117):
the vertex is built, looked up in `vertex_map`, pushed if new (`idx_final` is
a `GLuint`), and its index goes to the list of `mat_id`. -/
def addIndex (attrib : attrib_t) (mat_id : Int) (st : LoadState) (idx : index_t) :
    LoadState :=
  match mapFind (makeVertex attrib idx) st.vertex_map with
  | none =>
    { st with
      vertices := st.vertices ++ [makeVertex attrib idx]
      vertex_map := mapSet (makeVertex attrib idx) (st.vertices.length % 2 ^ 32) st.vertex_map
      perMaterialIndices :=
        pushIndex mat_id (st.vertices.length % 2 ^ 32) st.perMaterialIndices }
  | some idx_final =>
    { st with perMaterialIndices := pushIndex mat_id idx_final st.perMaterialIndices }

/-- The body of the loop over the faces of one shape (lines 46-120) for the
face `f`; the second component is `index_offset`. A read of `mesh.indices`
past its end is undefined in C++; here it yields the index `(0, -1, -1)`. -/
def processFace (obj : ObjData) (mesh : mesh_t) (acc : LoadState × Nat) (f : Nat) :
    LoadState × Nat :=
  let fv : Nat := mesh.num_face_vertices.getD f 0
  let mat_id : Int := if f < mesh.material_ids.length then mesh.material_ids.getD f (-1) else -1
  let matName : String :=
    if 0 ≤ mat_id ∧ mat_id < (obj.materials.length : Int) then
      ((obj.materials.get? mat_id.toNat).map fun m => m.name).getD "default"
    else "default"
  ((List.range fv).foldl
      (fun st v => addIndex obj.attrib mat_id st (mesh.indices.getD (acc.2 + v) ⟨0, -1, -1⟩))
      { acc.1 with materialNames := mapSet mat_id matName acc.1.materialNames },
   acc.2 + fv)

/-- The body of the loop over the shapes (lines 42-121). -/
def processShape (obj : ObjData) (st : LoadState) (shape : shape_t) : LoadState :=
  ((List.range shape.mesh.num_face_vertices.length).foldl (processFace obj shape.mesh)
    (st, 0)).1

/-- The loop over the shapes, from the empty locals. -/
def processShapes (obj : ObjData) : LoadState :=
  obj.shapes.foldl (processShape obj) ⟨[], [], [], []⟩

/-- The body of the loop over `perMaterialIndices` (lines 129-144) on the
locals `elements` and `mesh->submeshes`; `offset` and `count` are `GLuint`. -/
def buildStep (materialNames : List (Int × String)) (acc : List Nat × List Submesh)
    (kv : Int × List Nat) : List Nat × List Submesh :=
  if kv.2 = [] then acc
  else
    (acc.1 ++ kv.2,
     acc.2 ++ [{ offset := acc.1.length % 2 ^ 32
                 count := kv.2.length % 2 ^ 32
                 materialName := (mapFind kv.1 materialNames).getD "" }])

/-- The function `mesh_utils::loadOBJ`. `parsed` is what `tinyobj::LoadObj`
produced, `none` when it returned `false`; `order` gives the order in which
the loop `for (auto& kv : perMaterialIndices)` visits the entries of the
map, which the library leaves open. The result is `none` for `nullptr`.
The mesh is built with an empty element list, its element buffer is then
filled with `elements`, and its element count (a `GLsizei`) is set to
`elements.size()`. -/
def loadOBJ (parsed : Option ObjData)
    (order : List (Int × List Nat) → List (Int × List Nat)) : Option Mesh :=
  match parsed with
  | none => none
  | some obj =>
    some
      { vertices := (processShapes obj).vertices
        elements := []
        submeshes :=
          ((order (processShapes obj).perMaterialIndices).foldl
            (buildStep (processShapes obj).materialNames) ([], [])).2
        ebo :=
          ((order (processShapes obj).perMaterialIndices).foldl
            (buildStep (processShapes obj).materialNames) ([], [])).1
        elementCount :=
          ((order (processShapes obj).perMaterialIndices).foldl
            (buildStep (processShapes obj).materialNames) ([], [])).1.length }

/-! ## The specification's description of extraction and drawing -/

/-- The camera of the first entity, in iteration order, that has one. -/
def firstCamera : List Entity → Option CameraRef
  | [] => none
  | entity :: rest =>
    match entity.camera with
    | some c => some { component := c, owner := entity }
    | none => firstCamera rest

/-- The command of an entity: the one built from its mesh renderer, if it has one. -/
def commandOf (ext : External) (entity : Entity) : Option RenderCommand :=
  entity.meshRenderer.map (buildCommand ext entity)

/-- Whether the material of a command has the `transparent` flag set. -/
def RenderCommand.isTransparent (cmd : RenderCommand) : Bool :=
  match cmd.material with
  | some m => m.transparent
  | none => false

/-- Every mesh renderer among the entities has a material and a mesh. -/
def Drawable (entities : List Entity) : Prop :=
  ∀ e, e ∈ entities → ∀ mr, e.meshRenderer = some mr → mr.material ≠ none ∧ mr.mesh ≠ none

/-- A renderer with a sky material also has its sky sphere (`initialize`
creates both together). -/
def SkyComplete (renderer : ForwardRenderer) : Prop :=
  renderer.skyMaterial ≠ none → renderer.skySphere ≠ none

/-- The draw calls of one command: one `glDrawElements` for each submesh, or
the one of `Mesh::draw()` for a mesh without submeshes. -/
def commandDraws (cmd : RenderCommand) : List GLCall :=
  match cmd.mesh with
  | some mesh =>
    if mesh.submeshes ≠ [] then
      mesh.submeshes.map fun sub => GLCall.drawElements sub.count (sub.offset * 4)
    else [GLCall.drawElements mesh.elementCount 0]
  | none => []

/-- The matrix `model` of the sky pass (lines 256-259): the translation to
`cameraPos` followed by the scale by 100. -/
def skyModel (cameraPos : Vec3) : Mat4 :=
  (Mat4.identity.translate cameraPos).scaleBy ⟨100, 100, 100⟩

/-! ## Sequences of registry calls -/

/-- One call on the registry: `registerCollider(collider)` or
`removeCollider(collider)`, with `none` for a null pointer. -/
inductive RegistryCall where
  | register (collider : Option Nat)
  | remove (collider : Option Nat)

/-- The effect of one registry call on heap and system. -/
def runCall (ext : External) (st : Heap × PhysicsSystem) : RegistryCall → Heap × PhysicsSystem
  | RegistryCall.register collider => PhysicsSystem.registerCollider ext st.1 st.2 collider
  | RegistryCall.remove collider => (st.1, PhysicsSystem.removeCollider st.1 st.2 collider)

/-- The effect of a sequence of registry calls, in order. -/
def runCalls (ext : External) (st : Heap × PhysicsSystem) (calls : List RegistryCall) :
    Heap × PhysicsSystem :=
  calls.foldl (runCall ext) st

/-- A call is fresh in a state when it does not register a collider that is
already tracked or that has no owner. -/
def RegistryCall.Fresh (st : Heap × PhysicsSystem) : RegistryCall → Prop
  | RegistryCall.register (some c) => c ∉ st.2.colliders ∧ (st.1.components c).owner ≠ none
  | _ => True

/-- Every call of the sequence is fresh in the state in which it is made. -/
def FreshCalls (ext : External) : Heap × PhysicsSystem → List RegistryCall → Prop
  | _, [] => True
  | st, call :: rest => call.Fresh st ∧ FreshCalls ext (runCall ext st call) rest

/-- The bodies of the world `w` that are tagged with the collider `c`. -/
def taggedBodies (h : Heap) (w : btDiscreteDynamicsWorld) (c : Nat) : List Nat :=
  w.collisionObjects.filter fun p => decide (bodyTag h p = some c)

/-- The consistency of registry and heap that fresh calls maintain: the
tracked list and the world have no duplicates, each body of the world is
allocated and tagged with a tracked collider that points back to it, each
tracked collider points to a body of the world, and each component that
points to a body of the world is its tag and points to allocated memory. -/
structure RegistryInv (h : Heap) (sys : PhysicsSystem) (w : btDiscreteDynamicsWorld) :
    Prop where
  world : sys.dynamicsWorld = some w
  tracked_nodup : sys.colliders.Nodup
  objects_nodup : w.collisionObjects.Nodup
  objects_tag : ∀ p, p ∈ w.collisionObjects →
    ∃ c, bodyTag h p = some c ∧ c ∈ sys.colliders ∧ (h.components c).rigidBody = some p
  tracked_body : ∀ c, c ∈ sys.colliders →
    ∃ p, (h.components c).rigidBody = some p ∧ p ∈ w.collisionObjects
  pointer_tag : ∀ c p, (h.components c).rigidBody = some p → p ∈ w.collisionObjects →
    bodyTag h p = some c
  allocated : ∀ c p, (h.components c).rigidBody = some p → p < h.rigidBodies.length
  objects_allocated : ∀ p, p ∈ w.collisionObjects → p < h.rigidBodies.length

/-! ## The specification's description of the direct-elements triangles -/

/-- The test on triple `k` of an element list: the three indices
`elements[3k]`, `elements[3k+1]`, `elements[3k+2]` are all below `n`. -/
def tripleInRange (elements : List Nat) (n : Nat) (k : Nat) : Bool :=
  decide (vecRead elements (3 * k) < n ∧ vecRead elements (3 * k + 1) < n
    ∧ vecRead elements (3 * k + 2) < n)

/-- The triangles of the direct-elements path as the specification describes
them: in order, the triples `k < floor(len / 3)` whose three indices are all
below the vertex count, each vertex baked through `transform`. -/
def elementsTrianglesSpec (transform : Mat4) (vertices : List Vertex) (elements : List Nat) :
    List Triangle :=
  ((List.range (elements.length / 3)).filter (tripleInRange elements vertices.length)).map
    fun k =>
      { v0 := bakeVertex transform vertices (vecRead elements (3 * k))
        v1 := bakeVertex transform vertices (vecRead elements (3 * k + 1))
        v2 := bakeVertex transform vertices (vecRead elements (3 * k + 2)) }

/-! ## The specification's description of the baked geometry -/

/-- A triangle whose three corners are vertices of the mesh pushed once
through `transform`: the world matrix times the local position. -/
def Baked (transform : Mat4) (vertices : List Vertex) (tri : Triangle) : Prop :=
  ∃ v0 v1 v2, v0 ∈ vertices ∧ v1 ∈ vertices ∧ v2 ∈ vertices
    ∧ tri = ⟨(transform.mulVec (Vec4.ofVec3 v0.position 1)).xyz,
             (transform.mulVec (Vec4.ofVec3 v1.position 1)).xyz,
             (transform.mulVec (Vec4.ofVec3 v2.position 1)).xyz⟩

/-! ## The specification's description of the submeshes of a loaded model -/

/-- Every index held by the vertex map and by the per-material lists is
below the number of vertices. -/
def LoadState.Bounded (st : LoadState) : Prop :=
  (∀ e, e ∈ st.vertex_map → e.2 < st.vertices.length)
  ∧ (∀ e, e ∈ st.perMaterialIndices → ∀ i, i ∈ e.2 → i < st.vertices.length)

/-- The submeshes are contiguous ranges that tile a buffer of `total`
indices: every count is positive, the first offset is 0, each following
offset is the previous offset plus the previous count, and the counts sum to
`total`. -/
def Tiles (submeshes : List Submesh) (total : Nat) : Prop :=
  (∀ s, s ∈ submeshes → 0 < s.count)
  ∧ (∀ s, submeshes.head? = some s → s.offset = 0)
  ∧ List.Chain' (fun a b => b.offset = a.offset + a.count) submeshes
  ∧ (submeshes.map fun s => s.count).sum = total

/-- The invariant of the loop over `perMaterialIndices`: the submeshes so
far tile the elements so far, and the last one ends where the elements end. -/
def BuildInv (acc : List Nat × List Submesh) : Prop :=
  Tiles acc.2 acc.1.length
  ∧ (∀ s, acc.2.getLast? = some s → s.offset + s.count = acc.1.length)
  ∧ (acc.2 = [] → acc.1 = [])

/-! ## The specification's description of the writes of the sync loop -/

/-- The loop of `update` writes to the entity at address `e` through the
collider at address `d`: the collider has that entity as owner, has a body
and has a positive mass. -/
def SyncsTo (components : Nat → BulletColliderComponent) (getOwner : Nat → Option Nat)
    (d e : Nat) : Prop :=
  getOwner d = some e ∧ (components d).rigidBody ≠ none ∧ 0 < (components d).mass

/-! ## Sample data -/

/-- A vertex at `position`, white, with zero texture coordinate and normal. -/
def sampleVertex (position : Vec3) : Vertex :=
  { position := position, color := ⟨255, 255, 255, 255⟩, tex_coord := ⟨0, 0⟩,
    normal := ⟨0, 0, 0⟩ }

/-- Three vertices and the element list `[0, 1, 2, 2, 1, 7, 0]`: one triple in
range, one with the index 7 out of range, one trailing index. -/
def sampleMesh : Mesh :=
  { vertices := [sampleVertex ⟨0, 0, 0⟩, sampleVertex ⟨1, 0, 0⟩, sampleVertex ⟨0, 1, 0⟩]
    elements := [0, 1, 2, 2, 1, 7, 0]
    submeshes := []
    ebo := [0, 1, 2, 2, 1, 7, 0] }

/-- Three vertices and elements that are all out of range. -/
def sampleDegenerateMesh : Mesh :=
  { vertices := [sampleVertex ⟨0, 0, 0⟩, sampleVertex ⟨1, 0, 0⟩, sampleVertex ⟨0, 1, 0⟩]
    elements := [3, 4, 5]
    submeshes := []
    ebo := [3, 4, 5] }

/-- The translation matrix by `(1, 2, 3)`. -/
def sampleMatrix : Mat4 :=
  ⟨⟨1, 0, 0, 0⟩, ⟨0, 1, 0, 0⟩, ⟨0, 0, 1, 0⟩, ⟨1, 2, 3, 1⟩⟩

/-- An entity without parent at position `(1, 2, 3)`. -/
def sampleEntity : Entity :=
  { name := "player", parent := none
    localTransform := { position := ⟨1, 2, 3⟩, rotation := ⟨0, 0, 0⟩, scale := ⟨1, 1, 1⟩ } }

/-- A stand-in for the library: the world matrix is the translation by the
local position, `quat_cast` gives the identity rotation, the inertia of any
shape is `(mass, mass, mass)`; a fresh body has unit factors, no gravity,
activation state 1 and the static flag (1) exactly when its mass is 0;
`addRigidBody` gives a body without the static flag the world's gravity and a
body with it the activation state 2; both constants are 4, as in Bullet. A
simulation step lowers every motion state by the time step; `activate()`
gives the state 1 unless the body is static or has deactivation disabled; a
ray hits the first body of the world, if any, at its start point;
`normalize` returns its argument, `lookAt` is the translation by minus the
eye, the projections are the identity. -/
def sampleExternal : External :=
  { getLocalToWorldMatrix := fun e =>
      ⟨⟨1, 0, 0, 0⟩, ⟨0, 1, 0, 0⟩, ⟨0, 0, 1, 0⟩,
       ⟨e.localTransform.position.x, e.localTransform.position.y,
        e.localTransform.position.z, 1⟩⟩
    quat_cast := fun _ => ⟨0, 0, 0, 1⟩
    calculateLocalInertia := fun _ mass => ⟨mass, mass, mass⟩
    freshBody := fun info =>
      { mass := info.m_mass, motionState := info.m_motionState
        collisionShape := info.m_collisionShape, localInertia := info.m_localInertia
        friction := info.m_friction, restitution := info.m_restitution
        angularFactor := ⟨1, 1, 1⟩, linearFactor := ⟨1, 1, 1⟩, gravity := ⟨0, 0, 0⟩
        activationState := 1, collisionFlags := if info.m_mass = 0 then 1 else 0
        userPointer := none, worldTransform := btTransform.identity
        linearVelocity := ⟨0, 0, 0⟩ }
    gravityOnAdd := fun w b => if b.collisionFlags % 2 = 1 then b.gravity else w.gravity
    activationStateOnAdd := fun _ b => if b.collisionFlags % 2 = 1 then 2 else b.activationState
    CF_NO_CONTACT_RESPONSE := 4
    DISABLE_DEACTIVATION := 4
    simulate := fun _ bodies motionStates call =>
      (bodies, motionStates.map fun t =>
        { t with origin := ⟨t.origin.x, t.origin.y - call.timeStep, t.origin.z⟩ })
    activationStateOnActivate := fun b =>
      if b.collisionFlags % 2 = 1 ∨ b.activationState = 4 then b.activationState else 1
    rayTest := fun w _ start _ =>
      match w.collisionObjects with
      | [] => { hasHit := false, m_hitPointWorld := ⟨0, 0, 0⟩, m_hitNormalWorld := ⟨0, 0, 0⟩
                m_collisionObject := none }
      | o :: _ => { hasHit := true, m_hitPointWorld := start, m_hitNormalWorld := ⟨0, 1, 0⟩
                    m_collisionObject := some o }
    normalize := fun v => v
    lookAt := fun eye _ _ =>
      ⟨⟨1, 0, 0, 0⟩, ⟨0, 1, 0, 0⟩, ⟨0, 0, 1, 0⟩, ⟨-eye.x, -eye.y, -eye.z, 1⟩⟩
    perspective := fun _ _ _ _ => Mat4.identity
    ortho := fun _ _ _ _ _ _ => Mat4.identity }

/-- A box collider of mass 70 and friction 1/2 on `sampleEntity`, not a trigger. -/
def sampleCollider : BulletColliderComponent :=
  { BulletColliderComponent.new (some sampleEntity) with mass := 70, size := ⟨2, 2, 2⟩ }

/-- A static box trigger on `sampleEntity`. -/
def sampleTrigger : BulletColliderComponent :=
  { BulletColliderComponent.new (some sampleEntity) with isTrigger := true }

/-- A box collider that is attached to no entity. -/
def sampleOrphan : BulletColliderComponent := BulletColliderComponent.new none

/-- A heap without bodies: `sampleCollider` at address 0, `sampleTrigger` at
address 1, `sampleOrphan` at every other address. -/
def sampleHeap : Heap :=
  { components := fun a => if a = 0 then sampleCollider else if a = 1 then sampleTrigger
      else sampleOrphan
    rigidBodies := []
    motionStates := [] }

/-- A physics system right after `initialize` with gravity `(0, -9.8, 0)`. -/
def sampleSystem : PhysicsSystem :=
  PhysicsSystem.new.initializeSystem ⟨0, -98 / 10, 0⟩

/-- The heap after the component at address 0 was initialised directly, by
`collider->initialize(physics.getDynamicsWorld())`, on the world of `sampleSystem`. -/
def sampleDirectHeap : Heap :=
  (initializeCollider sampleExternal sampleHeap 0 sampleSystem.dynamicsWorld).1

/-- The system after that direct initialisation: its world holds the body,
its tracked list is still empty. -/
def sampleDirectSystem : PhysicsSystem :=
  { sampleSystem with
    dynamicsWorld :=
      (initializeCollider sampleExternal sampleHeap 0 sampleSystem.dynamicsWorld).2 }

/-- Four fresh calls: register the components at 0 and 1, remove the one at
0, register it again. -/
def sampleCalls : List RegistryCall :=
  [RegistryCall.register (some 0), RegistryCall.register (some 1),
   RegistryCall.remove (some 0), RegistryCall.register (some 0)]

/-- The component at 0 registered twice in a row. -/
def sampleDoubleCalls : List RegistryCall :=
  [RegistryCall.register (some 0), RegistryCall.register (some 0)]

/-- The sample heap after the static trigger at address 1 was registered on
the sample system and its body was then given the velocity `(1, 0, 0)` by
`collider->rigidBody->setLinearVelocity(...)`. -/
def sampleMovingHeap : Heap :=
  (PhysicsSystem.registerCollider sampleExternal sampleHeap sampleSystem (some 1)).1.modifyBody 0
    fun b => { b with linearVelocity := ⟨1, 0, 0⟩ }

/-- Heap and system after the components at 0 (mass 70) and 1 (static) were
registered on the sample system. -/
def sampleRegistered : Heap × PhysicsSystem :=
  runCalls sampleExternal (sampleHeap, sampleSystem)
    [RegistryCall.register (some 0), RegistryCall.register (some 1)]

/-- An opaque material and a transparent one, both with shader 1. -/
def sampleOpaqueMaterial : Material := { shader := 1, transparent := false }

/-- The transparent sample material. -/
def sampleGlassMaterial : Material := { shader := 1, transparent := true }

/-- An entity at `position` that draws `sampleMesh` with `material`. -/
def sampleDrawn (name : String) (position : Vec3) (material : Material) : Entity :=
  { name := name, parent := none
    localTransform := { position := position, rotation := ⟨0, 0, 0⟩, scale := ⟨1, 1, 1⟩ }
    meshRenderer := some { mesh := some sampleMesh, material := some material } }

/-- An entity at `position` that has a camera with the given near plane. -/
def sampleCameraEntity (name : String) (position : Vec3) (near : ℚ) : Entity :=
  { name := name, parent := none
    localTransform := { position := position, rotation := ⟨0, 0, 0⟩, scale := ⟨1, 1, 1⟩ }
    camera := some { cameraType := CameraType.PERSPECTIVE, near := near, far := 100
                     fovY := 1, orthoHeight := 1 } }

/-- A scene: a near pane of glass, the camera at `z = 5`, a wall, a far pane
of glass, and a second camera. The camera looks along `-z`. -/
def sampleScene : List Entity :=
  [sampleDrawn "near glass" ⟨0, 0, 1⟩ sampleGlassMaterial,
   sampleCameraEntity "camera" ⟨0, 0, 5⟩ (1 / 100),
   sampleDrawn "wall" ⟨0, 0, -3⟩ sampleOpaqueMaterial,
   sampleDrawn "far glass" ⟨0, 0, -2⟩ sampleGlassMaterial,
   sampleCameraEntity "second camera" ⟨9, 9, 9⟩ (1 / 2)]

/-- A renderer with sky and post-processing configured, whose command lists
still hold a command of an earlier frame. -/
def sampleRenderer : ForwardRenderer :=
  { windowSize := ⟨1280, 720⟩
    opaqueCommands := [buildCommand sampleExternal sampleEntity
      { mesh := some sampleMesh, material := some sampleOpaqueMaterial }]
    transparentCommands := [buildCommand sampleExternal sampleEntity
      { mesh := some sampleMesh, material := some sampleGlassMaterial }]
    skySphere := some sampleMesh
    skyMaterial := some sampleOpaqueMaterial
    postprocessFrameBuffer := 1
    postProcessVertexArray := 2
    postprocessMaterial := some sampleOpaqueMaterial }

/-- An asset loader that holds no material. -/
def sampleAssets : String → Option Material := fun _ => none

/-- Three vertices whose index buffer `[0, 1, 2]` is one submesh named
"stone"; the direct element list is empty, as in a mesh of `loadOBJ`. -/
def sampleSubmeshMesh : Mesh :=
  { vertices := [sampleVertex ⟨0, 0, 0⟩, sampleVertex ⟨1, 0, 0⟩, sampleVertex ⟨0, 1, 0⟩]
    elements := []
    submeshes := [{ offset := 0, count := 3, materialName := "stone" }]
    ebo := [0, 1, 2]
    elementCount := 3 }

/-- An entity that draws `sampleSubmeshMesh` and whose mesh renderer has no
material: `MeshRendererComponent::deserialize` leaves `material = nullptr`
when the key `"material"` is absent. -/
def sampleBare : Entity :=
  { name := "bare", parent := none
    localTransform := { position := ⟨0, 0, 0⟩, rotation := ⟨0, 0, 0⟩, scale := ⟨1, 1, 1⟩ }
    meshRenderer := some { mesh := some sampleSubmeshMesh, material := none } }

/-- A camera and the entity without material. -/
def sampleBareScene : List Entity :=
  [sampleCameraEntity "camera" ⟨0, 0, 5⟩ (1 / 100), sampleBare]

/-- An asset loader that holds the transparent sample material under the
name "stone" and nothing else. -/
def sampleStoneAssets : String → Option Material :=
  fun name => if name = "stone" then some sampleGlassMaterial else none

/-- A MESH collider of mass 1 on `sampleEntity` with `sampleMesh`. -/
def sampleDynamicMesh : BulletColliderComponent :=
  { BulletColliderComponent.new (some sampleEntity) with
    shapeType := CollisionShape.MESH, mass := 1, mesh := some sampleMesh }

/-- A static MESH collider on `sampleEntity` with `sampleMesh`. -/
def sampleStaticMesh : BulletColliderComponent :=
  { BulletColliderComponent.new (some sampleEntity) with
    shapeType := CollisionShape.MESH, mesh := some sampleMesh }

/-- Three vertices, no direct elements, the index buffer `[0, 1, 2]` and one
submesh that starts at 0 and has the count 1. -/
def sampleShortMesh : Mesh :=
  { vertices := [sampleVertex ⟨0, 0, 0⟩, sampleVertex ⟨1, 0, 0⟩, sampleVertex ⟨0, 1, 0⟩]
    elements := []
    submeshes := [{ offset := 0, count := 1, materialName := "stone" }]
    ebo := [0, 1, 2]
    elementCount := 3 }

/-- A static MESH collider on `sampleEntity` with `sampleShortMesh`. -/
def sampleShortCollider : BulletColliderComponent :=
  { BulletColliderComponent.new (some sampleEntity) with
    shapeType := CollisionShape.MESH, mesh := some sampleShortMesh }

/-- A stand-in for the trigonometric functions of the library. -/
def sampleTrig : Trigonometry := { cos := fun _ => 1, sin := fun _ => 0, pi := 3 }

/-- A parsed model: a square of four corners in one shape, as two triangles,
the first with material 0 (`"stone"`), the second without material. -/
def sampleObj : ObjData :=
  { attrib :=
      { vertices := [0, 0, 0, 1, 0, 0, 1, 1, 0, 0, 1, 0]
        normals := []
        texcoords := []
        colors := [] }
    shapes :=
      [{ mesh :=
          { indices := [⟨0, -1, -1⟩, ⟨1, -1, -1⟩, ⟨2, -1, -1⟩,
                        ⟨0, -1, -1⟩, ⟨2, -1, -1⟩, ⟨3, -1, -1⟩]
            num_face_vertices := [3, 3]
            material_ids := [0, -1] } }]
    materials := [{ name := "stone" }] }

/-- The sample heap after both sample colliders were registered, with the
entity store: the collider of mass 70 at address 0 and the static trigger at
address 1 are components of one entity, `sampleEntity` at address 0. -/
def sampleSharedScene : Scene :=
  { heap := sampleRegistered.1
    entities := fun _ => sampleEntity
    getOwner := fun c => if c = 0 ∨ c = 1 then some 0 else none }

/-! ## Loop lemmas -/

theorem submeshSteps_step (i : Nat) (h : i < 2 ^ 32 - 1) :
    submeshSteps ((i + 3) % 2 ^ 32) + 1 = submeshSteps i := by
  unfold submeshSteps
  omega

theorem submeshSteps_lt (i : Nat) : submeshSteps i < 2 ^ 32 := by
  unfold submeshSteps
  omega

theorem submeshLoop_unfold (transform : Mat4) (vertices : List Vertex) (indices : List Nat)
    (bound fuel i : Nat) :
    submeshLoop transform vertices indices bound (fuel + 1) i
      = if i < bound then
          (if (i + 2) % 2 ^ 32 < indices.length then
            addTriangleIfValid transform vertices
              (vecRead indices i) (vecRead indices ((i + 1) % 2 ^ 32))
              (vecRead indices ((i + 2) % 2 ^ 32))
           else [])
            ++ submeshLoop transform vertices indices bound fuel ((i + 3) % 2 ^ 32)
        else [] := by
  rw [submeshLoop]

/-- Once the fuel exceeds `submeshSteps i`, one more unit of fuel does not
change the result of the submesh loop: the loop stops before the fuel runs out. -/
theorem submeshLoop_succ (transform : Mat4) (vertices : List Vertex) (indices : List Nat)
    (bound : Nat) (hb : bound < 2 ^ 32) :
    ∀ (fuel i : Nat), i < 2 ^ 32 → submeshSteps i < fuel →
      submeshLoop transform vertices indices bound (fuel + 1) i
        = submeshLoop transform vertices indices bound fuel i := by
  intro fuel
  induction fuel with
  | zero => intro i _ h; omega
  | succ n ih =>
    intro i hi hs
    rw [submeshLoop_unfold _ _ _ _ (n + 1) i, submeshLoop_unfold _ _ _ _ n i]
    by_cases hlt : i < bound
    · have h1 : i < 2 ^ 32 - 1 := by omega
      have h2 := submeshSteps_step i h1
      have h3 : (i + 3) % 2 ^ 32 < 2 ^ 32 := Nat.mod_lt _ (by norm_num)
      rw [if_pos hlt, if_pos hlt, ih ((i + 3) % 2 ^ 32) h3 (by omega)]
    · rw [if_neg hlt, if_neg hlt]

/-- The fuel `2 ^ 32` of `submeshTriangles` is enough: any larger fuel gives
the same triangles. -/
theorem submeshLoop_fuel (transform : Mat4) (vertices : List Vertex) (indices : List Nat)
    (submesh : Submesh) (extra : Nat) :
    submeshLoop transform vertices indices
        ((submesh.offset % 2 ^ 32 + submesh.count % 2 ^ 32 + (2 ^ 32 - 2)) % 2 ^ 32)
        (2 ^ 32 + extra) (submesh.offset % 2 ^ 32)
      = submeshTriangles transform vertices indices submesh := by
  induction extra with
  | zero => rfl
  | succ n ih =>
    rw [← ih, ← Nat.add_assoc]
    apply submeshLoop_succ
    · exact Nat.mod_lt _ (by norm_num)
    · exact Nat.mod_lt _ (by norm_num)
    · have := submeshSteps_lt (submesh.offset % 2 ^ 32)
      omega

theorem addTriangleIfValid_eq (transform : Mat4) (vertices : List Vertex)
    (elements : List Nat) (k : Nat) :
    addTriangleIfValid transform vertices (vecRead elements (3 * k))
        (vecRead elements (3 * k + 1)) (vecRead elements (3 * k + 2))
      = ([k].filter (tripleInRange elements vertices.length)).map fun k =>
          { v0 := bakeVertex transform vertices (vecRead elements (3 * k))
            v1 := bakeVertex transform vertices (vecRead elements (3 * k + 1))
            v2 := bakeVertex transform vertices (vecRead elements (3 * k + 2)) } := by
  unfold addTriangleIfValid tripleInRange
  by_cases h : vecRead elements (3 * k) < vertices.length
      ∧ vecRead elements (3 * k + 1) < vertices.length
      ∧ vecRead elements (3 * k + 2) < vertices.length
  · simp [h]
  · simp [h]

/-- With enough fuel, the direct-elements loop started at `3 * j` adds the
triangles of the triples `j, j + 1, ...` below `floor(len / 3)` that are in range. -/
theorem elementsLoop_eq (transform : Mat4) (vertices : List Vertex) (elements : List Nat) :
    ∀ (fuel j : Nat), elements.length / 3 - j ≤ fuel →
      elementsLoop transform vertices elements fuel (3 * j)
        = ((List.range' j (elements.length / 3 - j)).filter
              (tripleInRange elements vertices.length)).map fun k =>
            { v0 := bakeVertex transform vertices (vecRead elements (3 * k))
              v1 := bakeVertex transform vertices (vecRead elements (3 * k + 1))
              v2 := bakeVertex transform vertices (vecRead elements (3 * k + 2)) } := by
  intro fuel
  induction fuel with
  | zero =>
    intro j h
    have h0 : elements.length / 3 - j = 0 := by omega
    simp [elementsLoop, h0]
  | succ n ih =>
    intro j h
    rw [elementsLoop]
    by_cases hlt : 3 * j + 2 < elements.length
    · have hj : elements.length / 3 - j = (elements.length / 3 - (j + 1)) + 1 := by omega
      have h3 : 3 * j + 3 = 3 * (j + 1) := by ring
      rw [if_pos hlt, h3, ih (j + 1) (by omega), addTriangleIfValid_eq, hj, List.range'_succ,
        ← List.map_append, ← List.filter_append]
      rfl
    · have h0 : elements.length / 3 - j = 0 := by omega
      simp [hlt, h0]

theorem elementsTriangles_eq (transform : Mat4) (vertices : List Vertex)
    (elements : List Nat) :
    elementsTriangles transform vertices elements
      = elementsTrianglesSpec transform vertices elements := by
  unfold elementsTriangles elementsTrianglesSpec
  have h := elementsLoop_eq transform vertices elements elements.length 0 (by omega)
  rw [List.range_eq_range']
  simpa using h

theorem vecRead_append_left (l tail : List Nat) (i : Nat) (h : i < l.length) :
    vecRead (l ++ tail) i = vecRead l i := by
  unfold vecRead
  simp [List.getD_eq_getElem?_getD, List.getElem?_append_left h]

theorem elementsTrianglesSpec_append (transform : Mat4) (vertices : List Vertex)
    (elements tail : List Nat) (h3 : elements.length % 3 = 0) (ht : tail.length < 3) :
    elementsTrianglesSpec transform vertices (elements ++ tail)
      = elementsTrianglesSpec transform vertices elements := by
  unfold elementsTrianglesSpec
  have hlen : (elements ++ tail).length / 3 = elements.length / 3 := by
    rw [List.length_append]; omega
  have hread : ∀ k, k < elements.length / 3 → ∀ d, d < 3 →
      vecRead (elements ++ tail) (3 * k + d) = vecRead elements (3 * k + d) := by
    intro k hk d hd
    exact vecRead_append_left _ _ _ (by omega)
  rw [hlen]
  have hfilter : (List.range (elements.length / 3)).filter
        (tripleInRange (elements ++ tail) vertices.length)
      = (List.range (elements.length / 3)).filter
        (tripleInRange elements vertices.length) := by
    apply List.filter_congr
    intro k hk
    have hk2 := List.mem_range.mp hk
    have e0 : vecRead (elements ++ tail) (3 * k) = vecRead elements (3 * k) :=
      hread k hk2 0 (by omega)
    unfold tripleInRange
    rw [e0, hread k hk2 1 (by omega), hread k hk2 2 (by omega)]
  rw [hfilter]
  apply List.map_congr_left
  intro k hk
  have hk2 := List.mem_range.mp (List.mem_filter.mp hk).1
  have e0 : vecRead (elements ++ tail) (3 * k) = vecRead elements (3 * k) :=
    hread k hk2 0 (by omega)
  rw [e0, hread k hk2 1 (by omega), hread k hk2 2 (by omega)]

theorem createShape_mesh_some (c : BulletColliderComponent) (transform : Mat4) (m : Mesh)
    (hk : c.shapeType = CollisionShape.MESH) (hm : c.mesh = some m) :
    createShape c transform
      = if m.vertices ≠ [] ∧ 0 < (meshTriangles transform m).length then
          some (Shape.bvhTriangleMesh (meshTriangles transform m))
        else some (Shape.box ⟨10, 10, 10⟩) := by
  unfold createShape
  rw [hk]
  simp only [hm]
  by_cases hv : m.vertices ≠ []
  · by_cases ht : 0 < (meshTriangles transform m).length
    · simp [hv, ht]
    · simp [hv, ht]
  · simp [hv]

theorem createShape_total (c : BulletColliderComponent) (transform : Mat4) :
    ∃ shape, createShape c transform = some shape := by
  unfold createShape
  split
  · exact ⟨_, rfl⟩
  · exact ⟨_, rfl⟩
  · exact ⟨_, rfl⟩
  · exact ⟨_, rfl⟩
  · split
    · split
      · split
        · exact ⟨_, rfl⟩
        · exact ⟨_, rfl⟩
      · exact ⟨_, rfl⟩
    · exact ⟨_, rfl⟩
  · split
    · exact ⟨_, rfl⟩
    · exact ⟨_, rfl⟩

/-! ## Shapes -/

/-- C1: for every size vector `(x, y, z)`, `createShape` yields for BOX a box
with half-extents `(x/2, y/2, z/2)`, for SPHERE a sphere of radius `x`, for
CAPSULE a capsule of radius `x` and height `y`, for CYLINDER a cylinder with
half-extents `(x, y/2, z)`; a box of size `(2, 2, 2)` has half-extents
`(1, 1, 1)`. -/
theorem createShape_primitives (c : BulletColliderComponent) (transform : Mat4)
    (x y z : ℚ) :
    createShape { c with shapeType := CollisionShape.BOX, size := ⟨x, y, z⟩ } transform
        = some (Shape.box ⟨x / 2, y / 2, z / 2⟩)
    ∧ createShape { c with shapeType := CollisionShape.SPHERE, size := ⟨x, y, z⟩ } transform
        = some (Shape.sphere x)
    ∧ createShape { c with shapeType := CollisionShape.CAPSULE, size := ⟨x, y, z⟩ } transform
        = some (Shape.capsule x y)
    ∧ createShape { c with shapeType := CollisionShape.CYLINDER, size := ⟨x, y, z⟩ } transform
        = some (Shape.cylinder ⟨x, y / 2, z⟩)
    ∧ createShape { c with shapeType := CollisionShape.BOX, size := ⟨2, 2, 2⟩ } transform
        = some (Shape.box ⟨1, 1, 1⟩) := by
  refine ⟨?_, ?_, ?_, ?_, ?_⟩
  · simp [createShape, div_eq_mul_inv]
  · simp [createShape]
  · simp [createShape]
  · simp [createShape, div_eq_mul_inv]
  · simp [createShape]

/-- C2: for each of the six shape kinds and every state of the mesh,
`createShape` returns a non-null shape. -/
theorem createShape_ne_none (c : BulletColliderComponent) (transform : Mat4) :
    createShape c transform ≠ none ∧ ∃ shape, createShape c transform = some shape := by
  obtain ⟨shape, hs⟩ := createShape_total c transform
  exact ⟨by rw [hs]; exact Option.some_ne_none _, shape, hs⟩

/-- C3: for a collider of kind MESH, when the mesh is absent, or has no
vertices, or gives a triangle count of 0 (in particular when it has direct
elements none of whose triples has its three indices below the vertex count),
`createShape` returns the fallback box with half-extents `(10, 10, 10)`. -/
theorem createShape_mesh_fallback (c : BulletColliderComponent) (transform : Mat4)
    (hk : c.shapeType = CollisionShape.MESH)
    (hm : c.mesh = none ∨ ∃ m, c.mesh = some m ∧
      (m.vertices = [] ∨ (meshTriangles transform m).length = 0
        ∨ (m.elements ≠ [] ∧ ∀ k, k < m.elements.length / 3 →
            tripleInRange m.elements m.vertices.length k = false))) :
    createShape c transform = some (Shape.box ⟨10, 10, 10⟩) := by
  rcases hm with hnone | ⟨m, hsome, hcase⟩
  · unfold createShape
    rw [hk]
    simp [hnone]
  · rw [createShape_mesh_some c transform m hk hsome]
    rcases hcase with hv | ht | ⟨he, hall⟩
    · simp [hv]
    · simp [ht]
    · have hz : meshTriangles transform m = [] := by
        unfold meshTriangles
        rw [if_pos he, elementsTriangles_eq]
        unfold elementsTrianglesSpec
        rw [List.filter_eq_nil_iff.mpr]
        · rfl
        · intro k hk2
          simp [hall k (List.mem_range.mp hk2)]
      simp [hz]

/-- C4: for a MESH collider whose mesh has vertices and direct elements, the
triangles baked into the shape are, in order, the triples
`(elements[3k], elements[3k+1], elements[3k+2])`, `k < floor(len / 3)`, whose
three indices are below the vertex count; a baked vertex is the x, y, z of
the owner's world matrix times `(position, 1)`; the triangle count is the
number of such triples; one or two trailing indices are ignored. -/
theorem createShape_mesh_elements (c : BulletColliderComponent) (transform : Mat4)
    (m : Mesh) (hk : c.shapeType = CollisionShape.MESH) (hm : c.mesh = some m)
    (hv : m.vertices ≠ []) (he : m.elements ≠ []) :
    meshTriangles transform m = elementsTrianglesSpec transform m.vertices m.elements
    ∧ (elementsTrianglesSpec transform m.vertices m.elements ≠ [] →
        createShape c transform = some (Shape.bvhTriangleMesh
          (elementsTrianglesSpec transform m.vertices m.elements)))
    ∧ (meshTriangles transform m).length
        = ((List.range (m.elements.length / 3)).filter
            (tripleInRange m.elements m.vertices.length)).length
    ∧ (∀ idx v, m.vertices.get? idx = some v →
        bakeVertex transform m.vertices idx
          = (transform.mulVec (Vec4.ofVec3 v.position 1)).xyz)
    ∧ (∀ tail : List Nat, m.elements.length % 3 = 0 → tail.length < 3 →
        meshTriangles transform { m with elements := m.elements ++ tail }
          = meshTriangles transform m) := by
  have h1 : meshTriangles transform m
      = elementsTrianglesSpec transform m.vertices m.elements := by
    unfold meshTriangles
    rw [if_pos he, elementsTriangles_eq]
  refine ⟨h1, ?_, ?_, ?_, ?_⟩
  · intro hne
    rw [createShape_mesh_some c transform m hk hm, h1]
    have hpos : 0 < (elementsTrianglesSpec transform m.vertices m.elements).length :=
      List.length_pos.mpr hne
    simp [hv, hpos]
  · rw [h1]
    unfold elementsTrianglesSpec
    rw [List.length_map]
  · intro idx v hget
    unfold bakeVertex
    rw [hget]
  · intro tail h3 ht
    have he2 : m.elements ++ tail ≠ [] := by
      intro h
      exact he (List.append_eq_nil.mp h).1
    rw [h1]
    unfold meshTriangles
    simp only [if_pos he2]
    rw [elementsTriangles_eq, elementsTrianglesSpec_append transform m.vertices m.elements
      tail h3 ht]

/-- Witness of C3: a MESH collider whose three elements are all out of range. -/
theorem createShape_mesh_fallback_witness :
    createShape { BulletColliderComponent.new none with
        shapeType := CollisionShape.MESH, mesh := some sampleDegenerateMesh } sampleMatrix
      = some (Shape.box ⟨10, 10, 10⟩) :=
  createShape_mesh_fallback _ sampleMatrix rfl
    (Or.inr ⟨sampleDegenerateMesh, rfl, Or.inr (Or.inl (by decide))⟩)

/-- Witness of C4: the sample mesh, seven elements, one triple in range. -/
theorem createShape_mesh_elements_witness :
    createShape { BulletColliderComponent.new none with
        shapeType := CollisionShape.MESH, mesh := some sampleMesh } sampleMatrix
      = some (Shape.bvhTriangleMesh [⟨⟨1, 2, 3⟩, ⟨2, 2, 3⟩, ⟨1, 3, 3⟩⟩]) := by
  have h := (createShape_mesh_elements
    { BulletColliderComponent.new none with
        shapeType := CollisionShape.MESH, mesh := some sampleMesh }
    sampleMatrix sampleMesh rfl rfl (by decide) (by decide)).2.1
  have hs : elementsTrianglesSpec sampleMatrix sampleMesh.vertices sampleMesh.elements
      = [⟨⟨1, 2, 3⟩, ⟨2, 2, 3⟩, ⟨1, 3, 3⟩⟩] := by
    simp [elementsTrianglesSpec, sampleMesh, tripleInRange, vecRead, bakeVertex,
      sampleMatrix, sampleVertex, Mat4.mulVec, Vec4.ofVec3, Vec4.xyz, List.range,
      List.range.loop, List.filter]
    norm_num
  rw [hs] at h
  exact h (by simp)

/-! ## Initialisation of a collider -/

theorem initializeCollider_none (ext : External) (h : Heap) (this : Nat)
    (world : Option btDiscreteDynamicsWorld) (ho : (h.components this).owner = none) :
    initializeCollider ext h this world = (h, world) := by
  unfold initializeCollider
  simp only [ho]

theorem initializeCollider_some (ext : External) (h : Heap) (this : Nat)
    (world : Option btDiscreteDynamicsWorld) (owner : Entity) (shape : Shape)
    (ho : (h.components this).owner = some owner)
    (hs : createShape (h.components this) (ext.getLocalToWorldMatrix owner) = some shape) :
    initializeCollider ext h this world
      = ({ components := Function.update h.components this
             { h.components this with
               collisionShape := some shape
               motionState := some h.motionStates.length
               rigidBody := some h.rigidBodies.length }
           rigidBodies := h.rigidBodies ++
             [{ (addToWorld ext world h.rigidBodies.length
                  (configuredBody ext (h.components this) shape h.motionStates.length)).2 with
                userPointer := some this }]
           motionStates := h.motionStates ++ [startTransform ext (h.components this) owner] },
         (addToWorld ext world h.rigidBodies.length
            (configuredBody ext (h.components this) shape h.motionStates.length)).1) := by
  unfold initializeCollider
  simp only [ho, hs]

theorem get?_append_length {α : Type} (l : List α) (a : α) :
    (l ++ [a]).get? l.length = some a := by
  induction l with
  | nil => rfl
  | cons x xs ih => simp

theorem initializeCollider_rigidBodies (ext : External) (h : Heap) (this : Nat)
    (world : Option btDiscreteDynamicsWorld) (owner : Entity) (shape : Shape)
    (ho : (h.components this).owner = some owner)
    (hs : createShape (h.components this) (ext.getLocalToWorldMatrix owner) = some shape) :
    (initializeCollider ext h this world).1.rigidBodies
      = h.rigidBodies ++
          [{ (addToWorld ext world h.rigidBodies.length
              (configuredBody ext (h.components this) shape h.motionStates.length)).2 with
             userPointer := some this }] := by
  rw [initializeCollider_some ext h this world owner shape ho hs]

theorem initializeCollider_motionStates (ext : External) (h : Heap) (this : Nat)
    (world : Option btDiscreteDynamicsWorld) (owner : Entity) (shape : Shape)
    (ho : (h.components this).owner = some owner)
    (hs : createShape (h.components this) (ext.getLocalToWorldMatrix owner) = some shape) :
    (initializeCollider ext h this world).1.motionStates
      = h.motionStates ++ [startTransform ext (h.components this) owner] := by
  rw [initializeCollider_some ext h this world owner shape ho hs]

theorem initializeCollider_component (ext : External) (h : Heap) (this : Nat)
    (world : Option btDiscreteDynamicsWorld) (owner : Entity) (shape : Shape)
    (ho : (h.components this).owner = some owner)
    (hs : createShape (h.components this) (ext.getLocalToWorldMatrix owner) = some shape) :
    (initializeCollider ext h this world).1.components this
      = { h.components this with
          collisionShape := some shape
          motionState := some h.motionStates.length
          rigidBody := some h.rigidBodies.length } := by
  rw [initializeCollider_some ext h this world owner shape ho hs]
  exact Function.update_same _ _ _

theorem initializeCollider_world (ext : External) (h : Heap) (this : Nat)
    (w : btDiscreteDynamicsWorld) (owner : Entity) (shape : Shape)
    (ho : (h.components this).owner = some owner)
    (hs : createShape (h.components this) (ext.getLocalToWorldMatrix owner) = some shape) :
    (initializeCollider ext h this (some w)).2
      = some { w with collisionObjects := w.collisionObjects ++ [h.rigidBodies.length] } := by
  rw [initializeCollider_some ext h this (some w) owner shape ho hs]
  rfl

theorem addToWorld_fields (ext : External) (world : Option btDiscreteDynamicsWorld)
    (p : Nat) (body : btRigidBody) :
    (addToWorld ext world p body).2.localInertia = body.localInertia
    ∧ (addToWorld ext world p body).2.angularFactor = body.angularFactor
    ∧ (addToWorld ext world p body).2.linearFactor = body.linearFactor
    ∧ (addToWorld ext world p body).2.friction = body.friction
    ∧ (addToWorld ext world p body).2.collisionFlags = body.collisionFlags
    ∧ (addToWorld ext world p body).2.motionState = body.motionState := by
  cases world <;> simp [addToWorld, btDiscreteDynamicsWorld.addRigidBody]

theorem lor_land_right (a b : Nat) : (a ||| b) &&& b = b := by
  apply Nat.eq_of_testBit_eq
  intro i
  rw [Nat.testBit_land, Nat.testBit_lor]
  cases a.testBit i <;> cases b.testBit i <;> rfl

theorem configuredBody_character (ext : External) (c : BulletColliderComponent)
    (shape : Shape) (ms : Nat) (hd : 0 < c.mass ∧ c.isTrigger = false) :
    (configuredBody ext c shape ms).localInertia = ext.calculateLocalInertia shape c.mass
    ∧ (configuredBody ext c shape ms).angularFactor = ⟨0, 0, 0⟩
    ∧ (configuredBody ext c shape ms).linearFactor = ⟨1, 1, 1⟩
    ∧ (configuredBody ext c shape ms).friction = 1
    ∧ (configuredBody ext c shape ms).gravity = ⟨0, 0, 0⟩
    ∧ (configuredBody ext c shape ms).activationState = ext.DISABLE_DEACTIVATION := by
  have ht : ¬ (c.isTrigger = true) := by simp [hd.2]
  have hi : localInertia ext c shape = ext.calculateLocalInertia shape c.mass := by
    unfold localInertia
    rw [if_pos hd]
  unfold configuredBody triggerConfiguration characterConfiguration
  rw [if_neg ht, if_pos hd]
  exact ⟨hi, rfl, rfl, rfl, rfl, rfl⟩

theorem configuredBody_plain (ext : External) (c : BulletColliderComponent)
    (shape : Shape) (ms : Nat) (hd : ¬ (0 < c.mass ∧ c.isTrigger = false)) :
    (configuredBody ext c shape ms).localInertia = ⟨0, 0, 0⟩
    ∧ (configuredBody ext c shape ms).angularFactor
        = (ext.freshBody (constructionInfo ext c shape ms)).angularFactor
    ∧ (configuredBody ext c shape ms).linearFactor
        = (ext.freshBody (constructionInfo ext c shape ms)).linearFactor
    ∧ (configuredBody ext c shape ms).friction = c.friction
    ∧ (configuredBody ext c shape ms).gravity
        = (ext.freshBody (constructionInfo ext c shape ms)).gravity
    ∧ (configuredBody ext c shape ms).activationState
        = (ext.freshBody (constructionInfo ext c shape ms)).activationState := by
  have hi : localInertia ext c shape = ⟨0, 0, 0⟩ := by
    unfold localInertia
    rw [if_neg hd]
  unfold configuredBody triggerConfiguration characterConfiguration
  rw [if_neg hd]
  by_cases ht : c.isTrigger = true
  · rw [if_pos ht]
    exact ⟨hi, rfl, rfl, rfl, rfl, rfl⟩
  · rw [if_neg ht]
    exact ⟨hi, rfl, rfl, rfl, rfl, rfl⟩

theorem configuredBody_collisionFlags (ext : External) (c : BulletColliderComponent)
    (shape : Shape) (ms : Nat) :
    (configuredBody ext c shape ms).collisionFlags
      = if c.isTrigger = true then
          (ext.freshBody (constructionInfo ext c shape ms)).collisionFlags
            ||| ext.CF_NO_CONTACT_RESPONSE
        else (ext.freshBody (constructionInfo ext c shape ms)).collisionFlags := by
  unfold configuredBody triggerConfiguration characterConfiguration
  split_ifs <;> rfl

theorem configuredBody_motionState (ext : External) (c : BulletColliderComponent)
    (shape : Shape) (ms : Nat) :
    (configuredBody ext c shape ms).motionState = some ms := by
  unfold configuredBody triggerConfiguration characterConfiguration
  split_ifs <;> rfl

/-- The dynamic-body configuration up to the call of `addRigidBody`:
`initialize` applies it exactly when `mass > 0` and `isTrigger` is false. In
that case the local inertia is the one computed from the shape, and the body
gets angular factor `(0,0,0)`, linear factor `(1,1,1)`, friction 1 whatever the
configured friction, and, at the point where it is handed to the world, gravity
`(0,0,0)` and the activation state `DISABLE_DEACTIVATION`. In every other case
the local inertia is `(0,0,0)`, the four settings are those of the freshly
constructed body and the friction is the configured one. `stored` is the body
left in the heap; gravity and activation state are stated for the configured
body, before the library's `addRigidBody`, and for `stored` when no world is
given. -/
theorem initializeCollider_dynamic_configuration (ext : External) (h : Heap) (this : Nat)
    (world : Option btDiscreteDynamicsWorld) (owner : Entity) (shape : Shape)
    (ho : (h.components this).owner = some owner)
    (hs : createShape (h.components this) (ext.getLocalToWorldMatrix owner) = some shape) :
    ∃ stored : btRigidBody,
      (initializeCollider ext h this world).1.rigidBodies.get? h.rigidBodies.length
          = some stored
      ∧ ((initializeCollider ext h this world).1.components this).rigidBody
          = some h.rigidBodies.length
      ∧ stored = { (addToWorld ext world h.rigidBodies.length
            (configuredBody ext (h.components this) shape h.motionStates.length)).2 with
            userPointer := some this }
      ∧ ((0 < (h.components this).mass ∧ (h.components this).isTrigger = false) →
          stored.localInertia = ext.calculateLocalInertia shape (h.components this).mass
          ∧ stored.angularFactor = ⟨0, 0, 0⟩
          ∧ stored.linearFactor = ⟨1, 1, 1⟩
          ∧ stored.friction = 1
          ∧ (configuredBody ext (h.components this) shape h.motionStates.length).gravity
              = ⟨0, 0, 0⟩
          ∧ (configuredBody ext (h.components this) shape
                h.motionStates.length).activationState = ext.DISABLE_DEACTIVATION
          ∧ (world = none → stored.gravity = ⟨0, 0, 0⟩
              ∧ stored.activationState = ext.DISABLE_DEACTIVATION))
      ∧ (¬ (0 < (h.components this).mass ∧ (h.components this).isTrigger = false) →
          stored.localInertia = ⟨0, 0, 0⟩
          ∧ stored.angularFactor = (ext.freshBody (constructionInfo ext (h.components this)
              shape h.motionStates.length)).angularFactor
          ∧ stored.linearFactor = (ext.freshBody (constructionInfo ext (h.components this)
              shape h.motionStates.length)).linearFactor
          ∧ stored.friction = (h.components this).friction
          ∧ (configuredBody ext (h.components this) shape h.motionStates.length).gravity
              = (ext.freshBody (constructionInfo ext (h.components this)
                  shape h.motionStates.length)).gravity
          ∧ (configuredBody ext (h.components this) shape
                h.motionStates.length).activationState
              = (ext.freshBody (constructionInfo ext (h.components this)
                  shape h.motionStates.length)).activationState
          ∧ (world = none →
              stored.gravity = (ext.freshBody (constructionInfo ext (h.components this)
                  shape h.motionStates.length)).gravity
              ∧ stored.activationState = (ext.freshBody (constructionInfo ext
                  (h.components this) shape h.motionStates.length)).activationState)) := by
  obtain ⟨a1, a2, a3, a4, _, _⟩ := addToWorld_fields ext world h.rigidBodies.length
    (configuredBody ext (h.components this) shape h.motionStates.length)
  rw [initializeCollider_rigidBodies ext h this world owner shape ho hs,
    initializeCollider_component ext h this world owner shape ho hs]
  refine ⟨_, get?_append_length _ _, rfl, rfl, ?_, ?_⟩
  · intro hd
    obtain ⟨b1, b2, b3, b4, b5, b6⟩ := configuredBody_character ext (h.components this)
      shape h.motionStates.length hd
    refine ⟨a1.trans b1, a2.trans b2, a3.trans b3, a4.trans b4, b5, b6, ?_⟩
    intro hw
    subst hw
    exact ⟨b5, b6⟩
  · intro hd
    obtain ⟨b1, b2, b3, b4, b5, b6⟩ := configuredBody_plain ext (h.components this)
      shape h.motionStates.length hd
    refine ⟨a1.trans b1, a2.trans b2, a3.trans b3, a4.trans b4, b5, b6, ?_⟩
    intro hw
    subst hw
    exact ⟨b5, b6⟩

/-- C6: after `initialize` of a trigger, whatever its shape kind and mass, the
collision flags of the body contain `CF_NO_CONTACT_RESPONSE` and every flag
the constructed body had; for a collider that is not a trigger the flags are
those of the constructed body, the flag is not added. -/
theorem initializeCollider_trigger_flag (ext : External) (h : Heap) (this : Nat)
    (world : Option btDiscreteDynamicsWorld) (owner : Entity) (shape : Shape)
    (ho : (h.components this).owner = some owner)
    (hs : createShape (h.components this) (ext.getLocalToWorldMatrix owner) = some shape) :
    ∃ stored : btRigidBody,
      (initializeCollider ext h this world).1.rigidBodies.get? h.rigidBodies.length
          = some stored
      ∧ ((h.components this).isTrigger = true →
          stored.collisionFlags &&& ext.CF_NO_CONTACT_RESPONSE = ext.CF_NO_CONTACT_RESPONSE
          ∧ ∀ i : Nat,
              (ext.freshBody (constructionInfo ext (h.components this) shape
                h.motionStates.length)).collisionFlags.testBit i = true →
              stored.collisionFlags.testBit i = true)
      ∧ ((h.components this).isTrigger = false →
          stored.collisionFlags = (ext.freshBody (constructionInfo ext (h.components this)
            shape h.motionStates.length)).collisionFlags) := by
  obtain ⟨_, _, _, _, a5, _⟩ := addToWorld_fields ext world h.rigidBodies.length
    (configuredBody ext (h.components this) shape h.motionStates.length)
  have hf := configuredBody_collisionFlags ext (h.components this) shape
    h.motionStates.length
  rw [initializeCollider_rigidBodies ext h this world owner shape ho hs]
  refine ⟨_, get?_append_length _ _, ?_, ?_⟩
  · intro ht
    rw [if_pos ht] at hf
    have hflags := a5.trans hf
    refine ⟨?_, ?_⟩
    · show (addToWorld ext world h.rigidBodies.length
        (configuredBody ext (h.components this) shape
          h.motionStates.length)).2.collisionFlags &&& _ = _
      rw [hflags, lor_land_right]
    · intro i hi
      show (addToWorld ext world h.rigidBodies.length
        (configuredBody ext (h.components this) shape
          h.motionStates.length)).2.collisionFlags.testBit i = true
      rw [hflags, Nat.testBit_lor, hi]
      rfl
  · intro ht
    have ht2 : ¬ ((h.components this).isTrigger = true) := by simp [ht]
    rw [if_neg ht2] at hf
    exact a5.trans hf

/-- C7: `initialize` gives the body the identity start transform when the
shape kind is MESH and the mass is 0; in every other case the start transform
has as origin the translation column of the owner's world matrix plus
`centerOffset` and as rotation the one extracted from that matrix. The start
transform is the content of the new motion state, to which the body and the
component point. -/
theorem initializeCollider_start_transform (ext : External) (h : Heap) (this : Nat)
    (world : Option btDiscreteDynamicsWorld) (owner : Entity) (shape : Shape)
    (ho : (h.components this).owner = some owner)
    (hs : createShape (h.components this) (ext.getLocalToWorldMatrix owner) = some shape) :
    (initializeCollider ext h this world).1.motionStates.get? h.motionStates.length
        = some (startTransform ext (h.components this) owner)
    ∧ ((initializeCollider ext h this world).1.components this).motionState
        = some h.motionStates.length
    ∧ (∃ stored : btRigidBody,
        (initializeCollider ext h this world).1.rigidBodies.get? h.rigidBodies.length
            = some stored
        ∧ stored.motionState = some h.motionStates.length)
    ∧ (((h.components this).shapeType = CollisionShape.MESH ∧ (h.components this).mass = 0) →
        startTransform ext (h.components this) owner = btTransform.identity)
    ∧ (¬ ((h.components this).shapeType = CollisionShape.MESH
          ∧ (h.components this).mass = 0) →
        startTransform ext (h.components this) owner
          = { origin := (ext.getLocalToWorldMatrix owner).c3.xyz.add
                (h.components this).centerOffset
              rotation := ext.quat_cast (ext.getLocalToWorldMatrix owner) }) := by
  obtain ⟨_, _, _, _, _, a6⟩ := addToWorld_fields ext world h.rigidBodies.length
    (configuredBody ext (h.components this) shape h.motionStates.length)
  rw [initializeCollider_rigidBodies ext h this world owner shape ho hs,
    initializeCollider_motionStates ext h this world owner shape ho hs,
    initializeCollider_component ext h this world owner shape ho hs]
  refine ⟨get?_append_length _ _, rfl, ⟨_, get?_append_length _ _, ?_⟩, ?_, ?_⟩
  · exact a6.trans (configuredBody_motionState _ _ _ _)
  · intro hm
    unfold startTransform
    rw [if_pos hm]
    rfl
  · intro hm
    unfold startTransform
    rw [if_neg hm]

theorem sampleCollider_shape :
    createShape (sampleHeap.components 0) (sampleExternal.getLocalToWorldMatrix sampleEntity)
      = some (Shape.box ⟨1, 1, 1⟩) := by
  simp [sampleHeap, sampleCollider, BulletColliderComponent.new, createShape]

theorem sampleTrigger_shape :
    createShape (sampleHeap.components 1) (sampleExternal.getLocalToWorldMatrix sampleEntity)
      = some (Shape.box ⟨1 / 2, 1 / 2, 1 / 2⟩) := by
  simp [sampleHeap, sampleTrigger, BulletColliderComponent.new, createShape]

/-- The configuration of the sample collider of mass 70 and configured
friction 1/2. -/
theorem initializeCollider_dynamic_configuration_witness :
    ∃ stored : btRigidBody,
      (initializeCollider sampleExternal sampleHeap 0
          sampleSystem.dynamicsWorld).1.rigidBodies.get? 0 = some stored
      ∧ stored.angularFactor = ⟨0, 0, 0⟩ ∧ stored.friction = 1
      ∧ stored.localInertia = ⟨70, 70, 70⟩ := by
  obtain ⟨stored, h1, _, _, h4, _⟩ := initializeCollider_dynamic_configuration sampleExternal
    sampleHeap 0 sampleSystem.dynamicsWorld sampleEntity (Shape.box ⟨1, 1, 1⟩) rfl
    sampleCollider_shape
  have hd : 0 < (sampleHeap.components 0).mass ∧ (sampleHeap.components 0).isTrigger = false := by
    simp [sampleHeap, sampleCollider, BulletColliderComponent.new]
  obtain ⟨b1, b2, _, b4, _⟩ := h4 hd
  exact ⟨stored, h1, b2, b4, b1⟩

/-- Witness of C6: the sample trigger; its body has the flags 1 and 4. -/
theorem initializeCollider_trigger_flag_witness :
    ∃ stored : btRigidBody,
      (initializeCollider sampleExternal sampleHeap 1
          sampleSystem.dynamicsWorld).1.rigidBodies.get? 0 = some stored
      ∧ stored.collisionFlags &&& 4 = 4 ∧ stored.collisionFlags.testBit 0 = true := by
  obtain ⟨stored, h1, h2, _⟩ := initializeCollider_trigger_flag sampleExternal
    sampleHeap 1 sampleSystem.dynamicsWorld sampleEntity (Shape.box ⟨1 / 2, 1 / 2, 1 / 2⟩) rfl
    sampleTrigger_shape
  obtain ⟨b1, b2⟩ := h2 rfl
  refine ⟨stored, h1, b1, b2 0 ?_⟩
  simp [sampleExternal, constructionInfo, sampleHeap, sampleTrigger,
    BulletColliderComponent.new]

/-- Witness of C7: the sample collider is a box, so its start transform is the
owner's position `(1, 2, 3)` with the extracted rotation. -/
theorem initializeCollider_start_transform_witness :
    (initializeCollider sampleExternal sampleHeap 0
        sampleSystem.dynamicsWorld).1.motionStates.get? 0
      = some { origin := ⟨1, 2, 3⟩, rotation := ⟨0, 0, 0, 1⟩ } := by
  obtain ⟨h1, _, _, _, h5⟩ := initializeCollider_start_transform sampleExternal
    sampleHeap 0 sampleSystem.dynamicsWorld sampleEntity (Shape.box ⟨1, 1, 1⟩) rfl
    sampleCollider_shape
  have hm : ¬ ((sampleHeap.components 0).shapeType = CollisionShape.MESH
      ∧ (sampleHeap.components 0).mass = 0) := by
    simp [sampleHeap, sampleCollider, BulletColliderComponent.new]
  have h6 := h5 hm
  rw [h6] at h1
  simpa [sampleExternal, sampleEntity, sampleHeap, sampleCollider,
    BulletColliderComponent.new, Vec3.add, Vec4.xyz] using h1

/-! ## The registry -/

theorem registerCollider_some (ext : External) (h : Heap) (sys : PhysicsSystem)
    (c : Nat) (w : btDiscreteDynamicsWorld) (hw : sys.dynamicsWorld = some w) :
    PhysicsSystem.registerCollider ext h sys (some c)
      = ((initializeCollider ext h c (some w)).1,
         { sys with
           dynamicsWorld := (initializeCollider ext h c (some w)).2
           colliders := sys.colliders ++ [c] }) := by
  unfold PhysicsSystem.registerCollider
  simp only [hw]

theorem removeCollider_some (h : Heap) (sys : PhysicsSystem)
    (c : Nat) (w : btDiscreteDynamicsWorld) (hw : sys.dynamicsWorld = some w) :
    PhysicsSystem.removeCollider h sys (some c)
      = { sys with
          dynamicsWorld :=
            some (match (h.components c).rigidBody with
                  | some p => w.removeRigidBody p
                  | none => w)
          colliders := sys.colliders.erase c } := by
  unfold PhysicsSystem.removeCollider
  simp only [hw]

theorem removeCollider_null (h : Heap) (sys : PhysicsSystem) (collider : Option Nat)
    (hn : collider = none ∨ sys.dynamicsWorld = none) :
    PhysicsSystem.removeCollider h sys collider = sys := by
  unfold PhysicsSystem.removeCollider
  rcases hn with hc | hw
  · rw [hc]
  · rw [hw]
    cases collider <;> rfl

theorem registerCollider_null (ext : External) (h : Heap) (sys : PhysicsSystem)
    (collider : Option Nat) (hn : collider = none ∨ sys.dynamicsWorld = none) :
    PhysicsSystem.registerCollider ext h sys collider = (h, sys) := by
  unfold PhysicsSystem.registerCollider
  rcases hn with hc | hw
  · rw [hc]
  · rw [hw]
    cases collider <;> rfl

/-- A collider without owner is still appended to the tracked list: no body is
created, heap and world stay as they are. -/
theorem registerCollider_no_owner (ext : External) (h : Heap) (sys : PhysicsSystem)
    (c : Nat) (w : btDiscreteDynamicsWorld) (hw : sys.dynamicsWorld = some w)
    (ho : (h.components c).owner = none) :
    PhysicsSystem.registerCollider ext h sys (some c)
      = (h, { sys with colliders := sys.colliders ++ [c] }) := by
  rw [registerCollider_some ext h sys c w hw, initializeCollider_none ext h c (some w) ho]
  simp [hw]

theorem erase_append_singleton (l : List Nat) (p : Nat) (hp : p ∉ l) :
    (l ++ [p]).erase p = l := by
  rw [List.erase_append_right _ hp]
  simp

theorem removeRigidBody_of_not_mem (w : btDiscreteDynamicsWorld) (p : Nat)
    (hp : p ∉ w.collisionObjects) : w.removeRigidBody p = w := by
  unfold btDiscreteDynamicsWorld.removeRigidBody
  rw [List.erase_of_not_mem hp]

theorem removeRigidBody_subset (w : btDiscreteDynamicsWorld) (p q : Nat)
    (hq : q ∈ (w.removeRigidBody p).collisionObjects) : q ∈ w.collisionObjects :=
  List.mem_of_mem_erase hq

/-- C8: on a registry with an initialised world, `registerCollider` followed
at once by `removeCollider` on the same collider leaves the length of the
tracked list as it was before the registration, and no body allocated from the
registration on, in particular the body it created, is in the world
afterwards. When the collider has an owner the registration does create a
body, at the next free address, and puts it into the world. The hypothesis
says that the world holds only bodies that were allocated. -/
theorem registerCollider_removeCollider (ext : External) (h : Heap) (sys : PhysicsSystem)
    (c : Nat) (w : btDiscreteDynamicsWorld) (hw : sys.dynamicsWorld = some w)
    (hfresh : ∀ q, q ∈ w.collisionObjects → q < h.rigidBodies.length) :
    (PhysicsSystem.removeCollider (PhysicsSystem.registerCollider ext h sys (some c)).1
        (PhysicsSystem.registerCollider ext h sys (some c)).2 (some c)).colliders.length
      = sys.colliders.length
    ∧ (∃ w2, (PhysicsSystem.removeCollider (PhysicsSystem.registerCollider ext h sys (some c)).1
          (PhysicsSystem.registerCollider ext h sys (some c)).2 (some c)).dynamicsWorld = some w2
        ∧ ∀ p, h.rigidBodies.length ≤ p → p ∉ w2.collisionObjects)
    ∧ (∀ owner, (h.components c).owner = some owner →
        (PhysicsSystem.registerCollider ext h sys (some c)).1.rigidBodies.length
            = h.rigidBodies.length + 1
        ∧ ((PhysicsSystem.registerCollider ext h sys (some c)).1.components c).rigidBody
            = some h.rigidBodies.length
        ∧ (PhysicsSystem.registerCollider ext h sys (some c)).2.dynamicsWorld
            = some { w with
                collisionObjects := w.collisionObjects ++ [h.rigidBodies.length] })
    ∧ ((h.components c).owner = none →
        (PhysicsSystem.registerCollider ext h sys (some c)).1.rigidBodies = h.rigidBodies) := by
  have hlen : ∀ l : List Nat, ((l ++ [c]).erase c).length = l.length := by
    intro l
    rw [List.length_erase_of_mem (by simp)]
    simp
  cases ho : (h.components c).owner with
  | none =>
    rw [registerCollider_no_owner ext h sys c w hw ho]
    dsimp only
    rw [removeCollider_some h { sys with colliders := sys.colliders ++ [c] } c w hw]
    refine ⟨hlen _, ⟨_, rfl, ?_⟩, ?_, ?_⟩
    · intro p hp hmem
      have hin : p ∈ w.collisionObjects := by
        cases hb : (h.components c).rigidBody with
        | none => rw [hb] at hmem; exact hmem
        | some b => rw [hb] at hmem; exact removeRigidBody_subset w b p hmem
      have := hfresh p hin
      omega
    · intro owner hcontra
      exact absurd hcontra (by simp)
    · intro _
      rfl
  | some owner =>
    obtain ⟨shape, hs⟩ := createShape_total (h.components c)
      (ext.getLocalToWorldMatrix owner)
    have hnew : h.rigidBodies.length ∉ w.collisionObjects := by
      intro hmem
      have := hfresh _ hmem
      omega
    have hworld := initializeCollider_world ext h c w owner shape ho hs
    have hcomp := initializeCollider_component ext h c (some w) owner shape ho hs
    have hbodies := initializeCollider_rigidBodies ext h c (some w) owner shape ho hs
    rw [registerCollider_some ext h sys c w hw]
    dsimp only
    rw [removeCollider_some _ _ c
      { w with collisionObjects := w.collisionObjects ++ [h.rigidBodies.length] } hworld]
    refine ⟨hlen _, ⟨_, rfl, ?_⟩, ?_, ?_⟩
    · intro p hp hmem
      rw [hcomp] at hmem
      have hmem2 : p ∈ (w.collisionObjects ++ [h.rigidBodies.length]).erase
          h.rigidBodies.length := hmem
      rw [erase_append_singleton _ _ hnew] at hmem2
      have := hfresh p hmem2
      omega
    · intro owner2 _
      refine ⟨?_, ?_, hworld⟩
      · show (initializeCollider ext h c (some w)).1.rigidBodies.length = _
        rw [hbodies]
        simp
      · show ((initializeCollider ext h c (some w)).1.components c).rigidBody = _
        rw [hcomp]
    · intro hcontra
      exact absurd hcontra (by simp)

/-- Witness of C8: the sample collider registered on and removed from the
sample system, whose world is empty. -/
theorem registerCollider_removeCollider_witness :
    (PhysicsSystem.removeCollider
        (PhysicsSystem.registerCollider sampleExternal sampleHeap sampleSystem (some 0)).1
        (PhysicsSystem.registerCollider sampleExternal sampleHeap sampleSystem (some 0)).2
        (some 0)).colliders.length = sampleSystem.colliders.length
    ∧ (PhysicsSystem.registerCollider sampleExternal sampleHeap sampleSystem
        (some 0)).1.rigidBodies.length = 1 := by
  have hq : ∀ q, q ∈ ([] : List Nat) → q < sampleHeap.rigidBodies.length := by
    intro q hq
    simp at hq
  obtain ⟨h1, _, h3, _⟩ := registerCollider_removeCollider sampleExternal sampleHeap
    sampleSystem 0 { collisionObjects := [], gravity := ⟨0, -98 / 10, 0⟩ } rfl hq
  exact ⟨h1, (h3 sampleEntity rfl).1⟩

/-- C9, amended: `removeCollider` changes neither the tracked list nor the
world when the collider is null, when the world is not initialised, or when
the collider is not in the tracked list and has no body in the world. For a
collider that is not in the tracked list the tracked list is always
unchanged, and the world loses exactly the body of the collider, if it holds it. -/
theorem removeCollider_noop (h : Heap) (sys : PhysicsSystem) (collider : Option Nat) :
    (collider = none → PhysicsSystem.removeCollider h sys collider = sys)
    ∧ (sys.dynamicsWorld = none → PhysicsSystem.removeCollider h sys collider = sys)
    ∧ (∀ c w, collider = some c → sys.dynamicsWorld = some w → c ∉ sys.colliders →
        (∀ p, (h.components c).rigidBody = some p → p ∉ w.collisionObjects) →
        PhysicsSystem.removeCollider h sys collider = sys)
    ∧ (∀ c w, collider = some c → sys.dynamicsWorld = some w → c ∉ sys.colliders →
        (PhysicsSystem.removeCollider h sys collider).colliders = sys.colliders
        ∧ (PhysicsSystem.removeCollider h sys collider).dynamicsWorld
            = some (match (h.components c).rigidBody with
                    | some p => w.removeRigidBody p
                    | none => w)) := by
  refine ⟨fun hc => removeCollider_null h sys collider (Or.inl hc),
    fun hw => removeCollider_null h sys collider (Or.inr hw), ?_, ?_⟩
  · intro c w hc hw hnot hbody
    rw [hc, removeCollider_some h sys c w hw, List.erase_of_not_mem hnot]
    have hworld : (match (h.components c).rigidBody with
        | some p => w.removeRigidBody p
        | none => w) = w := by
      cases hb : (h.components c).rigidBody with
      | none => rfl
      | some p => exact removeRigidBody_of_not_mem w p (hbody p hb)
    rw [hworld, ← hw]
  · intro c w hc hw hnot
    rw [hc, removeCollider_some h sys c w hw, List.erase_of_not_mem hnot]
    exact ⟨rfl, rfl⟩

/-- Witness of C9: the sample collider, never initialised, removed from the
sample system, which tracks nothing. -/
theorem removeCollider_noop_witness :
    PhysicsSystem.removeCollider sampleHeap sampleSystem (some 0) = sampleSystem :=
  (removeCollider_noop sampleHeap sampleSystem (some 0)).2.2.1 0
    { collisionObjects := [], gravity := ⟨0, -98 / 10, 0⟩ } rfl rfl
    (by simp [sampleSystem, PhysicsSystem.initializeSystem, PhysicsSystem.setGravity,
      PhysicsSystem.new])
    (by
      intro p hp
      simp [sampleHeap, sampleCollider, BulletColliderComponent.new] at hp)

/-- Counterexample to C9 as stated: the component at address 0 was initialised
directly on the world of the system, so it is not in the tracked list;
`removeCollider` nevertheless takes its body out of the world. -/
theorem removeCollider_untracked_detaches :
    0 ∉ sampleDirectSystem.colliders
    ∧ sampleDirectSystem.dynamicsWorld.map (fun w => w.collisionObjects) = some [0]
    ∧ (PhysicsSystem.removeCollider sampleDirectHeap sampleDirectSystem
        (some 0)).colliders = sampleDirectSystem.colliders
    ∧ (PhysicsSystem.removeCollider sampleDirectHeap sampleDirectSystem
        (some 0)).dynamicsWorld.map (fun w => w.collisionObjects) = some [] := by
  have hw : sampleSystem.dynamicsWorld
      = some { collisionObjects := [], gravity := ⟨0, -98 / 10, 0⟩ } := rfl
  have hworld := initializeCollider_world sampleExternal sampleHeap 0
    { collisionObjects := [], gravity := ⟨0, -98 / 10, 0⟩ } sampleEntity
    (Shape.box ⟨1, 1, 1⟩) rfl sampleCollider_shape
  have hcomp := initializeCollider_component sampleExternal sampleHeap 0
    (some { collisionObjects := [], gravity := ⟨0, -98 / 10, 0⟩ }) sampleEntity
    (Shape.box ⟨1, 1, 1⟩) rfl sampleCollider_shape
  have hsys : sampleDirectSystem.dynamicsWorld
      = some { collisionObjects := [0], gravity := ⟨0, -98 / 10, 0⟩ } := by
    unfold sampleDirectSystem
    rw [hw]
    exact hworld
  have hcs : sampleDirectSystem.colliders = [] := rfl
  rw [removeCollider_some sampleDirectHeap sampleDirectSystem 0 _ hsys, hsys, hcs]
  refine ⟨by simp, rfl, rfl, ?_⟩
  unfold sampleDirectHeap
  rw [hw, hcomp]
  rfl

/-- C10, evaluated at the failing input: registering the component at address
2, which has no owner, on the sample system creates no body and leaves the
world empty, but the tracked list, empty before, then holds the component. -/
theorem registerCollider_orphan_tracked :
    (sampleHeap.components 2).owner = none
    ∧ sampleSystem.colliders = []
    ∧ (PhysicsSystem.registerCollider sampleExternal sampleHeap sampleSystem
        (some 2)).2.colliders = [2]
    ∧ (PhysicsSystem.registerCollider sampleExternal sampleHeap sampleSystem
        (some 2)).1.rigidBodies = []
    ∧ (PhysicsSystem.registerCollider sampleExternal sampleHeap sampleSystem
        (some 2)).2.dynamicsWorld.map (fun w => w.collisionObjects) = some [] := by
  have hw : sampleSystem.dynamicsWorld
      = some { collisionObjects := [], gravity := ⟨0, -98 / 10, 0⟩ } := rfl
  rw [registerCollider_no_owner sampleExternal sampleHeap sampleSystem 2 _ hw rfl]
  exact ⟨rfl, rfl, rfl, rfl, rfl⟩

/-! ## One body per tracked collider -/

theorem initializeCollider_component_ne (ext : External) (h : Heap) (this d : Nat)
    (world : Option btDiscreteDynamicsWorld) (hd : d ≠ this) :
    (initializeCollider ext h this world).1.components d = h.components d := by
  cases ho : (h.components this).owner with
  | none => rw [initializeCollider_none ext h this world ho]
  | some owner =>
    obtain ⟨shape, hs⟩ := createShape_total (h.components this)
      (ext.getLocalToWorldMatrix owner)
    rw [initializeCollider_some ext h this world owner shape ho hs]
    exact Function.update_noteq hd _ _

theorem bodyTag_append_old (h h2 : Heap) (b : btRigidBody) (p : Nat)
    (hb : h2.rigidBodies = h.rigidBodies ++ [b]) (hp : p < h.rigidBodies.length) :
    bodyTag h2 p = bodyTag h p := by
  unfold bodyTag
  rw [hb, List.get?_eq_getElem?, List.get?_eq_getElem?, List.getElem?_append_left hp]

theorem bodyTag_append_new (h h2 : Heap) (b : btRigidBody)
    (hb : h2.rigidBodies = h.rigidBodies ++ [b]) :
    bodyTag h2 h.rigidBodies.length = b.userPointer := by
  unfold bodyTag
  rw [hb, get?_append_length]
  rfl

/-- Registering an untracked collider that has an owner keeps the registry consistent. -/
theorem RegistryInv.register (ext : External) (h : Heap) (sys : PhysicsSystem)
    (w : btDiscreteDynamicsWorld) (c : Nat) (inv : RegistryInv h sys w)
    (hc : c ∉ sys.colliders) (ho : (h.components c).owner ≠ none) :
    RegistryInv (PhysicsSystem.registerCollider ext h sys (some c)).1
      (PhysicsSystem.registerCollider ext h sys (some c)).2
      { w with collisionObjects := w.collisionObjects ++ [h.rigidBodies.length] } := by
  cases hq : (h.components c).owner with
  | none => exact absurd hq ho
  | some owner =>
    obtain ⟨shape, hs⟩ := createShape_total (h.components c)
      (ext.getLocalToWorldMatrix owner)
    have hworld := initializeCollider_world ext h c w owner shape hq hs
    have hcomp := initializeCollider_component ext h c (some w) owner shape hq hs
    have hbodies := initializeCollider_rigidBodies ext h c (some w) owner shape hq hs
    have hne : ∀ d, d ≠ c → (initializeCollider ext h c (some w)).1.components d
        = h.components d := fun d hd => initializeCollider_component_ne ext h c d (some w) hd
    have hlen : (initializeCollider ext h c (some w)).1.rigidBodies.length
        = h.rigidBodies.length + 1 := by
      rw [hbodies]
      simp
    have htagold : ∀ p, p < h.rigidBodies.length →
        bodyTag (initializeCollider ext h c (some w)).1 p = bodyTag h p :=
      fun p hp => bodyTag_append_old h _ _ p hbodies hp
    have htagnew : bodyTag (initializeCollider ext h c (some w)).1 h.rigidBodies.length
        = some c := bodyTag_append_new h _ _ hbodies
    have hfresh : h.rigidBodies.length ∉ w.collisionObjects := by
      intro hmem
      have := inv.objects_allocated _ hmem
      omega
    rw [registerCollider_some ext h sys c w inv.world]
    refine ⟨hworld, ?_, ?_, ?_, ?_, ?_, ?_, ?_⟩
    · show (sys.colliders ++ [c]).Nodup
      rw [List.nodup_append]
      exact ⟨inv.tracked_nodup, List.nodup_singleton c, by simpa using hc⟩
    · show (w.collisionObjects ++ [h.rigidBodies.length]).Nodup
      rw [List.nodup_append]
      exact ⟨inv.objects_nodup, List.nodup_singleton _, by simpa using hfresh⟩
    · intro p hp
      have hp2 : p ∈ w.collisionObjects ∨ p = h.rigidBodies.length := by
        simpa using hp
      rcases hp2 with hold | hnew
      · obtain ⟨d, hd1, hd2, hd3⟩ := inv.objects_tag p hold
        have hdc : d ≠ c := fun e => hc (e ▸ hd2)
        refine ⟨d, ?_, ?_, ?_⟩
        · rw [htagold p (inv.objects_allocated p hold)]
          exact hd1
        · show d ∈ sys.colliders ++ [c]
          simp [hd2]
        · show ((initializeCollider ext h c (some w)).1.components d).rigidBody = some p
          rw [hne d hdc]
          exact hd3
      · refine ⟨c, ?_, ?_, ?_⟩
        · rw [hnew]
          exact htagnew
        · show c ∈ sys.colliders ++ [c]
          simp
        · show ((initializeCollider ext h c (some w)).1.components c).rigidBody = some p
          rw [hcomp, hnew]
    · intro d hd
      have hd2 : d ∈ sys.colliders ∨ d = c := by
        simpa using hd
      by_cases hdc : d = c
      · refine ⟨h.rigidBodies.length, ?_, ?_⟩
        · show ((initializeCollider ext h c (some w)).1.components d).rigidBody = _
          rw [hdc, hcomp]
        · show h.rigidBodies.length ∈ w.collisionObjects ++ [h.rigidBodies.length]
          simp
      · rcases hd2 with hold | hnew
        · obtain ⟨q, hq1, hq2⟩ := inv.tracked_body d hold
          refine ⟨q, ?_, ?_⟩
          · show ((initializeCollider ext h c (some w)).1.components d).rigidBody = _
            rw [hne d hdc]
            exact hq1
          · show q ∈ w.collisionObjects ++ [h.rigidBodies.length]
            simp [hq2]
        · exact absurd hnew hdc
    · intro d q hdq hq
      have hq2 : q ∈ w.collisionObjects ∨ q = h.rigidBodies.length := by
        simpa using hq
      by_cases hdc : d = c
      · have hdq2 : ((initializeCollider ext h c (some w)).1.components c).rigidBody
            = some q := hdc ▸ hdq
        rw [hcomp] at hdq2
        have hqe : h.rigidBodies.length = q := by
          simpa using hdq2
        rw [hdc, ← hqe]
        exact htagnew
      · have hdq2 : ((initializeCollider ext h c (some w)).1.components d).rigidBody
            = some q := hdq
        rw [hne d hdc] at hdq2
        have hqlt := inv.allocated d q hdq2
        rcases hq2 with hold | hnew
        · show bodyTag (initializeCollider ext h c (some w)).1 q = some d
          rw [htagold q hqlt]
          exact inv.pointer_tag d q hdq2 hold
        · omega
    · intro d q hdq
      show q < (initializeCollider ext h c (some w)).1.rigidBodies.length
      rw [hlen]
      by_cases hdc : d = c
      · have hdq2 : ((initializeCollider ext h c (some w)).1.components c).rigidBody
            = some q := hdc ▸ hdq
        rw [hcomp] at hdq2
        have hqe : h.rigidBodies.length = q := by
          simpa using hdq2
        omega
      · have hdq2 : ((initializeCollider ext h c (some w)).1.components d).rigidBody
            = some q := hdq
        rw [hne d hdc] at hdq2
        have := inv.allocated d q hdq2
        omega
    · intro q hq
      show q < (initializeCollider ext h c (some w)).1.rigidBodies.length
      rw [hlen]
      have hq2 : q ∈ w.collisionObjects ∨ q = h.rigidBodies.length := by
        simpa using hq
      rcases hq2 with hold | hnew
      · have := inv.objects_allocated q hold
        omega
      · omega

/-- Removing any collider keeps the registry consistent. -/
theorem RegistryInv.remove (h : Heap) (sys : PhysicsSystem)
    (w : btDiscreteDynamicsWorld) (c : Nat) (inv : RegistryInv h sys w) :
    ∃ w2, RegistryInv h (PhysicsSystem.removeCollider h sys (some c)) w2 := by
  rw [removeCollider_some h sys c w inv.world]
  by_cases hmem : c ∈ sys.colliders
  · obtain ⟨p, hp1, hp2⟩ := inv.tracked_body c hmem
    refine ⟨w.removeRigidBody p, ?_, ?_, ?_, ?_, ?_, ?_, ?_, ?_⟩
    · show some (match (h.components c).rigidBody with
        | some p => w.removeRigidBody p
        | none => w) = some (w.removeRigidBody p)
      rw [hp1]
    · exact inv.tracked_nodup.erase c
    · exact inv.objects_nodup.erase p
    · intro q hq
      have hq2 : q ≠ p ∧ q ∈ w.collisionObjects :=
        (List.Nodup.mem_erase_iff inv.objects_nodup).mp hq
      obtain ⟨d, hd1, hd2, hd3⟩ := inv.objects_tag q hq2.2
      have hdc : d ≠ c := by
        intro e
        rw [e, hp1] at hd3
        exact hq2.1 (Option.some.inj hd3).symm
      exact ⟨d, hd1, (List.Nodup.mem_erase_iff inv.tracked_nodup).mpr ⟨hdc, hd2⟩, hd3⟩
    · intro d hd
      have hd2 : d ≠ c ∧ d ∈ sys.colliders :=
        (List.Nodup.mem_erase_iff inv.tracked_nodup).mp hd
      obtain ⟨q, hq1, hq2⟩ := inv.tracked_body d hd2.2
      have hqp : q ≠ p := by
        intro e
        rw [e] at hq1
        have t1 := inv.pointer_tag d p hq1 hp2
        have t2 := inv.pointer_tag c p hp1 hp2
        rw [t1] at t2
        exact hd2.1 (Option.some.inj t2)
      exact ⟨q, hq1, (List.Nodup.mem_erase_iff inv.objects_nodup).mpr ⟨hqp, hq2⟩⟩
    · intro d q hdq hq
      exact inv.pointer_tag d q hdq (List.mem_of_mem_erase hq)
    · exact inv.allocated
    · intro q hq
      exact inv.objects_allocated q (List.mem_of_mem_erase hq)
  · have hworld : (match (h.components c).rigidBody with
        | some p => w.removeRigidBody p
        | none => w) = w := by
      cases hb : (h.components c).rigidBody with
      | none => rfl
      | some p =>
        apply removeRigidBody_of_not_mem
        intro hp
        obtain ⟨d, hd1, hd2, _⟩ := inv.objects_tag p hp
        have t := inv.pointer_tag c p hb hp
        rw [t] at hd1
        exact hmem ((Option.some.inj hd1) ▸ hd2)
    rw [hworld, List.erase_of_not_mem hmem]
    exact ⟨w, rfl, inv.tracked_nodup, inv.objects_nodup, inv.objects_tag, inv.tracked_body,
      inv.pointer_tag, inv.allocated, inv.objects_allocated⟩

/-- A fresh call keeps the registry consistent. -/
theorem RegistryInv.afterCall (ext : External) (st : Heap × PhysicsSystem)
    (w : btDiscreteDynamicsWorld) (call : RegistryCall) (inv : RegistryInv st.1 st.2 w)
    (hf : call.Fresh st) :
    ∃ w2, RegistryInv (runCall ext st call).1 (runCall ext st call).2 w2 := by
  cases call with
  | register collider =>
    cases collider with
    | none =>
      refine ⟨w, ?_⟩
      show RegistryInv (PhysicsSystem.registerCollider ext st.1 st.2 none).1
        (PhysicsSystem.registerCollider ext st.1 st.2 none).2 w
      rw [registerCollider_null ext st.1 st.2 none (Or.inl rfl)]
      exact inv
    | some c => exact ⟨_, RegistryInv.register ext st.1 st.2 w c inv hf.1 hf.2⟩
  | remove collider =>
    cases collider with
    | none =>
      refine ⟨w, ?_⟩
      show RegistryInv st.1 (PhysicsSystem.removeCollider st.1 st.2 none) w
      rw [removeCollider_null st.1 st.2 none (Or.inl rfl)]
      exact inv
    | some c => exact RegistryInv.remove st.1 st.2 w c inv

/-- A sequence of fresh calls keeps the registry consistent. -/
theorem RegistryInv.afterCalls (ext : External) (calls : List RegistryCall) :
    ∀ (st : Heap × PhysicsSystem) (w : btDiscreteDynamicsWorld),
      RegistryInv st.1 st.2 w → FreshCalls ext st calls →
      ∃ w2, RegistryInv (runCalls ext st calls).1 (runCalls ext st calls).2 w2 := by
  induction calls with
  | nil => intro st w inv _; exact ⟨w, inv⟩
  | cons call rest ih =>
    intro st w inv hf
    obtain ⟨w1, inv1⟩ := RegistryInv.afterCall ext st w call inv hf.1
    exact ih (runCall ext st call) w1 inv1 hf.2

/-- A registry whose world and tracked list are empty is consistent with
every heap whose components hold only pointers to allocated bodies. -/
theorem RegistryInv.initial (h : Heap) (sys : PhysicsSystem) (w : btDiscreteDynamicsWorld)
    (hw : sys.dynamicsWorld = some w) (hobjects : w.collisionObjects = [])
    (htracked : sys.colliders = [])
    (halloc : ∀ c p, (h.components c).rigidBody = some p → p < h.rigidBodies.length) :
    RegistryInv h sys w := by
  refine ⟨hw, ?_, ?_, ?_, ?_, ?_, halloc, ?_⟩
  · rw [htracked]; exact List.nodup_nil
  · rw [hobjects]; exact List.nodup_nil
  · intro p hp; rw [hobjects] at hp; exact absurd hp (List.not_mem_nil p)
  · intro c hc; rw [htracked] at hc; exact absurd hc (List.not_mem_nil c)
  · intro c p _ hp; rw [hobjects] at hp; exact absurd hp (List.not_mem_nil p)
  · intro p hp; rw [hobjects] at hp; exact absurd hp (List.not_mem_nil p)

theorem eq_singleton_of_nodup (l : List Nat) (p : Nat) (hn : l.Nodup)
    (hall : ∀ x, x ∈ l → x = p) (hp : p ∈ l) : l = [p] := by
  cases l with
  | nil => exact absurd hp (List.not_mem_nil p)
  | cons a t =>
    have ha : a = p := hall a (List.mem_cons_self a t)
    cases t with
    | nil => rw [ha]
    | cons b u =>
      have hb : b = p := hall b (by simp)
      rw [ha, hb] at hn
      simp at hn

/-- In a consistent registry each tracked collider is tracked once and has
exactly one body in the world tagged with it. -/
theorem RegistryInv.one_body (h : Heap) (sys : PhysicsSystem) (w : btDiscreteDynamicsWorld)
    (inv : RegistryInv h sys w) (c : Nat) (hc : c ∈ sys.colliders) :
    sys.colliders.count c = 1 ∧ (taggedBodies h w c).length = 1 := by
  refine ⟨List.count_eq_one_of_mem inv.tracked_nodup hc, ?_⟩
  obtain ⟨p, hp1, hp2⟩ := inv.tracked_body c hc
  have htag := inv.pointer_tag c p hp1 hp2
  have hsingle : taggedBodies h w c = [p] := by
    apply eq_singleton_of_nodup
    · exact inv.objects_nodup.filter _
    · intro q hq
      unfold taggedBodies at hq
      rw [List.mem_filter] at hq
      obtain ⟨d, hd1, _, hd3⟩ := inv.objects_tag q hq.1
      have hq2 : bodyTag h q = some c := by simpa using hq.2
      rw [hq2] at hd1
      rw [← Option.some.inj hd1, hp1] at hd3
      exact (Option.some.inj hd3).symm
    · unfold taggedBodies
      rw [List.mem_filter]
      exact ⟨hp2, by simpa using htag⟩
  rw [hsingle]
  rfl

/-- C11, amended: start from an initialised registry with an empty world and
an empty tracked list, and make any sequence of `registerCollider` and
`removeCollider` calls in which no call registers a collider that is
already tracked or that has no owner. Then every collider in the tracked list
appears there exactly once and has exactly one body in the world tagged with
it. The last hypothesis says that components hold only pointers to allocated
bodies. -/
theorem runCalls_one_body (ext : External) (h : Heap) (sys : PhysicsSystem)
    (w : btDiscreteDynamicsWorld) (calls : List RegistryCall)
    (hw : sys.dynamicsWorld = some w) (hobjects : w.collisionObjects = [])
    (htracked : sys.colliders = [])
    (halloc : ∀ c p, (h.components c).rigidBody = some p → p < h.rigidBodies.length)
    (hfresh : FreshCalls ext (h, sys) calls) :
    ∃ w2, (runCalls ext (h, sys) calls).2.dynamicsWorld = some w2
      ∧ ∀ c, c ∈ (runCalls ext (h, sys) calls).2.colliders →
          (runCalls ext (h, sys) calls).2.colliders.count c = 1
          ∧ (taggedBodies (runCalls ext (h, sys) calls).1 w2 c).length = 1 := by
  obtain ⟨w2, inv2⟩ := RegistryInv.afterCalls ext calls (h, sys) w
    (RegistryInv.initial h sys w hw hobjects htracked halloc) hfresh
  exact ⟨w2, inv2.world, fun c hc => RegistryInv.one_body _ _ w2 inv2 c hc⟩

/-- Witness of C11: the four sample calls on the sample system; the tracked
list ends as `[1, 0]`. -/
theorem runCalls_one_body_witness :
    (runCalls sampleExternal (sampleHeap, sampleSystem) sampleCalls).2.colliders = [1, 0]
    ∧ ∃ w2, (runCalls sampleExternal (sampleHeap, sampleSystem)
          sampleCalls).2.dynamicsWorld = some w2
        ∧ ∀ c, c ∈ (runCalls sampleExternal (sampleHeap, sampleSystem)
            sampleCalls).2.colliders →
          (runCalls sampleExternal (sampleHeap, sampleSystem)
            sampleCalls).2.colliders.count c = 1
          ∧ (taggedBodies (runCalls sampleExternal (sampleHeap, sampleSystem)
              sampleCalls).1 w2 c).length = 1 := by
  refine ⟨by decide, ?_⟩
  apply runCalls_one_body sampleExternal sampleHeap sampleSystem
    { collisionObjects := [], gravity := ⟨0, -98 / 10, 0⟩ } sampleCalls rfl rfl rfl
  · intro c p hp
    have hnone : (sampleHeap.components c).rigidBody = none := by
      unfold sampleHeap
      dsimp only
      split_ifs <;> rfl
    rw [hnone] at hp
    exact absurd hp (by simp)
  · exact ⟨⟨by decide, by decide⟩, ⟨by decide, by decide⟩, trivial,
      ⟨by decide, by decide⟩, trivial⟩

/-- Counterexample to C11 as stated: after `registerCollider` twice on the
same collider the tracked list holds it twice and the world holds two bodies
tagged with it. -/
theorem registerCollider_twice :
    (runCalls sampleExternal (sampleHeap, sampleSystem) sampleDoubleCalls).2.colliders
        = [0, 0]
    ∧ (runCalls sampleExternal (sampleHeap, sampleSystem)
        sampleDoubleCalls).2.colliders.count 0 = 2
    ∧ (runCalls sampleExternal (sampleHeap, sampleSystem)
        sampleDoubleCalls).2.dynamicsWorld.map (fun w => w.collisionObjects) = some [0, 1]
    ∧ (runCalls sampleExternal (sampleHeap, sampleSystem)
        sampleDoubleCalls).2.dynamicsWorld.map
          (fun w => taggedBodies (runCalls sampleExternal (sampleHeap, sampleSystem)
            sampleDoubleCalls).1 w 0) = some [0, 1] := by
  refine ⟨by decide, by decide, by decide, by decide⟩

/-! ## Stepping and synchronisation -/

theorem update_some (ext : External) (h : Heap) (sys : PhysicsSystem) (dt : ℚ)
    (w : btDiscreteDynamicsWorld) (hw : sys.dynamicsWorld = some w) :
    PhysicsSystem.update ext h sys dt
      = (syncLoop (w.stepSimulation ext h dt 10 (1 / 60)).1 sys.colliders,
         { sys with dynamicsWorld := some (w.stepSimulation ext h dt 10 (1 / 60)).2 }) := by
  unfold PhysicsSystem.update
  simp only [hw]

/-- C12: for every `dt`, `update(dt)` on an initialised registry calls
`stepSimulation` exactly once, with `dt` unchanged, 10 sub-steps at most and
the fixed sub-step 1/60, and leaves the objects and the gravity of the world
as they are; on a registry that is not initialised it does nothing. -/
theorem update_stepSimulation (ext : External) (h : Heap) (sys : PhysicsSystem) (dt : ℚ) :
    (sys.dynamicsWorld = none → PhysicsSystem.update ext h sys dt = (h, sys))
    ∧ (∀ w, sys.dynamicsWorld = some w →
        ∃ w2, (PhysicsSystem.update ext h sys dt).2.dynamicsWorld = some w2
          ∧ w2.stepCalls = w.stepCalls ++ [⟨dt, 10, 1 / 60⟩]
          ∧ w2.collisionObjects = w.collisionObjects
          ∧ w2.gravity = w.gravity
          ∧ (PhysicsSystem.update ext h sys dt).2.colliders = sys.colliders) := by
  refine ⟨?_, ?_⟩
  · intro hw
    unfold PhysicsSystem.update
    simp only [hw]
  · intro w hw
    rw [update_some ext h sys dt w hw]
    exact ⟨_, rfl, rfl, rfl, rfl, rfl⟩

/-- Witness of C12: one update of the sample system with `dt = 1`, which is
more than 10/60. -/
theorem update_stepSimulation_witness :
    ∃ w2, (PhysicsSystem.update sampleExternal sampleHeap sampleSystem 1).2.dynamicsWorld
        = some w2
      ∧ w2.stepCalls = [⟨1, 10, 1 / 60⟩] := by
  have hall := (update_stepSimulation sampleExternal sampleHeap sampleSystem 1).2
  obtain ⟨w2, h1, h2, _⟩ := hall { collisionObjects := [], gravity := ⟨0, -98 / 10, 0⟩ } rfl
  exact ⟨w2, h1, h2⟩

theorem bodyMotionState_congr (h1 h2 : Heap) (p : Nat)
    (hb : h1.rigidBodies = h2.rigidBodies) (hm : h1.motionStates = h2.motionStates) :
    bodyMotionState h1 p = bodyMotionState h2 p := by
  unfold bodyMotionState
  rw [hb, hm]

theorem syncedComponent_congr (h1 h2 : Heap) (c : BulletColliderComponent)
    (hb : h1.rigidBodies = h2.rigidBodies) (hm : h1.motionStates = h2.motionStates) :
    syncedComponent h1 c = syncedComponent h2 c := by
  unfold syncedComponent
  cases c.rigidBody with
  | none => rfl
  | some p =>
    cases c.owner with
    | none => rfl
    | some owner =>
      dsimp only
      rw [bodyMotionState_congr h1 h2 p hb hm]

theorem syncedComponent_cases (h : Heap) (c : BulletColliderComponent) :
    syncedComponent h c = c
    ∨ ∃ p owner, c.rigidBody = some p ∧ c.owner = some owner ∧ c.mass ≠ 0
        ∧ syncedComponent h c = { c with
            owner := some
              { owner with
                localTransform :=
                  { owner.localTransform with
                    position := (bodyMotionState h p).origin.sub c.centerOffset } } } := by
  cases hb : c.rigidBody with
  | none => left; unfold syncedComponent; rw [hb]
  | some p =>
    cases ho : c.owner with
    | none => left; unfold syncedComponent; rw [hb, ho]
    | some owner =>
      by_cases hm : c.mass = 0
      · left; unfold syncedComponent; rw [hb, ho]; simp [hm]
      · right
        refine ⟨p, owner, rfl, rfl, hm, ?_⟩
        unfold syncedComponent; rw [hb, ho]; simp [hm]

theorem syncedComponent_fields (h : Heap) (c : BulletColliderComponent) :
    (syncedComponent h c).mass = c.mass
    ∧ (syncedComponent h c).rigidBody = c.rigidBody
    ∧ (syncedComponent h c).centerOffset = c.centerOffset
    ∧ (syncedComponent h c).motionState = c.motionState
    ∧ ((syncedComponent h c).owner = none ↔ c.owner = none) := by
  rcases syncedComponent_cases h c with e | ⟨p, owner, _, ho, _, e⟩
  · rw [e]
    exact ⟨rfl, rfl, rfl, rfl, Iff.rfl⟩
  · rw [e]
    refine ⟨rfl, rfl, rfl, rfl, ?_⟩
    rw [ho]
    simp

theorem syncedComponent_noop (h : Heap) (c : BulletColliderComponent)
    (hn : c.rigidBody = none ∨ c.owner = none ∨ c.mass = 0) : syncedComponent h c = c := by
  rcases syncedComponent_cases h c with e | ⟨p, owner, hb, ho, hm, _⟩
  · exact e
  · rcases hn with h1 | h1 | h1
    · rw [hb] at h1; exact absurd h1 (by simp)
    · rw [ho] at h1; exact absurd h1 (by simp)
    · exact absurd h1 hm

theorem syncedComponent_sync (h : Heap) (c : BulletColliderComponent) (p : Nat)
    (owner : Entity) (hb : c.rigidBody = some p) (ho : c.owner = some owner)
    (hm : c.mass ≠ 0) :
    syncedComponent h c = { c with
      owner := some
        { owner with
          localTransform :=
            { owner.localTransform with
              position := (bodyMotionState h p).origin.sub c.centerOffset } } } := by
  unfold syncedComponent
  rw [hb, ho]
  simp [hm]

theorem syncToEntity_eq (h : Heap) (this : Nat) :
    syncToEntity h this
      = { h with
          components :=
            Function.update h.components this (syncedComponent h (h.components this)) } := by
  by_cases hn : (h.components this).rigidBody = none ∨ (h.components this).owner = none
      ∨ (h.components this).mass = 0
  · rw [syncedComponent_noop h _ hn, Function.update_eq_self]
    unfold syncToEntity
    rcases hn with h1 | h1 | h1
    · simp only [h1]
    · simp only [h1]
      cases (h.components this).rigidBody <;> rfl
    · cases hb : (h.components this).rigidBody with
      | none => rfl
      | some p =>
        cases ho : (h.components this).owner with
        | none => rfl
        | some owner => simp [h1]
  · have h1 : (h.components this).rigidBody ≠ none := fun e => hn (Or.inl e)
    have h2 : (h.components this).owner ≠ none := fun e => hn (Or.inr (Or.inl e))
    have h3 : (h.components this).mass ≠ 0 := fun e => hn (Or.inr (Or.inr e))
    obtain ⟨p, hb⟩ := Option.ne_none_iff_exists'.mp h1
    obtain ⟨owner, ho⟩ := Option.ne_none_iff_exists'.mp h2
    rw [syncedComponent_sync h _ p owner hb ho h3]
    unfold syncToEntity
    simp only [hb, ho]
    rw [if_neg h3]

theorem syncedComponent_idem (h : Heap) (c : BulletColliderComponent) :
    syncedComponent h (syncedComponent h c) = syncedComponent h c := by
  cases hb : c.rigidBody with
  | none =>
    have e : syncedComponent h c = c := by unfold syncedComponent; rw [hb]
    rw [e, e]
  | some p =>
    cases ho : c.owner with
    | none =>
      have e : syncedComponent h c = c := by unfold syncedComponent; rw [hb, ho]
      rw [e, e]
    | some owner =>
      by_cases hm : c.mass = 0
      · have e : syncedComponent h c = c := by
          unfold syncedComponent; rw [hb, ho]; simp [hm]
        rw [e, e]
      · have e : syncedComponent h c = { c with
            owner := some
              { owner with
                localTransform :=
                  { owner.localTransform with
                    position := (bodyMotionState h p).origin.sub c.centerOffset } } } := by
          unfold syncedComponent; rw [hb, ho]; simp [hm]
        rw [e]
        unfold syncedComponent
        simp [hb, hm]

theorem syncLoop_cons (h : Heap) (c : Nat) (rest : List Nat) :
    syncLoop h (c :: rest)
      = syncLoop (if 0 < (h.components c).mass then syncToEntity h c else h) rest := by
  unfold syncLoop
  rfl

/-- The loop of `update` leaves bodies and motion states alone and replaces
the component of each listed collider of positive mass by its synchronised value. -/
theorem syncLoop_spec (colliders : List Nat) :
    ∀ h : Heap,
      (syncLoop h colliders).rigidBodies = h.rigidBodies
      ∧ (syncLoop h colliders).motionStates = h.motionStates
      ∧ ∀ d, (syncLoop h colliders).components d
          = if d ∈ colliders ∧ 0 < (h.components d).mass then
              syncedComponent h (h.components d)
            else h.components d := by
  induction colliders with
  | nil =>
    intro h
    refine ⟨rfl, rfl, ?_⟩
    intro d
    simp [syncLoop]
  | cons c rest ih =>
    intro h
    rw [syncLoop_cons]
    by_cases hc : 0 < (h.components c).mass
    · rw [if_pos hc]
      obtain ⟨i1, i2, i3⟩ := ih (syncToEntity h c)
      have hb : (syncToEntity h c).rigidBodies = h.rigidBodies := by rw [syncToEntity_eq]
      have hm : (syncToEntity h c).motionStates = h.motionStates := by rw [syncToEntity_eq]
      have hcomp : ∀ d, (syncToEntity h c).components d
          = if d = c then syncedComponent h (h.components c) else h.components d := by
        intro d
        rw [syncToEntity_eq]
        by_cases hd : d = c
        · rw [if_pos hd, hd]
          exact Function.update_same _ _ _
        · rw [if_neg hd]
          exact Function.update_noteq hd _ _
      refine ⟨i1.trans hb, i2.trans hm, ?_⟩
      intro d
      rw [i3 d, hcomp d, syncedComponent_congr (syncToEntity h c) h _ hb hm]
      by_cases hd : d = c
      · rw [if_pos hd, hd, syncedComponent_idem, (syncedComponent_fields h _).1]
        simp [hc]
      · rw [if_neg hd]
        simp [hd]
    · rw [if_neg hc]
      obtain ⟨i1, i2, i3⟩ := ih h
      refine ⟨i1, i2, ?_⟩
      intro d
      rw [i3 d]
      by_cases hd : d = c
      · rw [hd]
        simp [hc]
      · simp [hd]

/-- C14: for a collider with a body, an owner and a mass other than 0,
`syncToEntity` sets the owner's local position to the origin of the body's
motion state minus `centerOffset` and leaves the owner's rotation, scale,
name and parent, every other field of the component, every other component,
and all bodies and motion states unchanged; when the body or the owner is
missing or the mass is 0 it changes nothing. -/
theorem syncToEntity_position (h : Heap) (this : Nat) :
    (∀ p owner, (h.components this).rigidBody = some p →
        (h.components this).owner = some owner → (h.components this).mass ≠ 0 →
        (∃ o2 : Entity,
          (syncToEntity h this).components this = { h.components this with owner := some o2 }
          ∧ o2.localTransform.position
              = (bodyMotionState h p).origin.sub (h.components this).centerOffset
          ∧ o2.localTransform.rotation = owner.localTransform.rotation
          ∧ o2.localTransform.scale = owner.localTransform.scale
          ∧ o2.name = owner.name ∧ o2.parent = owner.parent)
        ∧ (∀ b m t, h.rigidBodies.get? p = some b → b.motionState = some m →
            h.motionStates.get? m = some t → bodyMotionState h p = t))
    ∧ (syncToEntity h this).rigidBodies = h.rigidBodies
    ∧ (syncToEntity h this).motionStates = h.motionStates
    ∧ (∀ d, d ≠ this → (syncToEntity h this).components d = h.components d)
    ∧ ((h.components this).rigidBody = none ∨ (h.components this).owner = none
        ∨ (h.components this).mass = 0 → syncToEntity h this = h) := by
  refine ⟨?_, by rw [syncToEntity_eq], by rw [syncToEntity_eq], ?_, ?_⟩
  · intro p owner hb ho hm
    refine ⟨⟨{ owner with
        localTransform :=
          { owner.localTransform with
            position := (bodyMotionState h p).origin.sub (h.components this).centerOffset } },
      ?_, rfl, rfl, rfl, rfl, rfl⟩, ?_⟩
    · rw [syncToEntity_eq]
      show Function.update h.components this _ this = _
      rw [Function.update_same, syncedComponent_sync h _ p owner hb ho hm]
    · intro b m t h1 h2 h3
      unfold bodyMotionState
      rw [h1]
      simp only [h2, h3]
      rfl
  · intro d hd
    rw [syncToEntity_eq]
    exact Function.update_noteq hd _ _
  · intro hn
    rw [syncToEntity_eq, syncedComponent_noop h _ hn, Function.update_eq_self]

/-- What one `update` keeps: the tracked list, whether a world exists, and of
each component the mass, the body pointer, the offset and whether it has an
owner; a component whose mass is not positive is kept entirely. -/
theorem update_preserve (ext : External) (h : Heap) (sys : PhysicsSystem) (dt : ℚ) (d : Nat) :
    ((PhysicsSystem.update ext h sys dt).1.components d).mass = (h.components d).mass
    ∧ ((PhysicsSystem.update ext h sys dt).1.components d).rigidBody
        = (h.components d).rigidBody
    ∧ ((PhysicsSystem.update ext h sys dt).1.components d).centerOffset
        = (h.components d).centerOffset
    ∧ (((PhysicsSystem.update ext h sys dt).1.components d).owner = none
        ↔ (h.components d).owner = none)
    ∧ (PhysicsSystem.update ext h sys dt).2.colliders = sys.colliders
    ∧ ((PhysicsSystem.update ext h sys dt).2.dynamicsWorld = none ↔ sys.dynamicsWorld = none)
    ∧ (¬ 0 < (h.components d).mass →
        (PhysicsSystem.update ext h sys dt).1.components d = h.components d) := by
  cases hw : sys.dynamicsWorld with
  | none =>
    have e : PhysicsSystem.update ext h sys dt = (h, sys) := by
      unfold PhysicsSystem.update
      simp only [hw]
    rw [e]
    exact ⟨rfl, rfl, rfl, Iff.rfl, rfl, by simp [hw], fun _ => rfl⟩
  | some w =>
    rw [update_some ext h sys dt w hw]
    obtain ⟨_, _, i3⟩ := syncLoop_spec sys.colliders (w.stepSimulation ext h dt 10 (1 / 60)).1
    have hcomp : (w.stepSimulation ext h dt 10 (1 / 60)).1.components = h.components := rfl
    dsimp only
    rw [i3 d, hcomp]
    by_cases hd : d ∈ sys.colliders ∧ 0 < (h.components d).mass
    · rw [if_pos hd]
      obtain ⟨f1, f2, f3, _, f5⟩ := syncedComponent_fields
        (w.stepSimulation ext h dt 10 (1 / 60)).1 (h.components d)
      exact ⟨f1, f2, f3, f5, rfl, by simp, fun hn => absurd hd.2 hn⟩
    · rw [if_neg hd]
      exact ⟨rfl, rfl, rfl, Iff.rfl, rfl, by simp, fun _ => rfl⟩

/-- After one `update` on an initialised registry, the owner of a tracked
collider of positive mass with a body sits at the origin of the body's motion
state minus the offset. -/
theorem update_dynamic (ext : External) (h : Heap) (sys : PhysicsSystem) (dt : ℚ)
    (w : btDiscreteDynamicsWorld) (c p : Nat) (owner : Entity)
    (hw : sys.dynamicsWorld = some w) (hc : c ∈ sys.colliders)
    (hb : (h.components c).rigidBody = some p) (ho : (h.components c).owner = some owner)
    (hm : 0 < (h.components c).mass) :
    ∃ o2 : Entity, ((PhysicsSystem.update ext h sys dt).1.components c).owner = some o2
      ∧ o2.localTransform.position
          = (bodyMotionState (PhysicsSystem.update ext h sys dt).1 p).origin.sub
              (h.components c).centerOffset
      ∧ o2.localTransform.rotation = owner.localTransform.rotation
      ∧ o2.localTransform.scale = owner.localTransform.scale := by
  rw [update_some ext h sys dt w hw]
  obtain ⟨i1, i2, i3⟩ := syncLoop_spec sys.colliders (w.stepSimulation ext h dt 10 (1 / 60)).1
  have hcomp : (w.stepSimulation ext h dt 10 (1 / 60)).1.components = h.components := rfl
  dsimp only
  rw [i3 c, hcomp, if_pos ⟨hc, hm⟩,
    syncedComponent_sync _ _ p owner hb ho (ne_of_gt hm),
    bodyMotionState_congr _ (w.stepSimulation ext h dt 10 (1 / 60)).1 p i1 i2]
  exact ⟨_, rfl, rfl, rfl, rfl⟩

theorem updates_cons (ext : External) (h : Heap) (sys : PhysicsSystem) (dt : ℚ)
    (rest : List ℚ) :
    updates ext h sys (dt :: rest)
      = updates ext (PhysicsSystem.update ext h sys dt).1
          (PhysicsSystem.update ext h sys dt).2 rest := by
  unfold updates
  rfl

theorem updates_concat (ext : External) (h : Heap) (sys : PhysicsSystem) (dt : ℚ)
    (init : List ℚ) :
    updates ext h sys (init ++ [dt])
      = PhysicsSystem.update ext (updates ext h sys init).1 (updates ext h sys init).2 dt := by
  unfold updates
  rw [List.foldl_append]
  rfl

/-- What any number of consecutive updates keeps, as `update_preserve`. -/
theorem updates_preserve (ext : External) (dts : List ℚ) (d : Nat) :
    ∀ (h : Heap) (sys : PhysicsSystem),
      ((updates ext h sys dts).1.components d).mass = (h.components d).mass
      ∧ ((updates ext h sys dts).1.components d).rigidBody = (h.components d).rigidBody
      ∧ ((updates ext h sys dts).1.components d).centerOffset = (h.components d).centerOffset
      ∧ (((updates ext h sys dts).1.components d).owner = none
          ↔ (h.components d).owner = none)
      ∧ (updates ext h sys dts).2.colliders = sys.colliders
      ∧ ((updates ext h sys dts).2.dynamicsWorld = none ↔ sys.dynamicsWorld = none)
      ∧ (¬ 0 < (h.components d).mass →
          (updates ext h sys dts).1.components d = h.components d) := by
  induction dts with
  | nil =>
    intro h sys
    exact ⟨rfl, rfl, rfl, Iff.rfl, rfl, Iff.rfl, fun _ => rfl⟩
  | cons dt rest ih =>
    intro h sys
    rw [updates_cons]
    obtain ⟨a1, a2, a3, a4, a5, a6, a7⟩ := update_preserve ext h sys dt d
    obtain ⟨b1, b2, b3, b4, b5, b6, b7⟩ := ih (PhysicsSystem.update ext h sys dt).1
      (PhysicsSystem.update ext h sys dt).2
    refine ⟨b1.trans a1, b2.trans a2, b3.trans a3, b4.trans a4, b5.trans a5, b6.trans a6, ?_⟩
    intro hn
    rw [b7 (by rw [a1]; exact hn), a7 hn]

/-- For the copy of the owner that each component holds: after any number of
consecutive updates of an initialised registry, at least one, the owner of every
tracked collider of positive mass that has a body and an owner sits at the
origin of the body's motion state minus `centerOffset`; after any number of
updates the component of a collider of mass 0, and so its owner's transform, is
exactly what it was. -/
theorem updates_sync (ext : External) (h : Heap) (sys : PhysicsSystem)
    (w : btDiscreteDynamicsWorld) (dts : List ℚ) (c p : Nat) (owner : Entity)
    (hw : sys.dynamicsWorld = some w) (hc : c ∈ sys.colliders)
    (hb : (h.components c).rigidBody = some p) (ho : (h.components c).owner = some owner) :
    (0 < (h.components c).mass → dts ≠ [] →
      ∃ o2 : Entity, ((updates ext h sys dts).1.components c).owner = some o2
        ∧ ((updates ext h sys dts).1.components c).rigidBody = some p
        ∧ o2.localTransform.position
            = (bodyMotionState (updates ext h sys dts).1 p).origin.sub
                (h.components c).centerOffset)
    ∧ ((h.components c).mass = 0 →
        (updates ext h sys dts).1.components c = h.components c
        ∧ ((updates ext h sys dts).1.components c).owner = some owner) := by
  refine ⟨?_, ?_⟩
  · intro hm hne
    rcases List.eq_nil_or_concat dts with hnil | ⟨init, dt, hcat⟩
    · exact absurd hnil hne
    · rw [hcat, List.concat_eq_append, updates_concat]
      obtain ⟨a1, a2, a3, a4, a5, a6, _⟩ := updates_preserve ext init c h sys
      have hw2 : (updates ext h sys init).2.dynamicsWorld ≠ none := by
        intro e
        rw [a6.mp e] at hw
        exact absurd hw (by simp)
      have ho2 : ((updates ext h sys init).1.components c).owner ≠ none := by
        intro e
        rw [a4.mp e] at ho
        exact absurd ho (by simp)
      obtain ⟨w1, hw1⟩ := Option.ne_none_iff_exists'.mp hw2
      obtain ⟨o1, ho1⟩ := Option.ne_none_iff_exists'.mp ho2
      obtain ⟨o2, r1, r2, _, _⟩ := update_dynamic ext (updates ext h sys init).1
        (updates ext h sys init).2 dt w1 c p o1 hw1 (by rw [a5]; exact hc)
        (by rw [a2]; exact hb) ho1 (by rw [a1]; exact hm)
      refine ⟨o2, r1, ?_, ?_⟩
      · rw [(update_preserve ext _ _ dt c).2.1, a2]
        exact hb
      · rw [r2, a3]
  · intro hm
    have hn : ¬ 0 < (h.components c).mass := by rw [hm]; exact lt_irrefl 0
    have e := (updates_preserve ext dts c h sys).2.2.2.2.2.2 hn
    exact ⟨e, by rw [e]; exact ho⟩

theorem sampleRegistered_world :
    sampleRegistered.2.dynamicsWorld
      = some { collisionObjects := [0, 1], gravity := ⟨0, -98 / 10, 0⟩ } := rfl

theorem sampleRegistered_mass : (sampleRegistered.1.components 0).mass = 70 := rfl

/-- The registered sample collider of mass 70 after two updates. -/
theorem updates_sync_witness :
    ∃ o2 : Entity,
      ((updates sampleExternal sampleRegistered.1 sampleRegistered.2
          [1 / 60, 1 / 60]).1.components 0).owner = some o2
      ∧ ((updates sampleExternal sampleRegistered.1 sampleRegistered.2
          [1 / 60, 1 / 60]).1.components 0).rigidBody = some 0
      ∧ o2.localTransform.position
          = (bodyMotionState (updates sampleExternal sampleRegistered.1 sampleRegistered.2
              [1 / 60, 1 / 60]).1 0).origin.sub (sampleRegistered.1.components 0).centerOffset :=
  (updates_sync sampleExternal sampleRegistered.1 sampleRegistered.2 _ [1 / 60, 1 / 60] 0 0
    sampleEntity sampleRegistered_world (by decide) rfl rfl).1
    (by rw [sampleRegistered_mass]; norm_num) (by simp)

/-- Witness of C14: `syncToEntity` on the registered sample collider of mass 70. -/
theorem syncToEntity_position_witness :
    ∃ o2 : Entity,
      (syncToEntity sampleRegistered.1 0).components 0
          = { sampleRegistered.1.components 0 with owner := some o2 }
      ∧ o2.localTransform.position
          = (bodyMotionState sampleRegistered.1 0).origin.sub
              (sampleRegistered.1.components 0).centerOffset
      ∧ o2.localTransform.rotation = sampleEntity.localTransform.rotation := by
  obtain ⟨o2, h1, h2, h3, _⟩ := ((syncToEntity_position sampleRegistered.1 0).1 0 sampleEntity
    rfl rfl (by rw [sampleRegistered_mass]; norm_num)).1
  exact ⟨o2, h1, h2, h3⟩

/-! ## From the entity to the body -/

theorem get?_set_self_of_get? {α : Type} (l : List α) (i : Nat) (a b : α)
    (h : l.get? i = some b) : (l.set i a).get? i = some a := by
  rw [List.get?_eq_getElem?] at h ⊢
  rw [List.getElem?_set_self', h]
  rfl

theorem modifyBody_of_get? (h : Heap) (p : Nat) (f : btRigidBody → btRigidBody)
    (b : btRigidBody) (hb : h.rigidBodies.get? p = some b) :
    h.modifyBody p f = { h with rigidBodies := h.rigidBodies.set p (f b) } := by
  unfold Heap.modifyBody
  rw [hb]

theorem modifyBody_get? (h : Heap) (p : Nat) (f : btRigidBody → btRigidBody)
    (b : btRigidBody) (hb : h.rigidBodies.get? p = some b) :
    (h.modifyBody p f).rigidBodies.get? p = some (f b)
    ∧ (h.modifyBody p f).motionStates = h.motionStates
    ∧ (h.modifyBody p f).components = h.components := by
  rw [modifyBody_of_get? h p f b hb]
  exact ⟨get?_set_self_of_get? _ _ _ _ hb, rfl, rfl⟩

theorem setMotionState_fields (h : Heap) (m : Option Nat) (trans : btTransform) :
    (h.setMotionState m trans).rigidBodies = h.rigidBodies
    ∧ (h.setMotionState m trans).components = h.components
    ∧ (∀ a, m = some a → a < h.motionStates.length →
        (h.setMotionState m trans).motionStates.get? a = some trans) := by
  cases m with
  | none => exact ⟨rfl, rfl, fun a ha => absurd ha (by simp)⟩
  | some a0 =>
    refine ⟨rfl, rfl, ?_⟩
    intro a ha hlt
    have e : a0 = a := Option.some.inj ha
    subst e
    show (h.motionStates.set a0 trans).get? a0 = some trans
    rw [List.get?_eq_getElem?, List.getElem?_set_self hlt]

/-- The branch `mass > 0` of `syncFromEntity`: world transform, motion state,
zero velocity, activation. -/
theorem syncFromEntity_dynamic (ext : External) (h : Heap) (this p : Nat) (owner : Entity)
    (b : btRigidBody) (hp : (h.components this).rigidBody = some p)
    (ho : (h.components this).owner = some owner) (hb : h.rigidBodies.get? p = some b)
    (hm : 0 < (h.components this).mass) :
    (syncFromEntity ext h this).rigidBodies.get? p
        = some { b with
            worldTransform := entityTransform ext (h.components this) owner
            linearVelocity := ⟨0, 0, 0⟩
            activationState := ext.activationStateOnActivate
              { b with
                worldTransform := entityTransform ext (h.components this) owner
                linearVelocity := ⟨0, 0, 0⟩ } }
    ∧ (∀ m, b.motionState = some m → m < h.motionStates.length →
        (syncFromEntity ext h this).motionStates.get? m
          = some (entityTransform ext (h.components this) owner))
    ∧ (syncFromEntity ext h this).components = h.components := by
  unfold syncFromEntity
  simp only [hp, ho]
  rw [if_pos hm]
  obtain ⟨a1, a2, a3⟩ := modifyBody_get? h p
    (fun b => { b with worldTransform := entityTransform ext (h.components this) owner }) b hb
  obtain ⟨s1, s2, s3⟩ := setMotionState_fields
    (h.modifyBody p fun b =>
      { b with worldTransform := entityTransform ext (h.components this) owner })
    ((h.rigidBodies.get? p).bind fun b => b.motionState)
    (entityTransform ext (h.components this) owner)
  rw [← s1] at a1
  obtain ⟨b1, b2, b3⟩ := modifyBody_get? _ p
    (fun b => { b with linearVelocity := (⟨0, 0, 0⟩ : Vec3) }) _ a1
  obtain ⟨c1, c2, c3⟩ := modifyBody_get? _ p
    (fun b => { b with activationState := ext.activationStateOnActivate b }) _ b1
  refine ⟨c1, ?_, ?_⟩
  · intro m hbm hlt
    rw [c2, b2]
    apply s3 m
    · rw [hb]
      exact hbm
    · rw [a2]
      exact hlt
  · rw [c3, b3, s2, a3]

/-- The other branch of `syncFromEntity`: world transform and the component's
motion state only. -/
theorem syncFromEntity_static (ext : External) (h : Heap) (this p : Nat) (owner : Entity)
    (b : btRigidBody) (hp : (h.components this).rigidBody = some p)
    (ho : (h.components this).owner = some owner) (hb : h.rigidBodies.get? p = some b)
    (hm : ¬ 0 < (h.components this).mass) :
    (syncFromEntity ext h this).rigidBodies.get? p
        = some { b with worldTransform := entityTransform ext (h.components this) owner }
    ∧ (∀ m, (h.components this).motionState = some m → m < h.motionStates.length →
        (syncFromEntity ext h this).motionStates.get? m
          = some (entityTransform ext (h.components this) owner))
    ∧ (syncFromEntity ext h this).components = h.components := by
  unfold syncFromEntity
  simp only [hp, ho]
  rw [if_neg hm]
  obtain ⟨a1, a2, a3⟩ := modifyBody_get? h p
    (fun b => { b with worldTransform := entityTransform ext (h.components this) owner }) b hb
  obtain ⟨s1, s2, s3⟩ := setMotionState_fields
    (h.modifyBody p fun b =>
      { b with worldTransform := entityTransform ext (h.components this) owner })
    (h.components this).motionState
    (entityTransform ext (h.components this) owner)
  refine ⟨?_, ?_, ?_⟩
  · rw [s1]
    exact a1
  · intro m hcm hlt
    apply s3 m hcm
    rw [a2]
    exact hlt
  · rw [s2, a3]

/-- C15, amended: for a collider with a body and an owner, `syncFromEntity`
writes the transform built from the owner (origin: translation of the world
matrix plus `centerOffset`; rotation: the one extracted from the matrix) as
the body's world transform and into the motion state. Only when `mass > 0`
does it also set the linear velocity to zero and activate the body; otherwise
velocity and activation state stay as they were. It writes to no component. -/
theorem syncFromEntity_transform (ext : External) (h : Heap) (this p : Nat) (owner : Entity)
    (b : btRigidBody) (hp : (h.components this).rigidBody = some p)
    (ho : (h.components this).owner = some owner) (hb : h.rigidBodies.get? p = some b) :
    (∃ b2 : btRigidBody, (syncFromEntity ext h this).rigidBodies.get? p = some b2
      ∧ b2.worldTransform
          = { origin := (ext.getLocalToWorldMatrix owner).c3.xyz.add
                (h.components this).centerOffset
              rotation := ext.quat_cast (ext.getLocalToWorldMatrix owner) }
      ∧ (0 < (h.components this).mass →
          b2.linearVelocity = ⟨0, 0, 0⟩
          ∧ b2.activationState = ext.activationStateOnActivate
              { b with
                worldTransform := entityTransform ext (h.components this) owner
                linearVelocity := ⟨0, 0, 0⟩ }
          ∧ ∀ m, b.motionState = some m → m < h.motionStates.length →
              (syncFromEntity ext h this).motionStates.get? m = some b2.worldTransform)
      ∧ (¬ 0 < (h.components this).mass →
          b2.linearVelocity = b.linearVelocity
          ∧ b2.activationState = b.activationState
          ∧ ∀ m, (h.components this).motionState = some m → m < h.motionStates.length →
              (syncFromEntity ext h this).motionStates.get? m = some b2.worldTransform))
    ∧ (syncFromEntity ext h this).components = h.components := by
  by_cases hm : 0 < (h.components this).mass
  · obtain ⟨d1, d2, d3⟩ := syncFromEntity_dynamic ext h this p owner b hp ho hb hm
    exact ⟨⟨_, d1, rfl, fun _ => ⟨rfl, rfl, d2⟩, fun hn => absurd hm hn⟩, d3⟩
  · obtain ⟨d1, d2, d3⟩ := syncFromEntity_static ext h this p owner b hp ho hb hm
    exact ⟨⟨_, d1, rfl, fun hn => absurd hn hm, fun _ => ⟨rfl, rfl, d2⟩⟩, d3⟩

/-- Witness of C15: `syncFromEntity` on the registered sample collider of mass 70. -/
theorem syncFromEntity_transform_witness :
    ∃ b2 : btRigidBody,
      (syncFromEntity sampleExternal sampleRegistered.1 0).rigidBodies.get? 0 = some b2
      ∧ b2.linearVelocity = ⟨0, 0, 0⟩ := by
  have hb : ∃ b, sampleRegistered.1.rigidBodies.get? 0 = some b := ⟨_, rfl⟩
  obtain ⟨b, hb⟩ := hb
  obtain ⟨⟨b2, h1, _, h3, _⟩, _⟩ := syncFromEntity_transform sampleExternal sampleRegistered.1
    0 0 sampleEntity b rfl rfl hb
  exact ⟨b2, h1, (h3 (by rw [sampleRegistered_mass]; norm_num)).1⟩

/-- Counterexample to C15 as stated: the static sample trigger, registered,
whose body has the velocity `(1, 0, 0)`; after `syncFromEntity` the velocity
is still `(1, 0, 0)` and the activation state is what it was. -/
theorem syncFromEntity_static_keeps_velocity :
    (sampleMovingHeap.components 1).rigidBody = some 0
    ∧ (sampleMovingHeap.components 1).owner = some sampleEntity
    ∧ (sampleMovingHeap.components 1).mass = 0
    ∧ ((syncFromEntity sampleExternal sampleMovingHeap 1).rigidBodies.get? 0).map
        (fun b => b.linearVelocity) = some ⟨1, 0, 0⟩
    ∧ ((syncFromEntity sampleExternal sampleMovingHeap 1).rigidBodies.get? 0).map
        (fun b => b.activationState)
      = (sampleMovingHeap.rigidBodies.get? 0).map (fun b => b.activationState) := by
  have hb : ∃ b, sampleMovingHeap.rigidBodies.get? 0 = some b
      ∧ b.linearVelocity = ⟨1, 0, 0⟩ := ⟨_, rfl, rfl⟩
  obtain ⟨b, hb, hv⟩ := hb
  have hmass : (sampleMovingHeap.components 1).mass = 0 := rfl
  have hm : ¬ 0 < (sampleMovingHeap.components 1).mass := by
    rw [hmass]
    exact lt_irrefl 0
  obtain ⟨d1, _, _⟩ := syncFromEntity_static sampleExternal sampleMovingHeap 1 0 sampleEntity
    b rfl rfl hb hm
  refine ⟨rfl, rfl, hmass, ?_, ?_⟩
  · rw [d1]
    exact congrArg some hv
  · rw [d1, hb]
    rfl

/-! ## Ray casting -/

/-- C16: after `initialize` of a collider that has an owner the tag of the new
body is that collider. `raycast` returns false, leaving its outputs alone,
when the world is not initialised or the query reports no hit; when the query
reports a hit on the object `o` it returns true with the hit point and normal
of the query and, if a collider out-parameter is supplied, the collider in the
tag of `o`. -/
theorem raycast_result (ext : External) (h : Heap) (sys : PhysicsSystem)
    (start finish hitPoint hitNormal : Vec3) (hitCollider : Option (Option Nat)) :
    (∀ this world owner shape, (h.components this).owner = some owner →
        createShape (h.components this) (ext.getLocalToWorldMatrix owner) = some shape →
        bodyTag (initializeCollider ext h this world).1 h.rigidBodies.length = some this
        ∧ ((initializeCollider ext h this world).1.components this).rigidBody
            = some h.rigidBodies.length)
    ∧ (sys.dynamicsWorld = none →
        PhysicsSystem.raycast ext h sys start finish hitPoint hitNormal hitCollider
          = (false, hitPoint, hitNormal, hitCollider))
    ∧ (∀ w, sys.dynamicsWorld = some w →
        (ext.rayTest w h.rigidBodies start finish).hasHit = false →
        PhysicsSystem.raycast ext h sys start finish hitPoint hitNormal hitCollider
          = (false, hitPoint, hitNormal, hitCollider))
    ∧ (∀ w o, sys.dynamicsWorld = some w →
        (ext.rayTest w h.rigidBodies start finish).hasHit = true →
        (ext.rayTest w h.rigidBodies start finish).m_collisionObject = some o →
        PhysicsSystem.raycast ext h sys start finish hitPoint hitNormal hitCollider
          = (true, (ext.rayTest w h.rigidBodies start finish).m_hitPointWorld,
             (ext.rayTest w h.rigidBodies start finish).m_hitNormalWorld,
             hitCollider.map fun _ => bodyTag h o)) := by
  refine ⟨?_, ?_, ?_, ?_⟩
  · intro this world owner shape ho hs
    refine ⟨?_, ?_⟩
    · rw [bodyTag_append_new h _ _
        (initializeCollider_rigidBodies ext h this world owner shape ho hs)]
    · rw [initializeCollider_component ext h this world owner shape ho hs]
  · intro hw
    unfold PhysicsSystem.raycast
    simp only [hw]
  · intro w hw hhit
    unfold PhysicsSystem.raycast
    simp only [hw, hhit]
    rfl
  · intro w o hw hhit hobj
    unfold PhysicsSystem.raycast
    simp only [hw, hhit, hobj]
    cases hitCollider <;> rfl

/-- Witness of C16: a ray cast in the registered sample system hits the body
at address 0, whose tag is the collider at address 0. -/
theorem raycast_result_witness :
    PhysicsSystem.raycast sampleExternal sampleRegistered.1 sampleRegistered.2
        ⟨0, 5, 0⟩ ⟨0, -5, 0⟩ ⟨0, 0, 0⟩ ⟨0, 0, 0⟩ (some none)
      = (true, ⟨0, 5, 0⟩, ⟨0, 1, 0⟩, some (some 0)) :=
  (raycast_result sampleExternal sampleRegistered.1 sampleRegistered.2
    ⟨0, 5, 0⟩ ⟨0, -5, 0⟩ ⟨0, 0, 0⟩ ⟨0, 0, 0⟩ (some none)).2.2.2 _ 0
    sampleRegistered_world rfl rfl

/-! ## Extraction of the render commands -/

theorem extractStep_camera (ext : External) (st st2 : ExtractState) (entity : Entity)
    (h : extractStep ext st entity = some st2) :
    st2.camera = match st.camera with
      | some c => some c
      | none => entity.camera.map fun c => { component := c, owner := entity } := by
  unfold extractStep at h
  cases hmr : entity.meshRenderer with
  | none =>
    simp only [hmr] at h
    rw [← Option.some.inj h]
  | some mr =>
    simp only [hmr] at h
    cases hmat : mr.material with
    | none => simp [hmat] at h
    | some m =>
      simp only [hmat] at h
      split_ifs at h
      · rw [← Option.some.inj h]
      · rw [← Option.some.inj h]

theorem extractLoop_camera (ext : External) (entities : List Entity) :
    ∀ st st2 : ExtractState, extractLoop ext st entities = some st2 →
      st2.camera = match st.camera with
        | some c => some c
        | none => firstCamera entities := by
  induction entities with
  | nil =>
    intro st st2 h
    unfold extractLoop at h
    rw [← Option.some.inj h]
    cases st.camera <;> rfl
  | cons e rest ih =>
    intro st st2 h
    unfold extractLoop at h
    cases hstep : extractStep ext st e with
    | none => simp [hstep] at h
    | some st1 =>
      simp only [hstep] at h
      rw [ih st1 st2 h, extractStep_camera ext st st1 e hstep]
      cases hc : st.camera with
      | some c => rfl
      | none =>
        cases he : e.camera with
        | none => simp [firstCamera, he]
        | some c => simp [firstCamera, he]

theorem firstCamera_eq_none (entities : List Entity) :
    firstCamera entities = none ↔ ∀ e, e ∈ entities → e.camera = none := by
  induction entities with
  | nil => simp [firstCamera]
  | cons e rest ih =>
    unfold firstCamera
    cases he : e.camera with
    | some c => simp [he]
    | none => simp [he, ih]

theorem firstCamera_append (entities later : List Entity) (c : CameraRef)
    (h : firstCamera entities = some c) : firstCamera (entities ++ later) = some c := by
  induction entities with
  | nil => simp [firstCamera] at h
  | cons e rest ih =>
    rw [List.cons_append]
    unfold firstCamera at h ⊢
    cases he : e.camera with
    | some c2 =>
      rw [he] at h
      exact h
    | none =>
      rw [he] at h
      exact ih h

theorem firstCamera_split (entities : List Entity) (c : CameraRef)
    (h : firstCamera entities = some c) :
    ∃ before after, entities = before ++ c.owner :: after
      ∧ (∀ e, e ∈ before → e.camera = none) ∧ c.owner.camera = some c.component := by
  induction entities with
  | nil => simp [firstCamera] at h
  | cons e rest ih =>
    unfold firstCamera at h
    cases he : e.camera with
    | some c2 =>
      rw [he] at h
      have hc : c = { component := c2, owner := e } := (Option.some.inj h).symm
      refine ⟨[], rest, ?_, ?_, ?_⟩
      · rw [hc]; rfl
      · intro x hx; exact absurd hx (List.not_mem_nil x)
      · rw [hc]; exact he
    | none =>
      rw [he] at h
      obtain ⟨before, after, h1, h2, h3⟩ := ih h
      refine ⟨e :: before, after, ?_, ?_, h3⟩
      · rw [h1]; rfl
      · intro x hx
        rcases List.mem_cons.mp hx with hx1 | hx1
        · rw [hx1]; exact he
        · exact h2 x hx1

theorem extractStep_lists (ext : External) (st : ExtractState) (entity : Entity)
    (hmat : ∀ mr, entity.meshRenderer = some mr → mr.material ≠ none) :
    ∃ st2, extractStep ext st entity = some st2
      ∧ st2.renderer.opaqueCommands = st.renderer.opaqueCommands
          ++ ((commandOf ext entity).toList.filter fun c => !c.isTransparent)
      ∧ st2.renderer.transparentCommands = st.renderer.transparentCommands
          ++ ((commandOf ext entity).toList.filter fun c => c.isTransparent)
      ∧ st2.renderer.windowSize = st.renderer.windowSize
      ∧ st2.renderer.skySphere = st.renderer.skySphere
      ∧ st2.renderer.skyMaterial = st.renderer.skyMaterial
      ∧ st2.renderer.postprocessFrameBuffer = st.renderer.postprocessFrameBuffer
      ∧ st2.renderer.postProcessVertexArray = st.renderer.postProcessVertexArray
      ∧ st2.renderer.postprocessMaterial = st.renderer.postprocessMaterial := by
  unfold extractStep commandOf
  cases hmr : entity.meshRenderer with
  | none => exact ⟨_, rfl, by simp, by simp, rfl, rfl, rfl, rfl, rfl, rfl⟩
  | some mr =>
    cases hm : mr.material with
    | none => exact absurd hm (hmat mr hmr)
    | some m =>
      have ht : (buildCommand ext entity mr).isTransparent = m.transparent := by
        unfold RenderCommand.isTransparent buildCommand
        simp only [hm]
      by_cases hflag : m.transparent = true
      · simp only [hm, if_pos hflag]
        refine ⟨_, rfl, ?_, ?_, rfl, rfl, rfl, rfl, rfl, rfl⟩
        · simp [ht, hflag]
        · simp [ht, hflag]
      · simp only [hm, if_neg hflag]
        refine ⟨_, rfl, ?_, ?_, rfl, rfl, rfl, rfl, rfl, rfl⟩
        · simp [ht, hflag]
        · simp [ht, hflag]

theorem filterMap_cons_toList {α β : Type} (f : α → Option β) (a : α) (l : List α) :
    (a :: l).filterMap f = (f a).toList ++ l.filterMap f := by
  rw [List.filterMap_cons]
  cases f a <;> rfl

theorem extractLoop_lists (ext : External) (entities : List Entity) :
    ∀ st : ExtractState,
      (∀ e, e ∈ entities → ∀ mr, e.meshRenderer = some mr → mr.material ≠ none) →
      ∃ st2, extractLoop ext st entities = some st2
        ∧ st2.renderer.opaqueCommands = st.renderer.opaqueCommands
            ++ ((entities.filterMap (commandOf ext)).filter fun c => !c.isTransparent)
        ∧ st2.renderer.transparentCommands = st.renderer.transparentCommands
            ++ ((entities.filterMap (commandOf ext)).filter fun c => c.isTransparent)
        ∧ st2.renderer.windowSize = st.renderer.windowSize
        ∧ st2.renderer.skySphere = st.renderer.skySphere
        ∧ st2.renderer.skyMaterial = st.renderer.skyMaterial
        ∧ st2.renderer.postprocessFrameBuffer = st.renderer.postprocessFrameBuffer
        ∧ st2.renderer.postProcessVertexArray = st.renderer.postProcessVertexArray
        ∧ st2.renderer.postprocessMaterial = st.renderer.postprocessMaterial := by
  induction entities with
  | nil =>
    intro st _
    exact ⟨st, rfl, by simp, by simp, rfl, rfl, rfl, rfl, rfl, rfl⟩
  | cons e rest ih =>
    intro st hmat
    obtain ⟨st1, s0, s1, s2, s3, s4, s5, s6, s7, s8⟩ := extractStep_lists ext st e
      (hmat e (List.mem_cons_self e rest))
    obtain ⟨st2, t0, t1, t2, t3, t4, t5, t6, t7, t8⟩ := ih st1
      (fun x hx => hmat x (List.mem_cons_of_mem e hx))
    refine ⟨st2, ?_, ?_, ?_, t3.trans s3, t4.trans s4, t5.trans s5, t6.trans s6,
      t7.trans s7, t8.trans s8⟩
    · unfold extractLoop
      simp only [s0]
      exact t0
    · rw [t1, s1, filterMap_cons_toList, List.filter_append, List.append_assoc]
    · rw [t2, s2, filterMap_cons_toList, List.filter_append, List.append_assoc]

/-- C17: when the first loop of `render` completes, the camera it has selected
is the camera of the first entity, in iteration order, that has one: every
entity before it has none, and entities appended after it do not change the
selection; no camera is selected exactly when no entity has one. The loop
completes whenever every mesh renderer has a material. Without a camera
`render` makes no call; with one it goes on with that camera. -/
theorem extract_camera (ext : External) (assets : String → Option Material)
    (renderer : ForwardRenderer) (entities : List Entity) :
    (∀ st, extract ext renderer entities = some st →
        st.camera = firstCamera entities
        ∧ (st.camera = none ↔ ∀ e, e ∈ entities → e.camera = none)
        ∧ (st.camera = none → render ext assets renderer entities = some (st.renderer, []))
        ∧ (∀ c, st.camera = some c →
            render ext assets renderer entities = renderWithCamera ext assets st.renderer c))
    ∧ (∀ c, firstCamera entities = some c →
        (∃ before after, entities = before ++ c.owner :: after
          ∧ (∀ e, e ∈ before → e.camera = none) ∧ c.owner.camera = some c.component)
        ∧ ∀ later, firstCamera (entities ++ later) = some c)
    ∧ ((∀ e, e ∈ entities → ∀ mr, e.meshRenderer = some mr → mr.material ≠ none) →
        ∃ st, extract ext renderer entities = some st) := by
  refine ⟨?_, ?_, ?_⟩
  · intro st hst
    have hcam : st.camera = firstCamera entities := extractLoop_camera ext entities _ st hst
    refine ⟨hcam, ?_, ?_, ?_⟩
    · rw [hcam]
      exact firstCamera_eq_none entities
    · intro hnone
      unfold render
      simp only [hst, hnone]
    · intro c hc
      unfold render
      simp only [hst, hc]
  · intro c hc
    exact ⟨firstCamera_split entities c hc, fun later => firstCamera_append entities later c hc⟩
  · intro hmat
    obtain ⟨st, h0, _⟩ := extractLoop_lists ext entities
      { camera := none
        renderer := { renderer with opaqueCommands := [], transparentCommands := [] } } hmat
    exact ⟨st, h0⟩

/-- C18: when every mesh renderer has a material, step 1 of `render`
completes and, whatever the two lists held before, leaves in the opaque and
in the transparent list the commands of the entities that have a mesh
renderer, in iteration order, one for each such entity: in the transparent
list those whose material has the `transparent` flag set, in the opaque list
the others. The center of each command is its world transform applied to
`(0, 0, 0, 1)`. -/
theorem extract_commands (ext : External) (renderer : ForwardRenderer)
    (entities : List Entity)
    (hmat : ∀ e, e ∈ entities → ∀ mr, e.meshRenderer = some mr → mr.material ≠ none) :
    ∃ st, extract ext renderer entities = some st
      ∧ st.renderer.opaqueCommands
          = (entities.filterMap (commandOf ext)).filter (fun c => !c.isTransparent)
      ∧ st.renderer.transparentCommands
          = (entities.filterMap (commandOf ext)).filter (fun c => c.isTransparent)
      ∧ st.renderer.opaqueCommands.length + st.renderer.transparentCommands.length
          = (entities.filter fun e => e.meshRenderer.isSome).length
      ∧ (∀ c, c ∈ st.renderer.transparentCommands → c.isTransparent = true)
      ∧ (∀ c, c ∈ st.renderer.opaqueCommands → c.isTransparent = false)
      ∧ (∀ c, c ∈ st.renderer.opaqueCommands ++ st.renderer.transparentCommands →
          c.center = (c.localToWorld.mulVec ⟨0, 0, 0, 1⟩).xyz) := by
  obtain ⟨st, h0, h1, h2, _⟩ := extractLoop_lists ext entities
    { camera := none
      renderer := { renderer with opaqueCommands := [], transparentCommands := [] } } hmat
  have e1 : st.renderer.opaqueCommands
      = (entities.filterMap (commandOf ext)).filter fun c => !c.isTransparent := by
    rw [h1]; rfl
  have e2 : st.renderer.transparentCommands
      = (entities.filterMap (commandOf ext)).filter fun c => c.isTransparent := by
    rw [h2]; rfl
  have hcenter : ∀ c, c ∈ entities.filterMap (commandOf ext) →
      c.center = (c.localToWorld.mulVec ⟨0, 0, 0, 1⟩).xyz := by
    intro c hc
    obtain ⟨e, _, he⟩ := List.mem_filterMap.mp hc
    unfold commandOf at he
    cases hmr : e.meshRenderer with
    | none => rw [hmr] at he; exact absurd he (by simp)
    | some mr =>
      rw [hmr] at he
      rw [← Option.some.inj he]
      rfl
  have hlen : ∀ l : List Entity, (l.filterMap (commandOf ext)).length
      = (l.filter fun e => e.meshRenderer.isSome).length := by
    intro l
    induction l with
    | nil => rfl
    | cons e rest ih =>
      rw [filterMap_cons_toList, List.length_append, ih, List.filter_cons]
      unfold commandOf
      cases e.meshRenderer with
      | none => simp
      | some mr => simp; omega
  refine ⟨st, h0, e1, e2, ?_, ?_, ?_, ?_⟩
  · rw [e1, e2, ← hlen entities]
    have hpart : ∀ l : List RenderCommand,
        (l.filter fun c => !c.isTransparent).length + (l.filter fun c => c.isTransparent).length
          = l.length := by
      intro l
      induction l with
      | nil => rfl
      | cons c rest ih =>
        rw [List.filter_cons, List.filter_cons]
        cases c.isTransparent
        · simp; omega
        · simp; omega
    exact hpart _
  · intro c hc
    rw [e2] at hc
    exact (List.mem_filter.mp hc).2
  · intro c hc
    rw [e1] at hc
    have := (List.mem_filter.mp hc).2
    simpa using this
  · intro c hc
    rw [e1, e2] at hc
    rcases List.mem_append.mp hc with h | h
    · exact hcenter c (List.mem_filter.mp h).1
    · exact hcenter c (List.mem_filter.mp h).1

/-! ## Sorting the transparent commands -/

theorem sortInsert_perm {α : Type} (comp : α → α → Bool) (x : α) (l : List α) :
    (sortInsert comp x l).Perm (x :: l) := by
  induction l with
  | nil => exact List.Perm.refl _
  | cons y ys ih =>
    unfold sortInsert
    split_ifs
    · exact List.Perm.refl _
    · exact (List.Perm.cons y ih).trans (List.Perm.swap x y ys)

/-- The sorting model returns a permutation of its input. -/
theorem stdSort_perm {α : Type} (comp : α → α → Bool) (l : List α) :
    (stdSort comp l).Perm l := by
  induction l with
  | nil => exact List.Perm.refl _
  | cons x xs ih =>
    unfold stdSort
    exact (sortInsert_perm comp x (stdSort comp xs)).trans (List.Perm.cons x ih)

theorem sortInsert_pairwise {α : Type} (comp : α → α → Bool)
    (hasym : ∀ a b, comp a b = true → comp b a = false)
    (htrans : ∀ a b c, comp b a = false → comp c b = false → comp c a = false)
    (x : α) (l : List α) (hl : l.Pairwise fun a b => comp b a = false) :
    (sortInsert comp x l).Pairwise fun a b => comp b a = false := by
  induction l with
  | nil => exact List.pairwise_singleton _ x
  | cons y ys ih =>
    have hy := List.pairwise_cons.mp hl
    unfold sortInsert
    by_cases hc : comp x y = true
    · rw [if_pos hc]
      refine List.pairwise_cons.mpr ⟨?_, hl⟩
      intro z hz
      rcases List.mem_cons.mp hz with hz1 | hz1
      · rw [hz1]
        exact hasym x y hc
      · exact htrans x y z (hasym x y hc) (hy.1 z hz1)
    · rw [if_neg hc]
      refine List.pairwise_cons.mpr ⟨?_, ih hy.2⟩
      intro z hz
      have hz2 : z ∈ x :: ys := (sortInsert_perm comp x ys).subset hz
      rcases List.mem_cons.mp hz2 with hz1 | hz1
      · rw [hz1]
        simpa using hc
      · exact hy.1 z hz1

/-- The sorting model returns a list in which no element is put by the
comparator before an element that precedes it, for a comparator that is
asymmetric and whose negation is transitive. -/
theorem stdSort_pairwise {α : Type} (comp : α → α → Bool)
    (hasym : ∀ a b, comp a b = true → comp b a = false)
    (htrans : ∀ a b c, comp b a = false → comp c b = false → comp c a = false)
    (l : List α) : (stdSort comp l).Pairwise fun a b => comp b a = false := by
  induction l with
  | nil => exact List.Pairwise.nil
  | cons x xs ih =>
    unfold stdSort
    exact sortInsert_pairwise comp hasym htrans x _ ih

theorem fartherFirst_false (cameraForward : Vec3) (a b : RenderCommand) :
    fartherFirst cameraForward b a = false
      ↔ cameraForward.dot b.center ≤ cameraForward.dot a.center := by
  unfold fartherFirst
  simp

/-- The transparent commands after the sort: each command is at least as far
along `cameraForward` as every command after it. -/
theorem stdSort_fartherFirst (cameraForward : Vec3) (l : List RenderCommand) :
    (stdSort (fartherFirst cameraForward) l).Pairwise
      fun a b => cameraForward.dot b.center ≤ cameraForward.dot a.center := by
  have hp := stdSort_pairwise (fartherFirst cameraForward)
    (by
      intro a b hab
      unfold fartherFirst at hab ⊢
      have h1 : cameraForward.dot b.center < cameraForward.dot a.center := by simpa using hab
      simpa using le_of_lt h1)
    (by
      intro a b c h1 h2
      rw [fartherFirst_false] at h1 h2 ⊢
      exact le_trans h2 h1)
    l
  exact hp.imp fun hab => (fartherFirst_false cameraForward _ _).mp hab

/-! ## The draw passes -/

theorem drawSubmesh_draws (assets : String → Option Material) (VP : Mat4)
    (cmd : RenderCommand) (material : Material) (hm : cmd.material = some material)
    (subs : List Submesh) :
    ((subs.map (drawSubmesh assets VP cmd)).flatten).filter GLCall.isDraw
      = subs.map fun sub => GLCall.drawElements sub.count (sub.offset * 4) := by
  induction subs with
  | nil => rfl
  | cons sub rest ih =>
    rw [List.map_cons, List.flatten_cons, List.filter_append, ih, List.map_cons]
    have h1 : (drawSubmesh assets VP cmd sub).filter GLCall.isDraw
        = [GLCall.drawElements sub.count (sub.offset * 4)] := by
      unfold drawSubmesh
      rw [hm]
      cases assets sub.materialName <;> rfl
    rw [h1]
    rfl

/-- A command with a material and a mesh is drawn, and the draw calls among
its calls are those of `commandDraws`. -/
theorem drawCommand_draws (assets : String → Option Material) (VP : Mat4)
    (cmd : RenderCommand) (hm : cmd.material ≠ none) (hmesh : cmd.mesh ≠ none) :
    ∃ calls, drawCommand assets VP cmd = some calls
      ∧ calls.filter GLCall.isDraw = commandDraws cmd := by
  obtain ⟨material, hmat⟩ := Option.ne_none_iff_exists'.mp hm
  obtain ⟨mesh, hme⟩ := Option.ne_none_iff_exists'.mp hmesh
  unfold drawCommand commandDraws
  simp only [hmat, hme]
  by_cases hs : mesh.submeshes ≠ []
  · rw [if_pos hs, if_pos hs]
    refine ⟨_, rfl, ?_⟩
    rw [List.filter_append, List.filter_append,
      drawSubmesh_draws assets VP cmd material hmat mesh.submeshes]
    simp [GLCall.isDraw]
  · rw [if_neg hs, if_neg hs]
    exact ⟨_, rfl, rfl⟩

theorem drawCommands_draws (assets : String → Option Material) (VP : Mat4)
    (cmds : List RenderCommand)
    (hall : ∀ c, c ∈ cmds → c.material ≠ none ∧ c.mesh ≠ none) :
    ∃ calls, drawCommands assets VP cmds = some calls
      ∧ calls.filter GLCall.isDraw = (cmds.map commandDraws).flatten := by
  induction cmds with
  | nil => exact ⟨[], rfl, rfl⟩
  | cons c rest ih =>
    obtain ⟨calls, h1, h2⟩ := drawCommand_draws assets VP c
      (hall c (List.mem_cons_self c rest)).1 (hall c (List.mem_cons_self c rest)).2
    obtain ⟨more, h3, h4⟩ := ih (fun x hx => hall x (List.mem_cons_of_mem c hx))
    refine ⟨calls ++ more, ?_, ?_⟩
    · unfold drawCommands
      simp only [h1, h3]
    · rw [List.filter_append, h2, h4, List.map_cons, List.flatten_cons]

theorem setupCalls_draws (renderer : ForwardRenderer) :
    (setupCalls renderer).filter GLCall.isDraw = [] := by
  unfold setupCalls
  cases renderer.postprocessMaterial <;> rfl

theorem postprocessCalls_draws (renderer : ForwardRenderer) :
    (postprocessCalls renderer).filter GLCall.isDraw
      = match renderer.postprocessMaterial with
        | some _ => [GLCall.drawArrays 0 3]
        | none => [] := by
  unfold postprocessCalls
  cases renderer.postprocessMaterial <;> rfl

theorem skyCalls_draws (renderer : ForwardRenderer) (VP cameraWorld : Mat4)
    (hsky : SkyComplete renderer) :
    ∃ calls, skyCalls renderer VP cameraWorld = some calls
      ∧ calls.filter GLCall.isDraw
          = match renderer.skyMaterial, renderer.skySphere with
            | some _, some sphere => [GLCall.drawElements sphere.elementCount 0]
            | _, _ => [] := by
  unfold skyCalls
  cases hm : renderer.skyMaterial with
  | none => exact ⟨[], rfl, rfl⟩
  | some m =>
    cases hs : renderer.skySphere with
    | none => exact absurd hs (hsky (by rw [hm]; simp))
    | some sphere => exact ⟨_, rfl, rfl⟩

/-- Under the two completeness conditions and with a camera among the
entities, `render` returns: its result is the renderer with the extracted
opaque commands and the sorted transparent commands, and a sequence of calls
made of the set-up, the opaque pass, the sky pass, the transparent pass
between the blend calls, and the post-processing calls. -/
theorem render_passes (ext : External) (assets : String → Option Material)
    (renderer : ForwardRenderer) (entities : List Entity) (camera : CameraRef)
    (hdraw : Drawable entities) (hsky : SkyComplete renderer)
    (hcam : firstCamera entities = some camera) :
    ∃ st opaquePass skyPass transparentPass,
      extract ext renderer entities = some st
      ∧ st.camera = some camera
      ∧ render ext assets renderer entities
          = some ({ st.renderer with
                    transparentCommands := stdSort (fartherFirst (cameraForward ext camera))
                      st.renderer.transparentCommands },
                  setupCalls st.renderer ++ opaquePass ++ skyPass
                    ++ [GLCall.enableBlend, GLCall.blendFuncSrcAlpha, GLCall.depthMask false]
                    ++ transparentPass ++ [GLCall.depthMask true, GLCall.disableBlend]
                    ++ postprocessCalls st.renderer)
      ∧ opaquePass.filter GLCall.isDraw
          = (st.renderer.opaqueCommands.map commandDraws).flatten
      ∧ skyPass.filter GLCall.isDraw
          = (match st.renderer.skyMaterial, st.renderer.skySphere with
             | some _, some sphere => [GLCall.drawElements sphere.elementCount 0]
             | _, _ => [])
      ∧ transparentPass.filter GLCall.isDraw
          = ((stdSort (fartherFirst (cameraForward ext camera))
              st.renderer.transparentCommands).map commandDraws).flatten := by
  have hmat : ∀ e, e ∈ entities → ∀ mr, e.meshRenderer = some mr → mr.material ≠ none :=
    fun e he mr hmr => (hdraw e he mr hmr).1
  obtain ⟨st, h0, h1, h2, _, h4, h5, _⟩ := extractLoop_lists ext entities
    { camera := none
      renderer := { renderer with opaqueCommands := [], transparentCommands := [] } } hmat
  have hstcam : st.camera = some camera := by
    rw [extractLoop_camera ext entities _ st h0]
    exact hcam
  have hcmd : ∀ c, c ∈ entities.filterMap (commandOf ext) →
      c.material ≠ none ∧ c.mesh ≠ none := by
    intro c hc
    obtain ⟨e, he, hce⟩ := List.mem_filterMap.mp hc
    unfold commandOf at hce
    cases hmr : e.meshRenderer with
    | none => rw [hmr] at hce; exact absurd hce (by simp)
    | some mr =>
      rw [hmr] at hce
      rw [← Option.some.inj hce]
      exact hdraw e he mr hmr
  have hopaque : ∀ c, c ∈ st.renderer.opaqueCommands → c.material ≠ none ∧ c.mesh ≠ none := by
    intro c hc
    rw [h1] at hc
    have hc3 : c ∈ (entities.filterMap (commandOf ext)).filter (fun c => !c.isTransparent) := hc
    exact hcmd c (List.mem_filter.mp hc3).1
  have htransparent : ∀ c, c ∈ stdSort (fartherFirst (cameraForward ext camera))
      st.renderer.transparentCommands → c.material ≠ none ∧ c.mesh ≠ none := by
    intro c hc
    have hc2 := (stdSort_perm _ _).subset hc
    rw [h2] at hc2
    have hc3 : c ∈ (entities.filterMap (commandOf ext)).filter (fun c => c.isTransparent) := hc2
    exact hcmd c (List.mem_filter.mp hc3).1
  have hsky2 : SkyComplete st.renderer := by
    unfold SkyComplete
    rw [h4, h5]
    exact hsky
  obtain ⟨opaquePass, o1, o2⟩ := drawCommands_draws assets
    ((getProjectionMatrix ext camera st.renderer.windowSize).mul (getViewMatrix ext camera))
    st.renderer.opaqueCommands hopaque
  obtain ⟨skyPass, s1, s2⟩ := skyCalls_draws st.renderer
    ((getProjectionMatrix ext camera st.renderer.windowSize).mul (getViewMatrix ext camera))
    (ext.getLocalToWorldMatrix camera.owner) hsky2
  obtain ⟨transparentPass, t1, t2⟩ := drawCommands_draws assets
    ((getProjectionMatrix ext camera st.renderer.windowSize).mul (getViewMatrix ext camera))
    _ htransparent
  refine ⟨st, opaquePass, skyPass, transparentPass, h0, hstcam, ?_, o2, s2, t2⟩
  unfold render
  have h0x : extract ext renderer entities = some st := h0
  simp only [h0x, hstcam]
  unfold renderWithCamera
  simp only [o1, s1, t1]

theorem drawable_of_all (entities : List Entity)
    (h : (entities.all fun e =>
      match e.meshRenderer with
      | some mr => mr.material.isSome && mr.mesh.isSome
      | none => true) = true) : Drawable entities := by
  intro e he mr hmr
  have h1 := List.all_eq_true.mp h e he
  rw [hmr] at h1
  have h2 : mr.material.isSome = true ∧ mr.mesh.isSome = true := by simpa using h1
  exact ⟨Option.isSome_iff_ne_none.mp h2.1, Option.isSome_iff_ne_none.mp h2.2⟩

theorem sampleScene_drawable : Drawable sampleScene :=
  drawable_of_all sampleScene (by decide)

theorem sampleRenderer_sky : SkyComplete sampleRenderer := by
  intro _
  exact Option.isSome_iff_ne_none.mp rfl

theorem sampleScene_camera :
    firstCamera sampleScene
      = some { component := { cameraType := CameraType.PERSPECTIVE, near := 1 / 100, far := 100
                              fovY := 1, orthoHeight := 1 }
               owner := sampleCameraEntity "camera" ⟨0, 0, 5⟩ (1 / 100) } := rfl

/-- Witness of C17: in the sample scene the camera selected is the one of the
second entity, not the one of the fifth. -/
theorem extract_camera_witness :
    ∃ st, extract sampleExternal sampleRenderer sampleScene = some st
      ∧ st.camera = firstCamera sampleScene := by
  have hall := extract_camera sampleExternal sampleAssets sampleRenderer sampleScene
  obtain ⟨st, hst⟩ := hall.2.2 (fun e he mr hmr => (sampleScene_drawable e he mr hmr).1)
  exact ⟨st, hst, (hall.1 st hst).1⟩

/-- Witness of C18: the sample scene, rendered by a renderer whose lists
still hold earlier commands, gives one opaque and two transparent commands. -/
theorem extract_commands_witness :
    ∃ st, extract sampleExternal sampleRenderer sampleScene = some st
      ∧ st.renderer.opaqueCommands.length + st.renderer.transparentCommands.length = 3 := by
  obtain ⟨st, h0, _, _, h3, _⟩ := extract_commands sampleExternal sampleRenderer sampleScene
    (fun e he mr hmr => (sampleScene_drawable e he mr hmr).1)
  exact ⟨st, h0, h3.trans (by decide)⟩

/-- C19: in a frame with a camera, after the sort step the transparent list
is non-increasing in `dot(cameraForward, center)`: each command is at least as
far along `cameraForward` as the next one (and as every later one), where
`cameraForward` is the normalised image of `(0, 0, -1, 0)` under the world
matrix of the camera's owner. The list is the sorted extracted list and
`render` returns it, under the two completeness conditions. -/
theorem render_transparent_sorted (ext : External) (assets : String → Option Material)
    (renderer : ForwardRenderer) (entities : List Entity) (camera : CameraRef)
    (hdraw : Drawable entities) (hsky : SkyComplete renderer)
    (hcam : firstCamera entities = some camera) :
    ∃ r2 calls st, extract ext renderer entities = some st
      ∧ render ext assets renderer entities = some (r2, calls)
      ∧ r2.transparentCommands
          = stdSort (fartherFirst (cameraForward ext camera)) st.renderer.transparentCommands
      ∧ List.Chain' (fun a b => (cameraForward ext camera).dot b.center
            ≤ (cameraForward ext camera).dot a.center) r2.transparentCommands
      ∧ List.Pairwise (fun a b => (cameraForward ext camera).dot b.center
            ≤ (cameraForward ext camera).dot a.center) r2.transparentCommands
      ∧ cameraForward ext camera
          = ext.normalize ((ext.getLocalToWorldMatrix camera.owner).mulVec ⟨0, 0, -1, 0⟩).xyz := by
  obtain ⟨st, _, _, _, h0, _, hr, _⟩ := render_passes ext assets renderer entities camera
    hdraw hsky hcam
  have hp := stdSort_fartherFirst (cameraForward ext camera) st.renderer.transparentCommands
  exact ⟨_, _, st, h0, hr, rfl, hp.chain', hp, rfl⟩

/-- Witness of C19: the sample scene with its two panes of glass. -/
theorem render_transparent_sorted_witness :
    ∃ r2 calls, render sampleExternal sampleAssets sampleRenderer sampleScene = some (r2, calls)
      ∧ List.Chain' (fun a b =>
          (cameraForward sampleExternal
            { component := { cameraType := CameraType.PERSPECTIVE, near := 1 / 100, far := 100
                             fovY := 1, orthoHeight := 1 }
              owner := sampleCameraEntity "camera" ⟨0, 0, 5⟩ (1 / 100) }).dot b.center
          ≤ (cameraForward sampleExternal
            { component := { cameraType := CameraType.PERSPECTIVE, near := 1 / 100, far := 100
                             fovY := 1, orthoHeight := 1 }
              owner := sampleCameraEntity "camera" ⟨0, 0, 5⟩ (1 / 100) }).dot a.center)
          r2.transparentCommands := by
  obtain ⟨r2, calls, _, _, h2, _, h4, _⟩ := render_transparent_sorted sampleExternal
    sampleAssets sampleRenderer sampleScene _ sampleScene_drawable sampleRenderer_sky
    sampleScene_camera
  exact ⟨r2, calls, h2, h4⟩

/-- C20: in a frame with a camera the draw calls of `render` are, in this
order: the draw calls of the opaque commands in list order, the draw call of
the sky sphere when the sky is configured, the draw calls of the transparent
commands in their sorted list order, and the full-screen `glDrawArrays` when
post-processing is configured. `render` returns under the two completeness
conditions. -/
theorem render_draw_order (ext : External) (assets : String → Option Material)
    (renderer : ForwardRenderer) (entities : List Entity) (camera : CameraRef)
    (hdraw : Drawable entities) (hsky : SkyComplete renderer)
    (hcam : firstCamera entities = some camera) :
    ∃ r2 calls, render ext assets renderer entities = some (r2, calls)
      ∧ calls.filter GLCall.isDraw
          = (r2.opaqueCommands.map commandDraws).flatten
            ++ (match r2.skyMaterial, r2.skySphere with
                | some _, some sphere => [GLCall.drawElements sphere.elementCount 0]
                | _, _ => [])
            ++ (r2.transparentCommands.map commandDraws).flatten
            ++ (match r2.postprocessMaterial with
                | some _ => [GLCall.drawArrays 0 3]
                | none => [])
      ∧ List.Pairwise (fun a b => (cameraForward ext camera).dot b.center
            ≤ (cameraForward ext camera).dot a.center) r2.transparentCommands := by
  obtain ⟨st, opaquePass, skyPass, transparentPass, _, _, hr, o2, s2, t2⟩ :=
    render_passes ext assets renderer entities camera hdraw hsky hcam
  refine ⟨_, _, hr, ?_,
    stdSort_fartherFirst (cameraForward ext camera) st.renderer.transparentCommands⟩
  simp only [List.filter_append, setupCalls_draws, postprocessCalls_draws, o2, s2, t2]
  simp [GLCall.isDraw]

/-- Witness of C20: the sample scene, with sky and post-processing configured. -/
theorem render_draw_order_witness :
    ∃ r2 calls, render sampleExternal sampleAssets sampleRenderer sampleScene = some (r2, calls)
      ∧ calls.filter GLCall.isDraw
          = (r2.opaqueCommands.map commandDraws).flatten
            ++ (match r2.skyMaterial, r2.skySphere with
                | some _, some sphere => [GLCall.drawElements sphere.elementCount 0]
                | _, _ => [])
            ++ (r2.transparentCommands.map commandDraws).flatten
            ++ (match r2.postprocessMaterial with
                | some _ => [GLCall.drawArrays 0 3]
                | none => []) := by
  obtain ⟨r2, calls, h1, h2, _⟩ := render_draw_order sampleExternal sampleAssets
    sampleRenderer sampleScene _ sampleScene_drawable sampleRenderer_sky sampleScene_camera
  exact ⟨r2, calls, h1, h2⟩

/-! ## Submesh materials and null materials -/

/-- The material of a submesh: the one found under its name, else the one of
the command; with both null nothing is issued for the submesh. -/
theorem drawSubmesh_material (assets : String → Option Material) (VP : Mat4)
    (cmd : RenderCommand) (sub : Submesh) :
    (∀ m, assets sub.materialName = some m →
        drawSubmesh assets VP cmd sub
          = [GLCall.materialSetup m, GLCall.shaderUse m.shader,
             GLCall.shaderSetTransform m.shader (VP.mul cmd.localToWorld),
             GLCall.drawElements sub.count (sub.offset * 4)])
    ∧ (∀ m, assets sub.materialName = none → cmd.material = some m →
        drawSubmesh assets VP cmd sub
          = [GLCall.materialSetup m, GLCall.shaderUse m.shader,
             GLCall.shaderSetTransform m.shader (VP.mul cmd.localToWorld),
             GLCall.drawElements sub.count (sub.offset * 4)])
    ∧ (assets sub.materialName = none → cmd.material = none →
        drawSubmesh assets VP cmd sub = []) := by
  refine ⟨?_, ?_, ?_⟩
  · intro m h
    unfold drawSubmesh
    rw [h]
  · intro m h hc
    unfold drawSubmesh
    rw [h, hc]
  · intro h hc
    unfold drawSubmesh
    rw [h, hc]

/-- A command without material is never drawn: the pass dereferences the
material (line 194) before it looks at the submeshes. -/
theorem drawCommand_null_material (assets : String → Option Material) (VP : Mat4)
    (cmd : RenderCommand) (h : cmd.material = none) : drawCommand assets VP cmd = none := by
  unfold drawCommand
  rw [h]

/-- An entity whose mesh renderer has no material stops the first loop of
`render`, whatever came before and whatever the asset loader holds. -/
theorem extractStep_null_material (ext : External) (st : ExtractState) (entity : Entity)
    (mr : MeshRendererComponent) (hmr : entity.meshRenderer = some mr)
    (hm : mr.material = none) : extractStep ext st entity = none := by
  unfold extractStep
  simp only [hmr, hm]

/-- C21, evaluated at the failing input: a frame with a camera and an entity whose
mesh has one submesh and whose mesh renderer has no material. The branch for one
submesh issues nothing when the asset loader has no material under the name either,
but `render` does not reach it: neither with an asset loader that holds no material
nor with one that holds a material under the submesh's name does `render` complete,
because the first loop reads `command.material->transparent` through the null
pointer, and the draw pass would read `cmd.material->setup()` through it as well. -/
theorem render_null_material :
    render sampleExternal sampleAssets sampleRenderer sampleBareScene = none
    ∧ render sampleExternal sampleStoneAssets sampleRenderer sampleBareScene = none
    ∧ extractStep sampleExternal
        { camera := none
          renderer := { sampleRenderer with opaqueCommands := [], transparentCommands := [] } }
        sampleBare = none
    ∧ drawCommand sampleAssets Mat4.identity
        (buildCommand sampleExternal sampleBare
          { mesh := some sampleSubmeshMesh, material := none }) = none
    ∧ drawSubmesh sampleAssets Mat4.identity
        (buildCommand sampleExternal sampleBare
          { mesh := some sampleSubmeshMesh, material := none })
        { offset := 0, count := 3, materialName := "stone" } = [] :=
  ⟨rfl, rfl, rfl, rfl, rfl⟩

/-! ## The sky transform -/

theorem skyTransform_eq (VP cameraWorld : Mat4) :
    skyTransform VP cameraWorld
      = (let transform := VP.mul (skyModel (cameraWorld.mulVec ⟨0, 0, 0, 1⟩).xyz)
         ⟨{ transform.c0 with z := transform.c0.w }, { transform.c1 with z := transform.c1.w },
          { transform.c2 with z := transform.c2.w }, { transform.c3 with z := transform.c3.w }⟩) :=
  rfl

/-- C22: for every view-projection matrix `VP`, every world matrix of the
camera's owner and every homogeneous vertex `v`, the transform `T` that the
sky pass sends to the shader gives `(T v).z = (T v).w`, while the `x`, `y` and
`w` components of `T v` are those of `VP (M v)`, where `M` is the translation
to the camera position `p` followed by the scale by 100, which maps the
centre `(0, 0, 0, 1)` of the sphere to `p`. The sky pass sends this `T`. -/
theorem skyTransform_depth (VP cameraWorld : Mat4) (v : Vec4) :
    ((skyTransform VP cameraWorld).mulVec v).z = ((skyTransform VP cameraWorld).mulVec v).w
    ∧ ((skyTransform VP cameraWorld).mulVec v).x
        = (VP.mulVec ((skyModel (cameraWorld.mulVec ⟨0, 0, 0, 1⟩).xyz).mulVec v)).x
    ∧ ((skyTransform VP cameraWorld).mulVec v).y
        = (VP.mulVec ((skyModel (cameraWorld.mulVec ⟨0, 0, 0, 1⟩).xyz).mulVec v)).y
    ∧ ((skyTransform VP cameraWorld).mulVec v).w
        = (VP.mulVec ((skyModel (cameraWorld.mulVec ⟨0, 0, 0, 1⟩).xyz).mulVec v)).w
    ∧ (VP.mul (skyModel (cameraWorld.mulVec ⟨0, 0, 0, 1⟩).xyz)).mulVec v
        = VP.mulVec ((skyModel (cameraWorld.mulVec ⟨0, 0, 0, 1⟩).xyz).mulVec v)
    ∧ (skyModel (cameraWorld.mulVec ⟨0, 0, 0, 1⟩).xyz).mulVec ⟨0, 0, 0, 1⟩
        = Vec4.ofVec3 (cameraWorld.mulVec ⟨0, 0, 0, 1⟩).xyz 1
    ∧ (∀ (renderer : ForwardRenderer) (material : Material) (sphere : Mesh),
        renderer.skyMaterial = some material → renderer.skySphere = some sphere →
        skyCalls renderer VP cameraWorld
          = some ([GLCall.materialSetup material, GLCall.shaderUse material.shader,
                   GLCall.shaderSetTransform material.shader (skyTransform VP cameraWorld)]
                  ++ sphere.draw)) := by
  refine ⟨?_, ?_, ?_, ?_, ?_, ?_, ?_⟩
  · simp only [skyTransform, Mat4.mulVec, Mat4.mul, Mat4.translate, Mat4.scaleBy,
      Mat4.identity, Vec4.scale, Vec4.add, Vec4.xyz]
  · simp only [skyTransform, skyModel, Mat4.mulVec, Mat4.mul, Mat4.translate, Mat4.scaleBy,
      Mat4.identity, Vec4.scale, Vec4.add, Vec4.xyz]
    ring
  · simp only [skyTransform, skyModel, Mat4.mulVec, Mat4.mul, Mat4.translate, Mat4.scaleBy,
      Mat4.identity, Vec4.scale, Vec4.add, Vec4.xyz]
    ring
  · simp only [skyTransform, skyModel, Mat4.mulVec, Mat4.mul, Mat4.translate, Mat4.scaleBy,
      Mat4.identity, Vec4.scale, Vec4.add, Vec4.xyz]
    ring
  · simp only [skyModel, Mat4.mulVec, Mat4.mul, Mat4.translate, Mat4.scaleBy,
      Mat4.identity, Vec4.scale, Vec4.add, Vec4.xyz, Vec4.mk.injEq]
    refine ⟨?_, ?_, ?_, ?_⟩ <;> ring
  · simp only [skyModel, Mat4.mulVec, Mat4.translate, Mat4.scaleBy,
      Mat4.identity, Vec4.scale, Vec4.add, Vec4.xyz, Vec4.ofVec3, Vec4.mk.injEq]
    refine ⟨?_, ?_, ?_, ?_⟩ <;> ring
  · intro renderer material sphere hm hs
    unfold skyCalls
    rw [hm, hs]

/-- Witness of C22: the sample renderer, the identity as view-projection
matrix and a camera at `(1, 2, 3)`. -/
theorem skyTransform_depth_witness :
    ((skyTransform Mat4.identity sampleMatrix).mulVec ⟨1, 1, 1, 1⟩).z
      = ((skyTransform Mat4.identity sampleMatrix).mulVec ⟨1, 1, 1, 1⟩).w
    ∧ skyCalls sampleRenderer Mat4.identity sampleMatrix
        = some ([GLCall.materialSetup sampleOpaqueMaterial,
                 GLCall.shaderUse sampleOpaqueMaterial.shader,
                 GLCall.shaderSetTransform sampleOpaqueMaterial.shader
                   (skyTransform Mat4.identity sampleMatrix)]
                ++ sampleMesh.draw) :=
  ⟨(skyTransform_depth Mat4.identity sampleMatrix ⟨1, 1, 1, 1⟩).1,
   (skyTransform_depth Mat4.identity sampleMatrix ⟨1, 1, 1, 1⟩).2.2.2.2.2.2
     sampleRenderer sampleOpaqueMaterial sampleMesh rfl rfl⟩

/-! ## A frame without camera -/

/-- Without a camera among the entities and with a material on every mesh
renderer, `render` returns right after the first loop and makes no call. -/
theorem render_no_camera (ext : External) (assets : String → Option Material)
    (renderer : ForwardRenderer) (entities : List Entity)
    (hcam : ∀ e, e ∈ entities → e.camera = none)
    (hmat : ∀ e, e ∈ entities → ∀ mr, e.meshRenderer = some mr → mr.material ≠ none) :
    ∃ st, extract ext renderer entities = some st ∧ st.camera = none
      ∧ render ext assets renderer entities = some (st.renderer, []) := by
  obtain ⟨st, h0, _⟩ := extractLoop_lists ext entities
    { camera := none
      renderer := { renderer with opaqueCommands := [], transparentCommands := [] } } hmat
  have h0x : extract ext renderer entities = some st := h0
  have hnone : st.camera = none := by
    rw [extractLoop_camera ext entities _ st h0]
    exact (firstCamera_eq_none entities).mpr hcam
  refine ⟨st, h0x, hnone, ?_⟩
  unfold render
  simp only [h0x, hnone]

/-- Without a camera among the entities, an entity whose mesh renderer has no
material makes `render` fail in its first loop. -/
theorem render_no_camera_null (ext : External) (assets : String → Option Material)
    (renderer : ForwardRenderer) (entity : Entity) (mr : MeshRendererComponent)
    (hmr : entity.meshRenderer = some mr) (hm : mr.material = none) :
    render ext assets renderer [entity] = none := by
  unfold render extract extractLoop
  rw [extractStep_null_material ext _ entity mr hmr hm]

/-- C23, evaluated at the failing input: a world whose only entity has no camera and
a mesh renderer without material. No entity has a camera, yet `render` does not
return: its first loop reads `command.material->transparent` through the null
pointer before the test `camera == nullptr` is reached. Without that entity the
frame is the silent no-op of the claim: an empty world gives no call. -/
theorem render_no_camera_null_material :
    sampleBare.camera = none
    ∧ firstCamera [sampleBare] = none
    ∧ render sampleExternal sampleAssets sampleRenderer [sampleBare] = none
    ∧ render sampleExternal sampleAssets sampleRenderer []
        = some ({ sampleRenderer with opaqueCommands := [], transparentCommands := [] }, []) :=
  ⟨rfl, rfl, rfl, rfl⟩

/-! ## The sort step keeps the commands -/

/-- C27: in a frame with a camera, the transparent list after the sort step
is a permutation of the transparent list built by the first loop: each
command occurs in it as often as before, so none is dropped, duplicated or
altered, and the length is the same. The sorted list is the one `render`
leaves in the renderer, and `render` returns under the two completeness
conditions. -/
theorem render_sort_perm (ext : External) (assets : String → Option Material)
    (renderer : ForwardRenderer) (entities : List Entity) (st : ExtractState)
    (camera : CameraRef) (hst : extract ext renderer entities = some st)
    (hcam : st.camera = some camera) :
    (stdSort (fartherFirst (cameraForward ext camera)) st.renderer.transparentCommands).Perm
        st.renderer.transparentCommands
    ∧ (∀ c, (stdSort (fartherFirst (cameraForward ext camera))
              st.renderer.transparentCommands).count c
          = st.renderer.transparentCommands.count c)
    ∧ (stdSort (fartherFirst (cameraForward ext camera)) st.renderer.transparentCommands).length
        = st.renderer.transparentCommands.length
    ∧ (∀ r2 calls, render ext assets renderer entities = some (r2, calls) →
        r2.transparentCommands
          = stdSort (fartherFirst (cameraForward ext camera)) st.renderer.transparentCommands)
    ∧ (Drawable entities → SkyComplete renderer →
        ∃ r2 calls, render ext assets renderer entities = some (r2, calls)) := by
  have hp := stdSort_perm (fartherFirst (cameraForward ext camera))
    st.renderer.transparentCommands
  refine ⟨hp, fun c => hp.count_eq c, hp.length_eq, ?_, ?_⟩
  · intro r2 calls hr
    unfold render at hr
    simp only [hst, hcam] at hr
    unfold renderWithCamera at hr
    dsimp only at hr
    split at hr
    · rw [← (Prod.mk.inj (Option.some.inj hr)).1]
    · exact absurd hr (by simp)
  · intro hdraw hsky
    have hsel : st.camera = firstCamera entities := extractLoop_camera ext entities _ st hst
    have hfirst : firstCamera entities = some camera := by
      rw [← hsel]
      exact hcam
    obtain ⟨st2, _, _, _, _, _, hr, _⟩ := render_passes ext assets renderer entities camera
      hdraw hsky hfirst
    exact ⟨_, _, hr⟩

/-- Witness of C27: the sample scene, whose two panes of glass are extracted
near one first and sorted far one first. -/
theorem render_sort_perm_witness :
    ∃ st, extract sampleExternal sampleRenderer sampleScene = some st
      ∧ (stdSort (fartherFirst (cameraForward sampleExternal
            { component := { cameraType := CameraType.PERSPECTIVE, near := 1 / 100, far := 100
                             fovY := 1, orthoHeight := 1 }
              owner := sampleCameraEntity "camera" ⟨0, 0, 5⟩ (1 / 100) }))
          st.renderer.transparentCommands).Perm st.renderer.transparentCommands :=
  ⟨_, rfl, (render_sort_perm sampleExternal sampleAssets sampleRenderer sampleScene _ _
    rfl rfl).1⟩

/-! ## Round trip between entity and body -/

theorem Vec3.add_sub_cancel (a b : Vec3) : (a.add b).sub b = a := by
  cases a
  simp [Vec3.add, Vec3.sub]

theorem component_owner_eta (c : BulletColliderComponent) (owner : Entity)
    (ho : c.owner = some owner) :
    { c with
      owner := some
        { owner with
          localTransform :=
            { owner.localTransform with position := owner.localTransform.position } } }
      = c := by
  cases c
  simp only at ho
  subst ho
  rfl

/-- C28: for a collider with a body that has a motion state, an owner and
`mass > 0`, whose owner's world matrix has the owner's local position as
translation column, `syncFromEntity` followed by `syncToEntity` leaves the
owner as it was, local position included, and with it every component, for
every `centerOffset`: the offset added on the way to the body is subtracted
on the way back. -/
theorem syncFromEntity_syncToEntity (ext : External) (h : Heap) (this p m : Nat)
    (owner : Entity) (b : btRigidBody)
    (hp : (h.components this).rigidBody = some p)
    (ho : (h.components this).owner = some owner)
    (hb : h.rigidBodies.get? p = some b)
    (hbm : b.motionState = some m) (hlt : m < h.motionStates.length)
    (hmass : 0 < (h.components this).mass)
    (hpos : (ext.getLocalToWorldMatrix owner).c3.xyz = owner.localTransform.position) :
    ((syncToEntity (syncFromEntity ext h this) this).components this).owner = some owner
    ∧ (syncToEntity (syncFromEntity ext h this) this).components = h.components
    ∧ (bodyMotionState (syncFromEntity ext h this) p).origin
        = owner.localTransform.position.add (h.components this).centerOffset := by
  obtain ⟨r1, r2, r3⟩ := syncFromEntity_dynamic ext h this p owner b hp ho hb hmass
  have hms : bodyMotionState (syncFromEntity ext h this) p
      = entityTransform ext (h.components this) owner := by
    unfold bodyMotionState
    rw [r1]
    simp only [hbm, r2 m hbm hlt, Option.getD_some]
  have horigin : (bodyMotionState (syncFromEntity ext h this) p).origin
      = owner.localTransform.position.add (h.components this).centerOffset := by
    rw [hms]
    unfold entityTransform
    simp only [hpos]
  have hsc : syncedComponent (syncFromEntity ext h this) (h.components this)
      = h.components this := by
    rw [syncedComponent_sync _ _ p owner hp ho (ne_of_gt hmass), horigin,
      Vec3.add_sub_cancel]
    exact component_owner_eta _ owner ho
  have hcomp : (syncToEntity (syncFromEntity ext h this) this).components = h.components := by
    rw [syncToEntity_eq]
    show Function.update (syncFromEntity ext h this).components this
      (syncedComponent _ ((syncFromEntity ext h this).components this)) = h.components
    rw [r3, hsc, Function.update_eq_self]
  refine ⟨?_, hcomp, horigin⟩
  rw [hcomp]
  exact ho

/-- Witness of C28: the registered sample collider of mass 70, whose owner
has no parent and stands at `(1, 2, 3)`. -/
theorem syncFromEntity_syncToEntity_witness :
    ((syncToEntity (syncFromEntity sampleExternal sampleRegistered.1 0) 0).components 0).owner
      = some sampleEntity := by
  have hb : ∃ b, sampleRegistered.1.rigidBodies.get? 0 = some b ∧ b.motionState = some 0 :=
    ⟨_, rfl, rfl⟩
  obtain ⟨b, hb, hbm⟩ := hb
  exact (syncFromEntity_syncToEntity sampleExternal sampleRegistered.1 0 0 0 sampleEntity b
    rfl rfl hb hbm (by decide) (by rw [sampleRegistered_mass]; norm_num) rfl).1

/-! ## Destruction -/

/-- C24, evaluated at the failing input: the sample system with both sample
colliders registered, torn down as the play state does it: the components are
destroyed first, while their bodies are still in the world, then the physics system.
The destructor of a collider deletes the motion state first, then the body, then the
shape. The destructor of the system deletes the motion state and the body of every
object still in its world, so the body and the motion state of the collider at
address 0 are each deleted twice. After `removeCollider` the system no longer
deletes them, and the order of the collider's destructor is the same. -/
theorem destroy_double_release :
    destroyCollider sampleRegistered.1 0
      = [Release.motionState 0, Release.body 0, Release.shape 0]
    ∧ destroyCollider sampleRegistered.1 1
      = [Release.motionState 1, Release.body 1, Release.shape 1]
    ∧ destroySystem sampleRegistered.1 sampleRegistered.2
      = [Release.motionState 1, Release.body 1, Release.motionState 0, Release.body 0]
    ∧ (destroyCollider sampleRegistered.1 0 ++ destroyCollider sampleRegistered.1 1
        ++ destroySystem sampleRegistered.1 sampleRegistered.2).count (Release.body 0) = 2
    ∧ (destroyCollider sampleRegistered.1 0 ++ destroyCollider sampleRegistered.1 1
        ++ destroySystem sampleRegistered.1 sampleRegistered.2).count (Release.motionState 0)
        = 2
    ∧ destroySystem sampleRegistered.1
        (sampleRegistered.2.removeCollider sampleRegistered.1 (some 0))
      = [Release.motionState 1, Release.body 1] :=
  ⟨rfl, rfl, rfl, rfl, rfl, rfl⟩

/-- The order of the deletes in `~BulletColliderComponent` for a collider
whose body has a motion state: motion state, body, shape. -/
theorem destroyCollider_order (h : Heap) (this p m : Nat) (shape : Shape)
    (hp : (h.components this).rigidBody = some p) (hm : getMotionState h p = some m)
    (hs : (h.components this).collisionShape = some shape) :
    destroyCollider h this = [Release.motionState m, Release.body p, Release.shape this] := by
  unfold destroyCollider
  rw [hp, hs]
  simp only [hm]
  rfl

/-! ## The transform of a mesh collider -/

theorem btTransform.apply_identity (v : Vec3) : btTransform.identity.apply v = v := by
  cases v
  simp [btTransform.apply, btTransform.identity]

theorem addTriangleIfValid_baked (transform : Mat4) (vertices : List Vertex)
    (i0 i1 i2 : Nat) (tri : Triangle)
    (h : tri ∈ addTriangleIfValid transform vertices i0 i1 i2) :
    Baked transform vertices tri := by
  unfold addTriangleIfValid at h
  split_ifs at h with hv
  · obtain ⟨h0, h1, h2⟩ := hv
    rw [List.mem_singleton] at h
    refine ⟨vertices.get ⟨i0, h0⟩, vertices.get ⟨i1, h1⟩, vertices.get ⟨i2, h2⟩,
      List.get_mem _ _ _, List.get_mem _ _ _, List.get_mem _ _ _, ?_⟩
    rw [h]
    unfold bakeVertex
    rw [List.get?_eq_get h0, List.get?_eq_get h1, List.get?_eq_get h2]
  · exact absurd h (List.not_mem_nil tri)

theorem elementsLoop_baked (transform : Mat4) (vertices : List Vertex) (elements : List Nat) :
    ∀ (fuel i : Nat) (tri : Triangle),
      tri ∈ elementsLoop transform vertices elements fuel i →
      Baked transform vertices tri := by
  intro fuel
  induction fuel with
  | zero =>
    intro i tri h
    unfold elementsLoop at h
    exact absurd h (List.not_mem_nil tri)
  | succ n ih =>
    intro i tri h
    unfold elementsLoop at h
    split_ifs at h
    · rcases List.mem_append.mp h with h1 | h1
      · exact addTriangleIfValid_baked _ _ _ _ _ tri h1
      · exact ih _ tri h1
    · exact absurd h (List.not_mem_nil tri)

theorem submeshLoop_baked (transform : Mat4) (vertices : List Vertex) (indices : List Nat)
    (bound : Nat) :
    ∀ (fuel i : Nat) (tri : Triangle),
      tri ∈ submeshLoop transform vertices indices bound fuel i →
      Baked transform vertices tri := by
  intro fuel
  induction fuel with
  | zero =>
    intro i tri h
    unfold submeshLoop at h
    exact absurd h (List.not_mem_nil tri)
  | succ n ih =>
    intro i tri h
    rw [submeshLoop_unfold] at h
    split_ifs at h
    · rcases List.mem_append.mp h with h1 | h1
      · exact addTriangleIfValid_baked _ _ _ _ _ tri h1
      · exact ih _ tri h1
    · rcases List.mem_append.mp h with h1 | h1
      · exact absurd h1 (List.not_mem_nil tri)
      · exact ih _ tri h1
    · exact absurd h (List.not_mem_nil tri)

/-- Every triangle of a MESH shape is baked: its corners are vertices of the
mesh pushed through the transform. -/
theorem meshTriangles_baked (transform : Mat4) (mesh : Mesh) (tri : Triangle)
    (h : tri ∈ meshTriangles transform mesh) : Baked transform mesh.vertices tri := by
  unfold meshTriangles at h
  split_ifs at h
  · exact elementsLoop_baked _ _ _ _ _ tri h
  · obtain ⟨l, hl, htri⟩ := List.mem_flatten.mp h
    obtain ⟨sub, _, hsub⟩ := List.mem_map.mp hl
    rw [← hsub] at htri
    exact submeshLoop_baked _ _ _ _ _ _ tri htri
  · exact absurd h (List.not_mem_nil tri)

/-- C29, amended: a MESH collider of mass 0 whose shape is a triangle mesh
(at least one valid triangle) has the identity as start transform, and each
corner of each of its triangles is the owner's world matrix times the local
position of a vertex of the mesh; so the start transform applied to a baked
corner is the world matrix times the local position: the owner's transform
is applied once. -/
theorem startTransform_static_mesh (ext : External) (c : BulletColliderComponent)
    (owner : Entity) (mesh : Mesh) (tris : List Triangle)
    (hk : c.shapeType = CollisionShape.MESH) (hm : c.mass = 0) (hmesh : c.mesh = some mesh)
    (hshape : createShape c (ext.getLocalToWorldMatrix owner)
      = some (Shape.bvhTriangleMesh tris)) :
    startTransform ext c owner = btTransform.identity
    ∧ tris = meshTriangles (ext.getLocalToWorldMatrix owner) mesh
    ∧ tris ≠ []
    ∧ ∀ tri, tri ∈ tris →
        ∃ v0 v1 v2, v0 ∈ mesh.vertices ∧ v1 ∈ mesh.vertices ∧ v2 ∈ mesh.vertices
          ∧ (startTransform ext c owner).apply tri.v0
              = ((ext.getLocalToWorldMatrix owner).mulVec (Vec4.ofVec3 v0.position 1)).xyz
          ∧ (startTransform ext c owner).apply tri.v1
              = ((ext.getLocalToWorldMatrix owner).mulVec (Vec4.ofVec3 v1.position 1)).xyz
          ∧ (startTransform ext c owner).apply tri.v2
              = ((ext.getLocalToWorldMatrix owner).mulVec (Vec4.ofVec3 v2.position 1)).xyz := by
  have hid : startTransform ext c owner = btTransform.identity := by
    unfold startTransform
    rw [if_pos ⟨hk, hm⟩]
    rfl
  rw [createShape_mesh_some c _ mesh hk hmesh] at hshape
  split_ifs at hshape with hv
  · have htris : tris = meshTriangles (ext.getLocalToWorldMatrix owner) mesh :=
      (Shape.bvhTriangleMesh.inj (Option.some.inj hshape)).symm
    refine ⟨hid, htris, ?_, ?_⟩
    · intro he
      rw [htris] at he
      rw [he] at hv
      exact absurd hv.2 (by simp)
    · intro tri htri
      rw [htris] at htri
      obtain ⟨v0, v1, v2, m0, m1, m2, e⟩ := meshTriangles_baked _ mesh tri htri
      refine ⟨v0, v1, v2, m0, m1, m2, ?_, ?_, ?_⟩
      · rw [hid, btTransform.apply_identity, e]
      · rw [hid, btTransform.apply_identity, e]
      · rw [hid, btTransform.apply_identity, e]
  · exact absurd (Option.some.inj hshape) (by simp)

/-- Witness of C29 for mass 0: the static sample MESH collider. -/
theorem startTransform_static_mesh_witness :
    startTransform sampleExternal sampleStaticMesh sampleEntity = btTransform.identity
    ∧ (startTransform sampleExternal sampleStaticMesh sampleEntity).apply ⟨1, 2, 3⟩
        = ⟨1, 2, 3⟩ := by
  have hs : createShape sampleStaticMesh (sampleExternal.getLocalToWorldMatrix sampleEntity)
      = some (Shape.bvhTriangleMesh [⟨⟨1, 2, 3⟩, ⟨2, 2, 3⟩, ⟨1, 3, 3⟩⟩]) := by
    rw [createShape_mesh_some _ _ sampleMesh rfl rfl]
    simp [meshTriangles, elementsTriangles, elementsLoop, addTriangleIfValid, sampleMesh,
      vecRead, bakeVertex, sampleExternal, sampleEntity, sampleVertex, Mat4.mulVec,
      Vec4.ofVec3, Vec4.xyz]
    norm_num
  have h := startTransform_static_mesh sampleExternal sampleStaticMesh sampleEntity sampleMesh
    _ rfl rfl rfl hs
  refine ⟨h.1, ?_⟩
  rw [h.1, btTransform.apply_identity]

/-- Counterexample to C29 as stated: the sample MESH collider of mass 1 on an
owner at `(1, 2, 3)`. Its shape is a triangle mesh whose first corner is the
baked local vertex `(0, 0, 0)`, that is `(1, 2, 3)`; its start transform has the
origin `(1, 2, 3)`, so the start transform applied to that corner is
`(2, 4, 6)`, not the world matrix times the local position. -/
theorem startTransform_dynamic_mesh_twice :
    createShape sampleDynamicMesh (sampleExternal.getLocalToWorldMatrix sampleEntity)
      = some (Shape.bvhTriangleMesh [⟨⟨1, 2, 3⟩, ⟨2, 2, 3⟩, ⟨1, 3, 3⟩⟩])
    ∧ bakeVertex (sampleExternal.getLocalToWorldMatrix sampleEntity) sampleMesh.vertices 0
      = ⟨1, 2, 3⟩
    ∧ ((sampleExternal.getLocalToWorldMatrix sampleEntity).mulVec
        (Vec4.ofVec3 (sampleVertex ⟨0, 0, 0⟩).position 1)).xyz = ⟨1, 2, 3⟩
    ∧ (startTransform sampleExternal sampleDynamicMesh sampleEntity).apply ⟨1, 2, 3⟩
      = ⟨2, 4, 6⟩
    ∧ (startTransform sampleExternal sampleDynamicMesh sampleEntity).apply ⟨1, 2, 3⟩
      ≠ ((sampleExternal.getLocalToWorldMatrix sampleEntity).mulVec
        (Vec4.ofVec3 (sampleVertex ⟨0, 0, 0⟩).position 1)).xyz := by
  have hs : createShape sampleDynamicMesh (sampleExternal.getLocalToWorldMatrix sampleEntity)
      = some (Shape.bvhTriangleMesh [⟨⟨1, 2, 3⟩, ⟨2, 2, 3⟩, ⟨1, 3, 3⟩⟩]) := by
    rw [createShape_mesh_some _ _ sampleMesh rfl rfl]
    simp [meshTriangles, elementsTriangles, elementsLoop, addTriangleIfValid, sampleMesh,
      vecRead, bakeVertex, sampleExternal, sampleEntity, sampleVertex, Mat4.mulVec,
      Vec4.ofVec3, Vec4.xyz]
    norm_num
  have hb : bakeVertex (sampleExternal.getLocalToWorldMatrix sampleEntity)
      sampleMesh.vertices 0 = ⟨1, 2, 3⟩ := by
    simp [bakeVertex, sampleMesh, sampleExternal, sampleEntity, sampleVertex, Mat4.mulVec,
      Vec4.ofVec3, Vec4.xyz]
  have hw : ((sampleExternal.getLocalToWorldMatrix sampleEntity).mulVec
      (Vec4.ofVec3 (sampleVertex ⟨0, 0, 0⟩).position 1)).xyz = ⟨1, 2, 3⟩ := by
    simp [sampleExternal, sampleEntity, sampleVertex, Mat4.mulVec, Vec4.ofVec3, Vec4.xyz]
  have ha : (startTransform sampleExternal sampleDynamicMesh sampleEntity).apply ⟨1, 2, 3⟩
      = ⟨2, 4, 6⟩ := by
    simp [startTransform, sampleDynamicMesh, BulletColliderComponent.new, btTransform.apply,
      sampleExternal, sampleEntity, Vec3.add, Vec4.xyz]
    norm_num
  refine ⟨hs, hb, hw, ha, ?_⟩
  rw [ha, hw]
  simp

/-! ## The range of the submesh loop -/

/-- From a counter that is a multiple of 3 and so far into the buffer that
`i + 2` is past its end, the submesh loop adds nothing: the counter reaches
`2 ^ 32 - 1`, which no bound exceeds, without wrapping around. -/
theorem submeshLoop_skip (transform : Mat4) (vertices : List Vertex) (indices : List Nat)
    (bound : Nat) (hb : bound < 2 ^ 32) :
    ∀ (fuel i : Nat), i % 3 = 0 → i < 2 ^ 32 → indices.length ≤ i + 2 →
      submeshLoop transform vertices indices bound fuel i = [] := by
  intro fuel
  induction fuel with
  | zero =>
    intro i _ _ _
    rfl
  | succ n ih =>
    intro i h3 hi hlen
    rw [submeshLoop_unfold]
    by_cases hlt : i < bound
    · have h1 : i + 3 < 2 ^ 32 := by omega
      have h2 : (i + 2) % 2 ^ 32 = i + 2 := Nat.mod_eq_of_lt (by omega)
      have h4 : (i + 3) % 2 ^ 32 = i + 3 := Nat.mod_eq_of_lt h1
      rw [if_pos hlt, h2, h4, if_neg (by omega), ih (i + 3) (by omega) h1 (by omega)]
      rfl
    · rw [if_neg hlt]

/-- When `offset + count - 2` neither underflows nor reaches `2 ^ 32 - 2`,
every triangle of the submesh loop is read from three consecutive positions
`j`, `j + 1`, `j + 2` of the index buffer, at or after the start of the loop
and with `j + 2` below the bound plus 2 and inside the buffer. -/
theorem submeshLoop_range (transform : Mat4) (vertices : List Vertex) (indices : List Nat)
    (lo bound : Nat) (hb : bound + 2 < 2 ^ 32) :
    ∀ (fuel i : Nat) (tri : Triangle), lo ≤ i →
      tri ∈ submeshLoop transform vertices indices bound fuel i →
      ∃ j, lo ≤ j ∧ j + 2 < bound + 2 ∧ j + 2 < indices.length
        ∧ tri ∈ addTriangleIfValid transform vertices
            (vecRead indices j) (vecRead indices (j + 1)) (vecRead indices (j + 2)) := by
  intro fuel
  induction fuel with
  | zero =>
    intro i tri _ h
    unfold submeshLoop at h
    exact absurd h (List.not_mem_nil tri)
  | succ n ih =>
    intro i tri hlo h
    rw [submeshLoop_unfold] at h
    by_cases hlt : i < bound
    · have h1 : (i + 1) % 2 ^ 32 = i + 1 := Nat.mod_eq_of_lt (by omega)
      have h2 : (i + 2) % 2 ^ 32 = i + 2 := Nat.mod_eq_of_lt (by omega)
      have h3 : (i + 3) % 2 ^ 32 = i + 3 := Nat.mod_eq_of_lt (by omega)
      rw [if_pos hlt, h1, h2, h3] at h
      rcases List.mem_append.mp h with hm | hm
      · by_cases hg : i + 2 < indices.length
        · rw [if_pos hg] at hm
          exact ⟨i, hlo, by omega, hg, hm⟩
        · rw [if_neg hg] at hm
          exact absurd hm (List.not_mem_nil tri)
      · exact ih (i + 3) tri (by omega) hm
    · rw [if_neg hlt] at h
      exact absurd h (List.not_mem_nil tri)

/-- For a submesh with `2 ≤ offset + count < 2 ^ 32` every triangle it
contributes is read from positions `j`, `j + 1`, `j + 2` inside
`[offset, offset + count)` and inside the index buffer, and a submesh with
`count < 3` contributes none. -/
theorem submeshTriangles_range (transform : Mat4) (vertices : List Vertex)
    (indices : List Nat) (sub : Submesh) (h2 : 2 ≤ sub.offset + sub.count)
    (hlt : sub.offset + sub.count < 2 ^ 32) :
    (∀ tri, tri ∈ submeshTriangles transform vertices indices sub →
      ∃ j, sub.offset ≤ j ∧ j + 2 < sub.offset + sub.count ∧ j + 2 < indices.length
        ∧ tri ∈ addTriangleIfValid transform vertices
            (vecRead indices j) (vecRead indices (j + 1)) (vecRead indices (j + 2)))
    ∧ (sub.count < 3 → submeshTriangles transform vertices indices sub = []) := by
  have hbound : (sub.offset % 2 ^ 32 + sub.count % 2 ^ 32 + (2 ^ 32 - 2)) % 2 ^ 32
      = sub.offset + sub.count - 2 := by omega
  have hoff : sub.offset % 2 ^ 32 = sub.offset := Nat.mod_eq_of_lt (by omega)
  have hall : ∀ tri, tri ∈ submeshTriangles transform vertices indices sub →
      ∃ j, sub.offset ≤ j ∧ j + 2 < sub.offset + sub.count ∧ j + 2 < indices.length
        ∧ tri ∈ addTriangleIfValid transform vertices
            (vecRead indices j) (vecRead indices (j + 1)) (vecRead indices (j + 2)) := by
    intro tri htri
    unfold submeshTriangles at htri
    rw [hbound, hoff] at htri
    obtain ⟨j, a1, a2, a3, a4⟩ := submeshLoop_range transform vertices indices sub.offset
      (sub.offset + sub.count - 2) (by omega) _ _ tri (le_refl _) htri
    exact ⟨j, a1, by omega, a3, a4⟩
  refine ⟨hall, ?_⟩
  intro hc
  apply List.eq_nil_iff_forall_not_mem.mpr
  intro tri htri
  obtain ⟨j, a1, a2, _⟩ := hall tri htri
  omega

/-- C25, evaluated at the failing input: a static MESH collider whose mesh has three
vertices, no direct elements, the index buffer `[0, 1, 2]` and one submesh with
offset 0 and count 1. The bound `offset + count - 2` of the loop wraps around to `2
^ 32 - 1`, so the loop runs from 0 and bakes the triangle read from the positions 0,
1, 2, of which 1 and 2 lie outside the range `[0, 1)` of the submesh: a submesh with
`count < 3` contributes a triangle, and the collider gets a triangle mesh instead of
the fallback box. -/
theorem submeshTriangles_underflow :
    submeshTriangles (sampleExternal.getLocalToWorldMatrix sampleEntity)
        sampleShortMesh.vertices sampleShortMesh.ebo
        { offset := 0, count := 1, materialName := "stone" }
      = [⟨⟨1, 2, 3⟩, ⟨2, 2, 3⟩, ⟨1, 3, 3⟩⟩]
    ∧ createShape sampleShortCollider (sampleExternal.getLocalToWorldMatrix sampleEntity)
      = some (Shape.bvhTriangleMesh [⟨⟨1, 2, 3⟩, ⟨2, 2, 3⟩, ⟨1, 3, 3⟩⟩]) := by
  have ht : submeshTriangles (sampleExternal.getLocalToWorldMatrix sampleEntity)
      sampleShortMesh.vertices sampleShortMesh.ebo
      { offset := 0, count := 1, materialName := "stone" }
      = [⟨⟨1, 2, 3⟩, ⟨2, 2, 3⟩, ⟨1, 3, 3⟩⟩] := by
    unfold submeshTriangles
    have hfuel : (2 : Nat) ^ 32 = 4294967295 + 1 := by norm_num
    have hbound : ((0 : Nat) % 2 ^ 32 + 1 % 2 ^ 32 + (2 ^ 32 - 2)) % 2 ^ 32 = 4294967295 := by
      norm_num
    have hstart : (0 : Nat) % 2 ^ 32 = 0 := by norm_num
    simp only [hbound, hstart]
    rw [hfuel, submeshLoop_unfold]
    have hskip := submeshLoop_skip (sampleExternal.getLocalToWorldMatrix sampleEntity)
      sampleShortMesh.vertices sampleShortMesh.ebo 4294967295 (by norm_num) 4294967295 3
      (by norm_num) (by norm_num) (by simp [sampleShortMesh])
    have h3 : (0 + 3) % 2 ^ 32 = 3 := by norm_num
    rw [h3, hskip]
    simp [addTriangleIfValid, sampleShortMesh, vecRead, bakeVertex, sampleExternal,
      sampleEntity, sampleVertex, Mat4.mulVec, Vec4.ofVec3, Vec4.xyz]
    norm_num
  refine ⟨ht, ?_⟩
  rw [createShape_mesh_some _ _ sampleShortMesh rfl rfl]
  have hm : meshTriangles (sampleExternal.getLocalToWorldMatrix sampleEntity) sampleShortMesh
      = [⟨⟨1, 2, 3⟩, ⟨2, 2, 3⟩, ⟨1, 3, 3⟩⟩] := by
    unfold meshTriangles
    rw [if_neg (by simp [sampleShortMesh]), if_pos (by simp [sampleShortMesh])]
    have hsub : sampleShortMesh.submeshes
        = [{ offset := 0, count := 1, materialName := "stone" }] := rfl
    rw [hsub, List.map_cons, List.map_nil, ht]
    rfl
  rw [hm]
  simp [sampleShortMesh]

/-! ## The sphere -/

theorem length_flatten_map_const {α β : Type} (f : α → List β) (n : Nat)
    (hf : ∀ a, (f a).length = n) (l : List α) :
    ((l.map f).flatten).length = l.length * n := by
  induction l with
  | nil => simp
  | cons a rest ih =>
    rw [List.map_cons, List.flatten_cons, List.length_append, ih, hf a, List.length_cons]
    ring

theorem intRange_length (first last : Int) :
    (intRange first last).length = (last + 1 - first).toNat := by
  unfold intRange
  rw [List.length_map, List.length_range]

theorem intRange_mem (first last x : Int) (h : x ∈ intRange first last) :
    first ≤ x ∧ x ≤ last := by
  unfold intRange at h
  obtain ⟨k, hk, e⟩ := List.mem_map.mp h
  have hk2 := List.mem_range.mp hk
  omega

theorem sphereQuad_bounds (segments : IVec2) (lat lng x : Int)
    (hlat : 1 ≤ lat ∧ lat ≤ segments.y) (hlng : 1 ≤ lng ∧ lng ≤ segments.x)
    (hx : x ∈ sphereQuad segments lat lng) :
    0 ≤ x ∧ x < (segments.x + 1) * (segments.y + 1) := by
  have h1 : segments.x + 1 ≤ lat * (segments.x + 1) := by nlinarith
  have h2 : lat * (segments.x + 1) ≤ segments.y * (segments.x + 1) := by nlinarith
  unfold sphereQuad at hx
  simp only [List.mem_cons, List.mem_singleton, List.not_mem_nil, or_false] at hx
  rcases hx with e | e | e | e | e | e <;> constructor <;> rw [e] <;> nlinarith

theorem sphereElements_bounds (segments : IVec2) (x : Int)
    (hx : x ∈ sphereElements segments) :
    0 ≤ x ∧ x < (segments.x + 1) * (segments.y + 1) := by
  unfold sphereElements at hx
  obtain ⟨row, hrow, hxr⟩ := List.mem_flatten.mp hx
  obtain ⟨lat, hlat, e1⟩ := List.mem_map.mp hrow
  rw [← e1] at hxr
  obtain ⟨quad, hquad, hxq⟩ := List.mem_flatten.mp hxr
  obtain ⟨lng, hlng, e2⟩ := List.mem_map.mp hquad
  rw [← e2] at hxq
  exact sphereQuad_bounds segments lat lng x (intRange_mem _ _ _ hlat)
    (intRange_mem _ _ _ hlng) hxq

/-- C30: for segments `(sx, sy)` with `sx ≥ 1` and `sy ≥ 1`, `mesh_utils::sphere`
produces `(sx + 1) (sy + 1)` vertices and `6 sx sy` indices; every value pushed
onto the index list is at least 0 and below the number of vertices as an
`int`, and so is every index of the mesh after the conversion to `GLuint`.
The element count of the mesh is the number of indices. -/
theorem sphere_counts (trig : Trigonometry) (segments : IVec2)
    (hx : 1 ≤ segments.x) (hy : 1 ≤ segments.y) :
    ((sphere trig segments).vertices.length : Int) = (segments.x + 1) * (segments.y + 1)
    ∧ ((sphere trig segments).elements.length : Int) = 6 * segments.x * segments.y
    ∧ (∀ x, x ∈ sphereElements segments →
        0 ≤ x ∧ x < ((sphere trig segments).vertices.length : Int))
    ∧ (∀ i, i ∈ (sphere trig segments).elements → i < (sphere trig segments).vertices.length)
    ∧ (sphere trig segments).ebo = (sphere trig segments).elements
    ∧ (sphere trig segments).elementCount = (sphere trig segments).elements.length := by
  have hv : ((sphere trig segments).vertices.length : Int)
      = (segments.x + 1) * (segments.y + 1) := by
    show ((sphereVertices trig segments).length : Int) = _
    unfold sphereVertices
    rw [length_flatten_map_const _ (segments.x + 1 - 0).toNat
      (fun lat => by rw [List.length_map, intRange_length]), intRange_length]
    push_cast
    rw [Int.toNat_of_nonneg (by omega), Int.toNat_of_nonneg (by omega)]
    ring
  have he : ((sphere trig segments).elements.length : Int) = 6 * segments.x * segments.y := by
    show ((List.map toGLuint (sphereElements segments)).length : Int) = _
    rw [List.length_map]
    unfold sphereElements
    rw [length_flatten_map_const _ ((segments.x + 1 - 1).toNat * 6)
      (fun lat => by
        rw [length_flatten_map_const (fun lng => sphereQuad segments lat lng) 6
          (fun lng => rfl), intRange_length]),
      intRange_length]
    push_cast
    rw [Int.toNat_of_nonneg (by omega), Int.toNat_of_nonneg (by omega)]
    ring
  refine ⟨hv, he, ?_, ?_, rfl, rfl⟩
  · intro x hxe
    rw [hv]
    exact sphereElements_bounds segments x hxe
  · intro i hi
    have hi2 : i ∈ (sphereElements segments).map toGLuint := hi
    obtain ⟨x, hxe, e⟩ := List.mem_map.mp hi2
    obtain ⟨b1, b2⟩ := sphereElements_bounds segments x hxe
    rw [← hv] at b2
    rw [← e]
    unfold toGLuint
    omega

/-- Witness of C30: the sky sphere, `sphere(16, 16)`, has 289 vertices and
1536 indices. -/
theorem sphere_counts_witness :
    ((sphere sampleTrig ⟨16, 16⟩).vertices.length : Int) = (16 + 1) * (16 + 1)
    ∧ ((sphere sampleTrig ⟨16, 16⟩).elements.length : Int) = 6 * 16 * 16
    ∧ (∀ i, i ∈ (sphere sampleTrig ⟨16, 16⟩).elements →
        i < (sphere sampleTrig ⟨16, 16⟩).vertices.length) :=
  ⟨(sphere_counts sampleTrig ⟨16, 16⟩ (by decide) (by decide)).1,
   (sphere_counts sampleTrig ⟨16, 16⟩ (by decide) (by decide)).2.1,
   (sphere_counts sampleTrig ⟨16, 16⟩ (by decide) (by decide)).2.2.2.1⟩

/-! ## The submeshes of a loaded model -/

theorem foldl_invariant {α β : Type} (P : β → Prop) (f : β → α → β)
    (hf : ∀ b a, P b → P (f b a)) : ∀ (l : List α) (b : β), P b → P (l.foldl f b) := by
  intro l
  induction l with
  | nil => intro b hb; exact hb
  | cons a rest ih => intro b hb; exact ih (f b a) (hf b a hb)

theorem mapFind_mem {κ ν : Type} [DecidableEq κ] (k : κ) (v : ν) :
    ∀ m : List (κ × ν), mapFind k m = some v → ∃ e, e ∈ m ∧ e.2 = v := by
  intro m
  induction m with
  | nil => intro h; exact absurd h (by simp [mapFind])
  | cons e rest ih =>
    intro h
    unfold mapFind at h
    split_ifs at h
    · exact ⟨e, List.mem_cons_self e rest, Option.some.inj h⟩
    · obtain ⟨e2, h1, h2⟩ := ih h
      exact ⟨e2, List.mem_cons_of_mem e h1, h2⟩

theorem mapSet_mem {κ ν : Type} [DecidableEq κ] (k : κ) (v : ν) (x : κ × ν) :
    ∀ m : List (κ × ν), x ∈ mapSet k v m → x ∈ m ∨ x = (k, v) := by
  intro m
  induction m with
  | nil =>
    intro h
    exact Or.inr (List.mem_singleton.mp h)
  | cons e rest ih =>
    intro h
    unfold mapSet at h
    split_ifs at h
    · rcases List.mem_cons.mp h with h1 | h1
      · exact Or.inr h1
      · exact Or.inl (List.mem_cons_of_mem e h1)
    · rcases List.mem_cons.mp h with h1 | h1
      · exact Or.inl (h1 ▸ List.mem_cons_self e rest)
      · rcases ih h1 with h2 | h2
        · exact Or.inl (List.mem_cons_of_mem e h2)
        · exact Or.inr h2

theorem pushIndex_mem (mat_id : Int) (x : Nat) (e : Int × List Nat) (i : Nat) :
    ∀ l : List (Int × List Nat), e ∈ pushIndex mat_id x l → i ∈ e.2 →
      i = x ∨ ∃ e0, e0 ∈ l ∧ i ∈ e0.2 := by
  intro l
  induction l with
  | nil =>
    intro h hi
    rw [List.mem_singleton.mp h] at hi
    exact Or.inl (List.mem_singleton.mp hi)
  | cons e1 rest ih =>
    intro h hi
    unfold pushIndex at h
    split_ifs at h
    · rcases List.mem_cons.mp h with h1 | h1
      · rw [h1] at hi
        rcases List.mem_append.mp hi with h2 | h2
        · exact Or.inr ⟨e1, List.mem_cons_self e1 rest, h2⟩
        · exact Or.inl (List.mem_singleton.mp h2)
      · exact Or.inr ⟨e, List.mem_cons_of_mem e1 h1, hi⟩
    · rcases List.mem_cons.mp h with h1 | h1
      · exact Or.inr ⟨e1, List.mem_cons_self e1 rest, h1 ▸ hi⟩
      · rcases ih h1 hi with h2 | ⟨e0, h3, h4⟩
        · exact Or.inl h2
        · exact Or.inr ⟨e0, List.mem_cons_of_mem e1 h3, h4⟩

theorem addIndex_bounded (attrib : attrib_t) (mat_id : Int) (st : LoadState) (idx : index_t)
    (h : st.Bounded) : (addIndex attrib mat_id st idx).Bounded := by
  obtain ⟨hmap, hper⟩ := h
  unfold addIndex
  cases hf : mapFind (makeVertex attrib idx) st.vertex_map with
  | none =>
    have hnew : st.vertices.length % 2 ^ 32 < st.vertices.length + 1 :=
      Nat.lt_succ_of_le (Nat.mod_le _ _)
    constructor
    · intro e he
      show e.2 < (st.vertices ++ [makeVertex attrib idx]).length
      rw [List.length_append, List.length_singleton]
      rcases mapSet_mem _ _ e _ he with h1 | h1
      · exact Nat.lt_succ_of_lt (hmap e h1)
      · rw [h1]
        exact hnew
    · intro e he i hi
      show i < (st.vertices ++ [makeVertex attrib idx]).length
      rw [List.length_append, List.length_singleton]
      rcases pushIndex_mem _ _ e i _ he hi with h1 | ⟨e0, h2, h3⟩
      · rw [h1]
        exact hnew
      · exact Nat.lt_succ_of_lt (hper e0 h2 i h3)
  | some idx_final =>
    obtain ⟨e1, hm1, hm2⟩ := mapFind_mem _ _ _ hf
    constructor
    · exact hmap
    · intro e he i hi
      rcases pushIndex_mem _ _ e i _ he hi with h1 | ⟨e0, h2, h3⟩
      · rw [h1, ← hm2]
        exact hmap e1 hm1
      · exact hper e0 h2 i h3

theorem processFace_bounded (obj : ObjData) (mesh : mesh_t) (acc : LoadState × Nat) (f : Nat)
    (h : acc.1.Bounded) : (processFace obj mesh acc f).1.Bounded := by
  unfold processFace
  apply foldl_invariant LoadState.Bounded
  · intro st v hst
    exact addIndex_bounded _ _ st _ hst
  · exact h

theorem processShapes_bounded (obj : ObjData) : (processShapes obj).Bounded := by
  unfold processShapes
  apply foldl_invariant LoadState.Bounded
  · intro st shape hst
    unfold processShape
    exact foldl_invariant (fun acc : LoadState × Nat => acc.1.Bounded) _
      (fun acc f hacc => processFace_bounded obj shape.mesh acc f hacc) _ (st, 0) hst
  · exact ⟨fun e he => absurd he (List.not_mem_nil e),
      fun e he => absurd he (List.not_mem_nil e)⟩

theorem buildStep_length (names : List (Int × String)) (acc : List Nat × List Submesh)
    (kv : Int × List Nat) : acc.1.length ≤ (buildStep names acc kv).1.length := by
  unfold buildStep
  split_ifs
  · exact le_refl _
  · show acc.1.length ≤ (acc.1 ++ kv.2).length
    rw [List.length_append]
    exact Nat.le_add_right _ _

theorem buildLoop_length (names : List (Int × String)) :
    ∀ (entries : List (Int × List Nat)) (acc : List Nat × List Submesh),
      acc.1.length ≤ (entries.foldl (buildStep names) acc).1.length := by
  intro entries
  induction entries with
  | nil => intro acc; exact le_refl _
  | cons kv rest ih =>
    intro acc
    exact le_trans (buildStep_length names acc kv) (ih (buildStep names acc kv))

theorem buildLoop_mem (names : List (Int × String)) :
    ∀ (entries : List (Int × List Nat)) (acc : List Nat × List Submesh) (i : Nat),
      i ∈ (entries.foldl (buildStep names) acc).1 →
      i ∈ acc.1 ∨ ∃ kv, kv ∈ entries ∧ i ∈ kv.2 := by
  intro entries
  induction entries with
  | nil => intro acc i h; exact Or.inl h
  | cons kv rest ih =>
    intro acc i h
    rcases ih (buildStep names acc kv) i h with h1 | ⟨kv2, h2, h3⟩
    · unfold buildStep at h1
      split_ifs at h1
      · exact Or.inl h1
      · rcases List.mem_append.mp h1 with h4 | h4
        · exact Or.inl h4
        · exact Or.inr ⟨kv, List.mem_cons_self kv rest, h4⟩
    · exact Or.inr ⟨kv2, List.mem_cons_of_mem kv h2, h3⟩

theorem buildStep_inv (names : List (Int × String)) (acc : List Nat × List Submesh)
    (kv : Int × List Nat) (h : BuildInv acc)
    (hsize : (buildStep names acc kv).1.length < 2 ^ 32) :
    BuildInv (buildStep names acc kv) := by
  unfold buildStep at hsize ⊢
  by_cases hkv : kv.2 = []
  · rw [if_pos hkv]
    exact h
  · rw [if_neg hkv] at hsize ⊢
    obtain ⟨⟨t1, t2, t3, t4⟩, hlast, hnil⟩ := h
    have hlen : (acc.1 ++ kv.2).length = acc.1.length + kv.2.length := List.length_append _ _
    have hsize2 : acc.1.length + kv.2.length < 2 ^ 32 := by
      rw [← hlen]
      exact hsize
    have hpos : 0 < kv.2.length := List.length_pos.mpr hkv
    have ho : acc.1.length % 2 ^ 32 = acc.1.length := Nat.mod_eq_of_lt (by omega)
    have hc : kv.2.length % 2 ^ 32 = kv.2.length := Nat.mod_eq_of_lt (by omega)
    rw [ho, hc]
    refine ⟨⟨?_, ?_, ?_, ?_⟩, ?_, ?_⟩
    · intro s hs
      rcases List.mem_append.mp hs with h1 | h1
      · exact t1 s h1
      · rw [List.mem_singleton.mp h1]
        exact hpos
    · intro s hs
      cases hsubs : acc.2 with
      | nil =>
        have hs2 : s = ⟨acc.1.length, kv.2.length, (mapFind kv.1 names).getD ""⟩ := by
          simp only [hsubs, List.nil_append, List.head?_cons] at hs
          exact (Option.some.inj hs).symm
        rw [hs2, hnil hsubs]
        rfl
      | cons s0 rest =>
        apply t2 s
        simp only [hsubs, List.cons_append, List.head?_cons] at hs
        rw [hsubs]
        exact hs
    · apply List.chain'_append.mpr
      refine ⟨t3, List.chain'_singleton _, ?_⟩
      intro a ha b hb
      have hb2 : b = ⟨acc.1.length, kv.2.length, (mapFind kv.1 names).getD ""⟩ := by
        simp only [List.head?_cons, Option.mem_def] at hb
        exact (Option.some.inj hb).symm
      rw [hb2]
      exact (hlast a ha).symm
    · show ((acc.2 ++ [_]).map fun (s : Submesh) => s.count).sum = (acc.1 ++ kv.2).length
      rw [List.map_append, List.sum_append, t4, hlen]
      simp
    · intro s hs
      have hs2 : s = ⟨acc.1.length, kv.2.length, (mapFind kv.1 names).getD ""⟩ := by
        have h5 : (acc.2 ++ [(⟨acc.1.length, kv.2.length,
            (mapFind kv.1 names).getD ""⟩ : Submesh)]).getLast? = some s := hs
        rw [List.getLast?_concat] at h5
        exact (Option.some.inj h5).symm
      rw [hs2]
      exact hlen.symm
    · intro hn
      exact absurd hn (by simp)

theorem buildLoop_inv (names : List (Int × String)) :
    ∀ (entries : List (Int × List Nat)) (acc : List Nat × List Submesh),
      BuildInv acc → (entries.foldl (buildStep names) acc).1.length < 2 ^ 32 →
      BuildInv (entries.foldl (buildStep names) acc) := by
  intro entries
  induction entries with
  | nil => intro acc h _; exact h
  | cons kv rest ih =>
    intro acc h hsize
    apply ih (buildStep names acc kv) _ hsize
    apply buildStep_inv names acc kv h
    exact lt_of_le_of_lt (buildLoop_length names rest (buildStep names acc kv)) hsize

theorem buildInv_initial : BuildInv ([], []) :=
  ⟨⟨fun s hs => absurd hs (List.not_mem_nil s), fun s hs => absurd hs (by simp),
    List.chain'_nil, rfl⟩, fun s hs => absurd hs (by simp), fun _ => rfl⟩

/-- C26: for every model that `tinyobj::LoadObj` parses, and for every order
in which the loop visits the per-material lists, `loadOBJ` returns a mesh
whose direct element list is empty, whose element count is the length of
its index buffer, and in whose index buffer every index is below the number
of vertices. When the index buffer has fewer than `2 ^ 31` entries, so that
its length fits the `GLsizei` element count and the `GLuint` offsets, the
submeshes tile it: every submesh has a positive count, the first has offset
0, each following one has as offset the previous offset plus the previous
count, and the counts sum to the element count. -/
theorem loadOBJ_submeshes (obj : ObjData)
    (order : List (Int × List Nat) → List (Int × List Nat))
    (horder : ∀ l, (order l).Perm l) :
    ∃ mesh, loadOBJ (some obj) order = some mesh
      ∧ mesh.elements = []
      ∧ mesh.elementCount = mesh.ebo.length
      ∧ (∀ i, i ∈ mesh.ebo → i < mesh.vertices.length)
      ∧ (mesh.ebo.length < 2 ^ 31 →
          (∀ s, s ∈ mesh.submeshes → 0 < s.count)
          ∧ (∀ s, mesh.submeshes.head? = some s → s.offset = 0)
          ∧ List.Chain' (fun a b => b.offset = a.offset + a.count) mesh.submeshes
          ∧ (mesh.submeshes.map fun s => s.count).sum = mesh.elementCount) := by
  refine ⟨_, rfl, rfl, rfl, ?_, ?_⟩
  · intro i hi
    have hi2 : i ∈ ((order (processShapes obj).perMaterialIndices).foldl
        (buildStep (processShapes obj).materialNames) ([], [])).1 := hi
    rcases buildLoop_mem _ _ _ i hi2 with h1 | ⟨kv, h2, h3⟩
    · exact absurd h1 (List.not_mem_nil i)
    · exact (processShapes_bounded obj).2 kv ((horder _).subset h2) i h3
  · intro hsize
    have hsize2 : ((order (processShapes obj).perMaterialIndices).foldl
        (buildStep (processShapes obj).materialNames) ([], [])).1.length < 2 ^ 32 :=
      lt_trans hsize (by norm_num)
    obtain ⟨⟨t1, t2, t3, t4⟩, _, _⟩ := buildLoop_inv (processShapes obj).materialNames
      (order (processShapes obj).perMaterialIndices) ([], []) buildInv_initial hsize2
    exact ⟨t1, t2, t3, t4⟩

/-- Witness of C26: the sample model, its two per-material lists visited in
the reverse of their order of creation: six indices, two submeshes of three. -/
theorem loadOBJ_submeshes_witness :
    ∃ mesh, loadOBJ (some sampleObj) List.reverse = some mesh
      ∧ (∀ i, i ∈ mesh.ebo → i < mesh.vertices.length)
      ∧ (mesh.submeshes.map fun s => s.count).sum = mesh.elementCount := by
  obtain ⟨mesh, h1, _, _, h4, h5⟩ := loadOBJ_submeshes sampleObj List.reverse
    (fun l => List.reverse_perm l)
  have hlen : (loadOBJ (some sampleObj) List.reverse).map (fun m => m.ebo.length)
      = some 6 := by decide
  rw [h1] at hlen
  have hlen2 : mesh.ebo.length = 6 := Option.some.inj hlen
  exact ⟨mesh, h1, h4, (h5 (by rw [hlen2]; norm_num)).2.2.2⟩

/-! ## Synchronisation through the owner pointer -/

theorem scene_syncStep_fixed (s : Scene) (c : Nat) :
    (s.syncStep c).heap = s.heap ∧ (s.syncStep c).getOwner = s.getOwner := by
  unfold Scene.syncStep
  by_cases hm : 0 < (s.heap.components c).mass
  · rw [if_pos hm]
    unfold Scene.syncToEntity
    cases hb : (s.heap.components c).rigidBody with
    | none => exact ⟨rfl, rfl⟩
    | some p =>
      cases ho : s.getOwner c with
      | none => exact ⟨rfl, rfl⟩
      | some e =>
        show (if (s.heap.components c).mass = 0 then s else _).heap = s.heap
          ∧ (if (s.heap.components c).mass = 0 then s else _).getOwner = s.getOwner
        rw [if_neg (ne_of_gt hm)]
        exact ⟨rfl, rfl⟩
  · rw [if_neg hm]
    exact ⟨rfl, rfl⟩

theorem scene_syncStep_unmoved (s : Scene) (c e : Nat)
    (hno : ¬ SyncsTo s.heap.components s.getOwner c e) :
    (s.syncStep c).entities e = s.entities e := by
  unfold Scene.syncStep
  by_cases hm : 0 < (s.heap.components c).mass
  · rw [if_pos hm]
    unfold Scene.syncToEntity
    cases hb : (s.heap.components c).rigidBody with
    | none => rfl
    | some p =>
      cases ho : s.getOwner c with
      | none => rfl
      | some e0 =>
        have hne : e ≠ e0 := by
          intro he
          apply hno
          refine ⟨?_, ?_, hm⟩
          · rw [ho, he]
          · rw [hb]
            exact Option.some_ne_none p
        simp only [if_neg (ne_of_gt hm)]
        exact Function.update_noteq hne _ _
  · rw [if_neg hm]

theorem scene_syncStep_moved (s : Scene) (c p e : Nat)
    (hb : (s.heap.components c).rigidBody = some p) (ho : s.getOwner c = some e)
    (hm : 0 < (s.heap.components c).mass) :
    ((s.syncStep c).entities e).localTransform.position
      = (bodyMotionState s.heap p).origin.sub (s.heap.components c).centerOffset := by
  unfold Scene.syncStep
  rw [if_pos hm]
  unfold Scene.syncToEntity
  simp only [hb, ho, if_neg (ne_of_gt hm), Function.update_same]

theorem scene_syncLoop_cons (s : Scene) (c : Nat) (rest : List Nat) :
    s.syncLoop (c :: rest) = (s.syncStep c).syncLoop rest := rfl

theorem scene_syncLoop_unmoved (hp : Heap) (g : Nat → Option Nat) (e : Nat) (l : List Nat) :
    ∀ s : Scene, s.heap = hp → s.getOwner = g →
      (∀ d, d ∈ l → ¬ SyncsTo hp.components g d e) →
      (s.syncLoop l).entities e = s.entities e
        ∧ (s.syncLoop l).heap = hp ∧ (s.syncLoop l).getOwner = g := by
  induction l with
  | nil =>
    intro s h1 h2 _
    exact ⟨rfl, h1, h2⟩
  | cons d rest ih =>
    intro s h1 h2 hno
    obtain ⟨f1, f2⟩ := scene_syncStep_fixed s d
    obtain ⟨r1, r2, r3⟩ := ih (s.syncStep d) (f1.trans h1) (f2.trans h2)
      (fun x hx => hno x (List.mem_cons_of_mem d hx))
    rw [scene_syncLoop_cons]
    refine ⟨?_, r2, r3⟩
    rw [r1]
    apply scene_syncStep_unmoved
    rw [h1, h2]
    exact hno d (List.mem_cons_self d rest)

theorem scene_syncLoop_moved (hp : Heap) (g : Nat → Option Nat) (c p e : Nat)
    (hb : (hp.components c).rigidBody = some p) (ho : g c = some e)
    (hm : 0 < (hp.components c).mass) (l : List Nat) :
    ∀ s : Scene, s.heap = hp → s.getOwner = g → c ∈ l →
      (∀ d, d ∈ l → d ≠ c → ¬ SyncsTo hp.components g d e) →
      ((s.syncLoop l).entities e).localTransform.position
        = (bodyMotionState hp p).origin.sub (hp.components c).centerOffset := by
  induction l with
  | nil =>
    intro s _ _ hc _
    exact absurd hc (List.not_mem_nil c)
  | cons d rest ih =>
    intro s h1 h2 hc hsole
    obtain ⟨f1, f2⟩ := scene_syncStep_fixed s d
    rw [scene_syncLoop_cons]
    by_cases hcr : c ∈ rest
    · exact ih (s.syncStep d) (f1.trans h1) (f2.trans h2) hcr
        (fun x hx hne => hsole x (List.mem_cons_of_mem d hx) hne)
    · have hdc : d = c := by
        rcases List.mem_cons.mp hc with h3 | h3
        · exact h3.symm
        · exact absurd h3 hcr
      obtain ⟨r1, _, _⟩ := scene_syncLoop_unmoved hp g e rest (s.syncStep d)
        (f1.trans h1) (f2.trans h2)
        (fun x hx => hsole x (List.mem_cons_of_mem d hx)
          (fun hxc => hcr (hxc ▸ hx)))
      rw [r1, hdc]
      have h4 := scene_syncStep_moved s c p e (by rw [h1]; exact hb) (by rw [h2]; exact ho)
        (by rw [h1]; exact hm)
      rw [h4, h1]

theorem scene_update_some (ext : External) (s : Scene) (sys : PhysicsSystem) (dt : ℚ)
    (w : btDiscreteDynamicsWorld) (hw : sys.dynamicsWorld = some w) :
    Scene.update ext s sys dt
      = (Scene.syncLoop { s with heap := (w.stepSimulation ext s.heap dt 10 (1 / 60)).1 }
           sys.colliders,
         { sys with dynamicsWorld := some (w.stepSimulation ext s.heap dt 10 (1 / 60)).2 }) := by
  unfold Scene.update
  simp only [hw]

theorem scene_syncLoop_fixed (l : List Nat) :
    ∀ s : Scene, (s.syncLoop l).heap = s.heap ∧ (s.syncLoop l).getOwner = s.getOwner := by
  induction l with
  | nil => intro s; exact ⟨rfl, rfl⟩
  | cons d rest ih =>
    intro s
    obtain ⟨f1, f2⟩ := scene_syncStep_fixed s d
    obtain ⟨r1, r2⟩ := ih (s.syncStep d)
    rw [scene_syncLoop_cons]
    exact ⟨r1.trans f1, r2.trans f2⟩

/-- What one `update` keeps: the components, the owner pointers, the tracked
list and whether a world exists. -/
theorem scene_update_preserve (ext : External) (s : Scene) (sys : PhysicsSystem) (dt : ℚ) :
    (Scene.update ext s sys dt).1.heap.components = s.heap.components
    ∧ (Scene.update ext s sys dt).1.getOwner = s.getOwner
    ∧ (Scene.update ext s sys dt).2.colliders = sys.colliders
    ∧ ((Scene.update ext s sys dt).2.dynamicsWorld = none ↔ sys.dynamicsWorld = none) := by
  cases hw : sys.dynamicsWorld with
  | none =>
    have e : Scene.update ext s sys dt = (s, sys) := by
      unfold Scene.update
      simp only [hw]
    rw [e]
    exact ⟨rfl, rfl, rfl, by simp [hw]⟩
  | some w =>
    rw [scene_update_some ext s sys dt w hw]
    obtain ⟨r1, r2⟩ := scene_syncLoop_fixed sys.colliders
      { s with heap := (w.stepSimulation ext s.heap dt 10 (1 / 60)).1 }
    dsimp only
    rw [r1, r2]
    exact ⟨rfl, rfl, rfl, by simp⟩

/-- One `update` leaves an entity as it is when the loop writes to it through
no tracked collider. -/
theorem scene_update_unmoved (ext : External) (s : Scene) (sys : PhysicsSystem) (dt : ℚ)
    (e : Nat)
    (hno : ∀ d, d ∈ sys.colliders → ¬ SyncsTo s.heap.components s.getOwner d e) :
    (Scene.update ext s sys dt).1.entities e = s.entities e := by
  cases hw : sys.dynamicsWorld with
  | none =>
    have e1 : Scene.update ext s sys dt = (s, sys) := by
      unfold Scene.update
      simp only [hw]
    rw [e1]
  | some w =>
    rw [scene_update_some ext s sys dt w hw]
    exact (scene_syncLoop_unmoved (w.stepSimulation ext s.heap dt 10 (1 / 60)).1 s.getOwner e
      sys.colliders { s with heap := (w.stepSimulation ext s.heap dt 10 (1 / 60)).1 }
      rfl rfl hno).1

/-- After one `update` on an initialised registry, the entity that owns a
tracked collider of positive mass with a body, and through no other tracked
collider is written to, sits at the origin of the body's motion state minus
the offset. -/
theorem scene_update_moved (ext : External) (s : Scene) (sys : PhysicsSystem) (dt : ℚ)
    (w : btDiscreteDynamicsWorld) (c p e : Nat) (hw : sys.dynamicsWorld = some w)
    (hc : c ∈ sys.colliders) (hb : (s.heap.components c).rigidBody = some p)
    (ho : s.getOwner c = some e) (hm : 0 < (s.heap.components c).mass)
    (hsole : ∀ d, d ∈ sys.colliders → d ≠ c → ¬ SyncsTo s.heap.components s.getOwner d e) :
    ((Scene.update ext s sys dt).1.entities e).localTransform.position
      = (bodyMotionState (Scene.update ext s sys dt).1.heap p).origin.sub
          (s.heap.components c).centerOffset := by
  rw [scene_update_some ext s sys dt w hw]
  obtain ⟨r1, _⟩ := scene_syncLoop_fixed sys.colliders
    { s with heap := (w.stepSimulation ext s.heap dt 10 (1 / 60)).1 }
  dsimp only
  rw [r1]
  exact scene_syncLoop_moved (w.stepSimulation ext s.heap dt 10 (1 / 60)).1 s.getOwner c p e
    hb ho hm sys.colliders { s with heap := (w.stepSimulation ext s.heap dt 10 (1 / 60)).1 }
    rfl rfl hc hsole

theorem scene_updates_cons (ext : External) (s : Scene) (sys : PhysicsSystem) (dt : ℚ)
    (dts : List ℚ) :
    Scene.updates ext s sys (dt :: dts)
      = Scene.updates ext (Scene.update ext s sys dt).1 (Scene.update ext s sys dt).2 dts :=
  rfl

theorem scene_updates_concat (ext : External) (s : Scene) (sys : PhysicsSystem)
    (dts : List ℚ) (dt : ℚ) :
    Scene.updates ext s sys (dts ++ [dt])
      = Scene.update ext (Scene.updates ext s sys dts).1 (Scene.updates ext s sys dts).2 dt := by
  unfold Scene.updates
  rw [List.foldl_append]
  rfl

/-- What any number of updates keeps, and that they leave an entity as it is
when the loop writes to it through no tracked collider. -/
theorem scene_updates_preserve (ext : External) (e : Nat) (dts : List ℚ) :
    ∀ (s : Scene) (sys : PhysicsSystem),
      (Scene.updates ext s sys dts).1.heap.components = s.heap.components
      ∧ (Scene.updates ext s sys dts).1.getOwner = s.getOwner
      ∧ (Scene.updates ext s sys dts).2.colliders = sys.colliders
      ∧ ((Scene.updates ext s sys dts).2.dynamicsWorld = none ↔ sys.dynamicsWorld = none)
      ∧ ((∀ d, d ∈ sys.colliders → ¬ SyncsTo s.heap.components s.getOwner d e) →
          (Scene.updates ext s sys dts).1.entities e = s.entities e) := by
  induction dts with
  | nil =>
    intro s sys
    exact ⟨rfl, rfl, rfl, Iff.rfl, fun _ => rfl⟩
  | cons dt rest ih =>
    intro s sys
    obtain ⟨a1, a2, a3, a4⟩ := scene_update_preserve ext s sys dt
    obtain ⟨b1, b2, b3, b4, b5⟩ := ih (Scene.update ext s sys dt).1 (Scene.update ext s sys dt).2
    rw [scene_updates_cons]
    refine ⟨b1.trans a1, b2.trans a2, b3.trans a3, b4.trans a4, ?_⟩
    intro hno
    rw [b5 (by rw [a1, a2, a3]; exact hno)]
    exact scene_update_unmoved ext s sys dt e hno

/-- C13, amended: after any number of consecutive updates of an initialised
registry, take a tracked collider with a body and an owner such that the
loop writes to that owner through no other tracked collider (no other
tracked collider with a body and a positive mass has the same owner). If its
mass is positive then, after at least one update, the owner's local position
is the origin of the body's motion state minus `centerOffset`; if its mass
is 0 the owner is exactly what it was, position, rotation and scale
included. The owner is reached through the pointer `getOwner()`, which the
components of one entity share. -/
theorem scene_updates_sync (ext : External) (s : Scene) (sys : PhysicsSystem)
    (w : btDiscreteDynamicsWorld) (dts : List ℚ) (c p e : Nat)
    (hw : sys.dynamicsWorld = some w) (hc : c ∈ sys.colliders)
    (hb : (s.heap.components c).rigidBody = some p) (ho : s.getOwner c = some e)
    (hsole : ∀ d, d ∈ sys.colliders → d ≠ c →
      ¬ SyncsTo s.heap.components s.getOwner d e) :
    (0 < (s.heap.components c).mass → dts ≠ [] →
      ((Scene.updates ext s sys dts).1.entities e).localTransform.position
        = (bodyMotionState (Scene.updates ext s sys dts).1.heap p).origin.sub
            (s.heap.components c).centerOffset)
    ∧ ((s.heap.components c).mass = 0 →
        (Scene.updates ext s sys dts).1.entities e = s.entities e
        ∧ ((Scene.updates ext s sys dts).1.entities e).localTransform
            = (s.entities e).localTransform) := by
  refine ⟨?_, ?_⟩
  · intro hm hne
    rcases List.eq_nil_or_concat dts with hnil | ⟨init, dt, hcat⟩
    · exact absurd hnil hne
    · rw [hcat, List.concat_eq_append, scene_updates_concat]
      obtain ⟨a1, a2, a3, a4, _⟩ := scene_updates_preserve ext e init s sys
      have hw2 : (Scene.updates ext s sys init).2.dynamicsWorld ≠ none := by
        intro h0
        rw [a4.mp h0] at hw
        exact absurd hw (by simp)
      obtain ⟨w1, hw1⟩ := Option.ne_none_iff_exists'.mp hw2
      have hmoved := scene_update_moved ext (Scene.updates ext s sys init).1
        (Scene.updates ext s sys init).2 dt w1 c p e hw1 (by rw [a3]; exact hc)
        (by rw [a1]; exact hb) (by rw [a2]; exact ho) (by rw [a1]; exact hm)
        (by rw [a1, a2, a3]; exact hsole)
      rw [hmoved, a1]
  · intro hm
    have hno : ∀ d, d ∈ sys.colliders → ¬ SyncsTo s.heap.components s.getOwner d e := by
      intro d hd hs
      by_cases hdc : d = c
      · rw [hdc] at hs
        have h0 := hs.2.2
        rw [hm] at h0
        exact lt_irrefl 0 h0
      · exact hsole d hd hdc hs
    have hsame := (scene_updates_preserve ext e dts s sys).2.2.2.2 hno
    exact ⟨hsame, by rw [hsame]⟩

theorem sampleRegistered_colliders : sampleRegistered.2.colliders = [0, 1] := rfl

theorem sampleRegistered_static_mass : (sampleRegistered.1.components 1).mass = 0 := rfl

/-- Witness of C13, amended: the two registered sample colliders on one
entity; the one of mass 70 is the only one through which the loop writes. -/
theorem scene_updates_sync_witness :
    ((Scene.updates sampleExternal sampleSharedScene sampleRegistered.2
        [1 / 60, 1 / 60]).1.entities 0).localTransform.position
      = (bodyMotionState (Scene.updates sampleExternal sampleSharedScene sampleRegistered.2
          [1 / 60, 1 / 60]).1.heap 0).origin.sub
          (sampleSharedScene.heap.components 0).centerOffset :=
  (scene_updates_sync sampleExternal sampleSharedScene sampleRegistered.2 _ [1 / 60, 1 / 60]
    0 0 0 sampleRegistered_world (by decide) rfl rfl
    (by
      intro d hd hne hs
      rw [sampleRegistered_colliders] at hd
      have hd1 : d = 1 := by
        rcases List.mem_cons.mp hd with h0 | h0
        · exact absurd h0 hne
        · exact List.mem_singleton.mp h0
      have hm := hs.2.2
      rw [hd1] at hm
      have hm2 : (0 : ℚ) < (sampleRegistered.1.components 1).mass := hm
      rw [sampleRegistered_static_mass] at hm2
      exact lt_irrefl 0 hm2)).1
    (by
      show (0 : ℚ) < (sampleRegistered.1.components 0).mass
      rw [sampleRegistered_mass]
      norm_num)
    (by simp)

/-- Counterexample to C13 as stated: the two registered sample colliders on
one entity. The static trigger at address 1 is tracked, has a body, the
entity at address 0 as owner and mass 0; one update moves that entity from
`(1, 2, 3)` to `(1, 119/60, 3)`, through the sync of the collider of mass 70
at address 0, which has the same owner. -/
theorem scene_update_moves_static_owner :
    sampleRegistered.2.colliders = [0, 1]
    ∧ (sampleSharedScene.heap.components 1).mass = 0
    ∧ (sampleSharedScene.heap.components 1).rigidBody = some 1
    ∧ sampleSharedScene.getOwner 1 = some 0
    ∧ sampleSharedScene.getOwner 0 = some 0
    ∧ (sampleSharedScene.entities 0).localTransform.position = ⟨1, 2, 3⟩
    ∧ ((Scene.update sampleExternal sampleSharedScene sampleRegistered.2
        (1 / 60)).1.entities 0).localTransform.position = ⟨1, 119 / 60, 3⟩ := by
  refine ⟨rfl, rfl, rfl, rfl, rfl, rfl, ?_⟩
  have hmoved := scene_update_moved sampleExternal sampleSharedScene sampleRegistered.2
    (1 / 60) _ 0 0 0 sampleRegistered_world (by decide) rfl rfl
    (by
      show (0 : ℚ) < (sampleRegistered.1.components 0).mass
      rw [sampleRegistered_mass]
      norm_num)
    (by
      intro d hd hne hs
      rw [sampleRegistered_colliders] at hd
      have hd1 : d = 1 := by
        rcases List.mem_cons.mp hd with h0 | h0
        · exact absurd h0 hne
        · exact List.mem_singleton.mp h0
      have hm := hs.2.2
      rw [hd1] at hm
      have hm2 : (0 : ℚ) < (sampleRegistered.1.components 1).mass := hm
      rw [sampleRegistered_static_mass] at hm2
      exact lt_irrefl 0 hm2)
  have horigin : (bodyMotionState (Scene.update sampleExternal sampleSharedScene
      sampleRegistered.2 (1 / 60)).1.heap 0).origin = ⟨1 + 0, 2 + 0 - 1 / 60, 3 + 0⟩ := rfl
  have hoffset : (sampleSharedScene.heap.components 0).centerOffset = ⟨0, 0, 0⟩ := rfl
  rw [hmoved, horigin, hoffset]
  simp only [Vec3.sub, Vec3.mk.injEq]
  norm_num

/-! ## The body after `addRigidBody` -/

/-- With a world, the gravity and the activation state of the body left in
the heap are those that the library's `addRigidBody` gives the configured
body. -/
theorem initializeCollider_after_add (ext : External) (h : Heap) (this : Nat)
    (w : btDiscreteDynamicsWorld) (owner : Entity) (shape : Shape)
    (ho : (h.components this).owner = some owner)
    (hs : createShape (h.components this) (ext.getLocalToWorldMatrix owner) = some shape) :
    ∃ stored : btRigidBody,
      (initializeCollider ext h this (some w)).1.rigidBodies.get? h.rigidBodies.length
          = some stored
      ∧ stored.gravity = ext.gravityOnAdd w
          (configuredBody ext (h.components this) shape h.motionStates.length)
      ∧ stored.activationState = ext.activationStateOnAdd w
          (configuredBody ext (h.components this) shape h.motionStates.length) := by
  rw [initializeCollider_rigidBodies ext h this (some w) owner shape ho hs]
  exact ⟨_, get?_append_length _ _, rfl, rfl⟩

/-- C5, evaluated at the failing input: the sample collider (a box of mass 70,
not a trigger, configured friction 1/2) registered on the sample system, whose
world has the gravity `(0, -9.8, 0)`, with the library stand-in that, as
Bullet's `addRigidBody` does, gives a body that is not static the gravity of
the world. `initialize` hands the body to `addRigidBody` with gravity
`(0, 0, 0)`, but the body that is then in the world has the gravity
`(0, -9.8, 0)`. Its angular factor, linear factor, friction, inertia and
activation state are those of the dynamic-body configuration. -/
theorem registerCollider_gravity_overwritten :
    (sampleHeap.components 0).mass = 70
    ∧ (sampleHeap.components 0).isTrigger = false
    ∧ (sampleHeap.components 0).friction = 1 / 2
    ∧ (configuredBody sampleExternal (sampleHeap.components 0) (Shape.box ⟨1, 1, 1⟩) 0).gravity
        = ⟨0, 0, 0⟩
    ∧ ((PhysicsSystem.registerCollider sampleExternal sampleHeap sampleSystem
          (some 0)).1.rigidBodies.get? 0).map (fun b => b.gravity)
        = some ⟨0, -98 / 10, 0⟩
    ∧ ((PhysicsSystem.registerCollider sampleExternal sampleHeap sampleSystem
          (some 0)).1.rigidBodies.get? 0).map
          (fun b => (b.angularFactor, b.linearFactor, b.friction, b.localInertia,
            b.activationState))
        = some (⟨0, 0, 0⟩, ⟨1, 1, 1⟩, 1, ⟨70, 70, 70⟩, 4)
    ∧ ((PhysicsSystem.registerCollider sampleExternal sampleHeap sampleSystem
          (some 0)).2.dynamicsWorld).map (fun w => (w.collisionObjects, w.gravity))
        = some ([0], ⟨0, -98 / 10, 0⟩) :=
  ⟨rfl, rfl, rfl, rfl, rfl, rfl, rfl⟩

end our
